import Mathlib

/-!
# Fingerprint attendance system: attendance ledger, payroll and reconciliation

A shallow embedding of the client-side flows of the fingerprint attendance
application (`src/app/attendance/page.js`, `src/app/employees/page.js`,
`src/app/employees/[id]/EmployeeDetail.js`, `src/app/page.js`).

Modelling conventions
* The record store (two tables) is an explicit state, `Store`; every flow is a
  function from its environment and the store to the new store and what it
  reports.
* Instants are integers, milliseconds since the epoch.  The local time zone is
  a fixed offset `tz` in milliseconds (local time = instant + `tz`).
* Money and day counts are rationals.  `employeeStats` and `monthlyPayDetail`
  carry the exact values of the source's expressions; `toDouble`,
  `totalSalaryDouble` and `monthlyPayShown` give the IEEE doubles JavaScript
  computes for them.
* A call to the device answers with a `DeviceResponse`; a store call may be
  made to fail by a fault supplied in the environment of the flow.
-/

namespace FingerprintAttendance

/-! ## Data model -/

/-- A row of the `employees` table. -/
structure Employee where
  id : Nat
  employee_id : String
  name : String
  department : String
  position : String
  salary : Option ℚ
  fingerprint_id : Option Nat
deriving DecidableEq

/-- A row of the `attendance_records` table. -/
structure AttendanceRecord where
  id : Nat
  employee_id : Nat
  created_at : Int
  type : String
  status : String
  is_half_day : Bool
deriving DecidableEq

/-- The error object a store call answers with. -/
structure StoreError where
  code : String
  message : String
deriving DecidableEq

/-- The record store: the two tables and the next identity it hands out. -/
structure Store where
  employees : List Employee
  attendance_records : List AttendanceRecord
  nextId : Nat

/-- What a request to the device comes back with: `ok` carries the parsed body
of a response with `response.ok`, `notOk` the `error` field of a response
without it, `failed` a request that throws (network failure, timeout, a body
that is not JSON) with the message of the thrown error. -/
inductive DeviceResponse (α : Type) where
  | ok (data : α)
  | notOk (error : Option String)
  | failed (message : String)

/-! ## Time -/

/-- Milliseconds in a day. -/
def msPerDay : Int := 86400000

/-- The local calendar day (days since the epoch) of the instant `t`:
what `new Date(t).toLocaleDateString()` distinguishes. -/
def localDay (tz t : Int) : Int := (t + tz) / msPerDay

/-- The instant of local midnight opening the day of `now`:
`today = new Date(); today.setHours(0, 0, 0, 0)`. -/
def startOfDay (tz now : Int) : Int := localDay tz now * msPerDay - tz

/-! ## Store queries -/

/-- The JavaScript `x || d` on an optional string: an absent or empty string
gives the default. -/
def orDefault (x : Option String) (d : String) : String :=
  match x with
  | some m => if m = "" then d else m
  | none => d

/-- The `.single()` modifier: exactly one row, otherwise error `PGRST116`. -/
def single {α : Type} (rows : List α) : Except StoreError α :=
  match rows with
  | [x] => .ok x
  | _ => .error ⟨"PGRST116", "JSON object requested, multiple (or no) rows returned"⟩

/-- The query `from('employees').select('*').eq('fingerprint_id', f).single()`. -/
def employeeByFingerprint (fault : Option StoreError) (s : Store) (f : Nat) :
    Except StoreError Employee :=
  match fault with
  | some err => .error err
  | none => single (s.employees.filter (fun e => e.fingerprint_id = some f))

/-- The `.order('created_at', { ascending: true })` modifier. -/
def orderByCreatedAt (rows : List AttendanceRecord) : List AttendanceRecord :=
  rows.insertionSort (fun a b => a.created_at ≤ b.created_at)

/-- The rows selected by `.eq('employee_id', id).gte('created_at', today)`. -/
def recordsSince (s : Store) (employeeId : Nat) (today : Int) : List AttendanceRecord :=
  s.attendance_records.filter (fun r => r.employee_id = employeeId ∧ today ≤ r.created_at)

/-- The query for today's records in `checkAttendance`:
`select('type').eq('employee_id', id).gte('created_at', today).order('created_at')`. -/
def todayRecordsQuery (fault : Option StoreError) (s : Store) (employeeId : Nat) (today : Int) :
    Except StoreError (List String) :=
  match fault with
  | some err => .error err
  | none => .ok ((orderByCreatedAt (recordsSince s employeeId today)).map (fun r => r.type))

/-- The fields an insert into `attendance_records` supplies; the store fills in
the rest (`id`, and `created_at` and `is_half_day` when absent). -/
structure InsertRow where
  employee_id : Nat
  type : String
  status : String
  is_half_day : Option Bool
  created_at : Option Int

/-- The `from('attendance_records').insert([row])` call at store time `storeNow`:
the new row gets the next identity, `created_at` defaults to the time of the
insert and `is_half_day` to false. -/
def insertAttendance (fault : Option StoreError) (storeNow : Int) (s : Store) (row : InsertRow) :
    Except StoreError Store :=
  match fault with
  | some err => .error err
  | none =>
    .ok { s with
      attendance_records := s.attendance_records ++
        [{ id := s.nextId, employee_id := row.employee_id,
           created_at := row.created_at.getD storeNow, type := row.type,
           status := row.status, is_half_day := row.is_half_day.getD false }],
      nextId := s.nextId + 1 }

/-! ## The verify flow (`checkAttendance`, attendance page) -/

/-- The `punchResult` the attendance page shows. -/
structure PunchResult where
  success : Bool
  message : String
  employee : Option Employee
  type : Option String
  time : Option Int
deriving DecidableEq

/-- Everything outside the store that one run of `checkAttendance` depends on:
the zone, the instant `now` of the run (read by the client's `new Date()` and,
the insert supplying no `created_at`, by the store for the new row), the answer
of the device to `verify`, and the faults of the three store calls. -/
structure VerifyEnv where
  tz : Int
  now : Int
  device : DeviceResponse Nat
  employeeFault : Option StoreError
  recordsFault : Option StoreError
  insertFault : Option StoreError

/-- The choice of clock type from today's records (`決定打卡類型`): `none` is
the branch that writes nothing. -/
def decideType (todayRecords : List String) : Option String :=
  if todayRecords.length = 0 then some "in"
  else if todayRecords.length = 1 ∧ todayRecords[0]? = some "in" then some "out"
  else none

/-- The result set in the `catch` block: the thrown errors are objects, never
strings. -/
def punchFailed : PunchResult :=
  { success := false, message := "打卡失敗", employee := none, type := none, time := none }

/-- The result for a fingerprint no employee row matches. -/
def punchUnregistered : PunchResult :=
  { success := false, message := "此指紋未註冊員工信息", employee := none, type := none,
    time := none }

/-- The result when today's records admit no further clock event. -/
def punchAlreadyCompleted (employee : Employee) : PunchResult :=
  { success := false, message := "今天已完成上下班打卡", employee := some employee,
    type := none, time := none }

/-- The result of a stored clock event. -/
def punchSuccess (employee : Employee) (type : String) (now : Int) : PunchResult :=
  { success := true, message := (if type = "in" then "上班" else "下班") ++ "打卡成功！",
    employee := some employee, type := some type, time := some now }

/-- One run of `checkAttendance`: the new store and the punch result. -/
def checkAttendance (env : VerifyEnv) (s : Store) : Store × PunchResult :=
  match env.device with
  | .failed _ => (s, punchFailed)
  | .notOk error =>
    (s, { success := false, message := orDefault error "指紋驗證失敗", employee := none,
          type := none, time := none })
  | .ok fingerprintId =>
    match employeeByFingerprint env.employeeFault s fingerprintId with
    | .error employeeError =>
      if employeeError.code = "PGRST116" then (s, punchUnregistered) else (s, punchFailed)
    | .ok employee =>
      match todayRecordsQuery env.recordsFault s employee.id (startOfDay env.tz env.now) with
      | .error _ => (s, punchFailed)
      | .ok todayRecords =>
        match decideType todayRecords with
        | none => (s, punchAlreadyCompleted employee)
        | some type =>
          match insertAttendance env.insertFault env.now s
              { employee_id := employee.id, type := type, status := "present",
                is_half_day := none, created_at := none } with
          | .error _ => (s, punchFailed)
          | .ok s' => (s', punchSuccess employee type env.now)

/-- The environment of a run in which the device matches fingerprint `f` and
every store call answers. -/
def verifyOk (tz now : Int) (f : Nat) : VerifyEnv :=
  { tz := tz, now := now, device := .ok f, employeeFault := none, recordsFault := none,
    insertFault := none }

/-- The row a verification-driven append stores. -/
def clockRecord (id employeeId : Nat) (now : Int) (type : String) : AttendanceRecord :=
  { id := id, employee_id := employeeId, created_at := now, type := type,
    status := "present", is_half_day := false }

/-! ## The ledger under verification-driven appends -/

/-- The types of the records of employee `emp` dated on local day `day`, ordered
by timestamp. -/
def dayTypes (tz : Int) (s : Store) (emp : Nat) (day : Int) : List String :=
  (orderByCreatedAt (s.attendance_records.filter
    (fun r => r.employee_id = emp ∧ localDay tz r.created_at = day))).map (fun r => r.type)

/-- The states reachable from an empty attendance ledger by runs of the verify
flow at non-decreasing instants, in the zone `tz`: `VerifyReachable tz s t`
says that `s` is reached with no run later than `t`.  The employee table is
arbitrary and may change between runs; the device and the faults of each run
are arbitrary. -/
inductive VerifyReachable (tz : Int) : Store → Int → Prop where
  | empty (emps : List Employee) (n : Nat) (t : Int) : VerifyReachable tz ⟨emps, [], n⟩ t
  | employees (s : Store) (t : Int) (emps : List Employee) :
      VerifyReachable tz s t → VerifyReachable tz { s with employees := emps } t
  | run (s : Store) (t : Int) (env : VerifyEnv) :
      VerifyReachable tz s t → env.tz = tz → t ≤ env.now →
      VerifyReachable tz (checkAttendance env s).1 env.now

/-- The valid sequences of clock types within one day of one employee. -/
def ValidDay (types : List String) : Prop :=
  types = [] ∨ types = ["in"] ∨ types = ["in", "out"]

/-- The invariant of a ledger built by verification-driven appends up to the
instant `t`: no record is dated after `t`, the records are stored in timestamp
order, and every day of every employee holds a valid sequence. -/
def LedgerInv (tz : Int) (recs : List AttendanceRecord) (t : Int) : Prop :=
  (∀ r ∈ recs, r.created_at ≤ t) ∧
  recs.Sorted (fun a b => a.created_at ≤ b.created_at) ∧
  ∀ (emp : Nat) (day : Int), ValidDay ((recs.filter
    (fun r => r.employee_id = emp ∧ localDay tz r.created_at = day)).map (fun r => r.type))

/-! ## Monthly payroll (`fetchEmployees`, employee list page) -/

/-- The JavaScript `x || 0` on a number. -/
def numOrZero (x : ℚ) : ℚ := if x = 0 then 0 else x

/-- The expression `employee.salary || 0`: a missing salary counts as 0. -/
def salaryOrZero (salary : Option ℚ) : ℚ :=
  match salary with
  | some x => numOrZero x
  | none => 0

/-- The object built by grouping records by date: its keys, here the local day
of the date string, in the order of insertion, each with its array of records. -/
abbrev DailyRecords := List (Int × List AttendanceRecord)

/-- One step of the grouping `reduce`: create the day's array if the key is
absent, then push the record onto it. -/
def groupStep (tz : Int) (acc : DailyRecords) (record : AttendanceRecord) : DailyRecords :=
  let date := localDay tz record.created_at
  if acc.any (fun p => p.1 = date) then
    acc.map (fun p => if p.1 = date then (p.1, p.2 ++ [record]) else p)
  else acc ++ [(date, [record])]

/-- The grouping of records by date (`按日期分組打卡記錄`). -/
def groupByDay (tz : Int) (records : List AttendanceRecord) : DailyRecords :=
  records.foldl (groupStep tz) []

/-- The call `Object.values(dailyRecords)`. -/
def objectValues (daily : DailyRecords) : List (List AttendanceRecord) :=
  daily.map (fun p => p.2)

/-- The test `records.some(r => r.type === 'in')`. -/
def hasIn (records : List AttendanceRecord) : Bool := records.any (fun r => r.type = "in")

/-- The test `records.some(r => r.type === 'out')`. -/
def hasOut (records : List AttendanceRecord) : Bool := records.any (fun r => r.type = "out")

/-- The test `records.some(r => r.is_half_day)`. -/
def hasHalfDay (records : List AttendanceRecord) : Bool := records.any (fun r => r.is_half_day)

/-- The two counters of the day loop. -/
structure DayCount where
  fullDays : Nat
  halfDays : Nat
deriving DecidableEq

/-- The body of the `forEach` over the days. -/
def countDay (acc : DayCount) (records : List AttendanceRecord) : DayCount :=
  if hasIn records && hasOut records then
    if hasHalfDay records then { acc with halfDays := acc.halfDays + 1 }
    else { acc with fullDays := acc.fullDays + 1 }
  else acc

/-- The day loop from `fullDays = 0`, `halfDays = 0`. -/
def countDays (days : List (List AttendanceRecord)) : DayCount :=
  days.foldl countDay ⟨0, 0⟩

/-- The expression `fullDays + (halfDays * 0.5)`. -/
def daysWorkedOf (fullDays halfDays : Nat) : ℚ := fullDays + halfDays * (1 / 2)

/-- An employee row extended with the month's figures. -/
structure EmployeeStats where
  employee : Employee
  fullDays : Nat
  halfDays : Nat
  daysWorked : ℚ
  totalSalary : ℚ
deriving DecidableEq

/-- The per-employee computation in `fetchEmployees`.  The counters are exact;
`daysWorked` and `totalSalary` carry the exact values of their expressions,
and `totalSalaryDouble` gives the double the code holds for the pay. -/
def employeeStats (tz : Int) (attendanceData : List AttendanceRecord) (employee : Employee) :
    EmployeeStats :=
  let employeeAttendance := attendanceData.filter (fun record => record.employee_id = employee.id)
  let dailyRecords := groupByDay tz employeeAttendance
  let count := countDays (objectValues dailyRecords)
  let totalSalary := daysWorkedOf count.fullDays count.halfDays * salaryOrZero employee.salary
  { employee := employee, fullDays := count.fullDays, halfDays := count.halfDays,
    daysWorked := daysWorkedOf count.fullDays count.halfDays, totalSalary := totalSalary }

/-- The aggregate over all employees. -/
structure TotalStats where
  totalEmployees : Nat
  totalWorkDays : ℚ
  totalSalary : ℚ
deriving DecidableEq

/-- The aggregating `reduce` in `fetchEmployees` (`計算總統計數據`). -/
def totalStats (employeesWithStats : List EmployeeStats) : TotalStats :=
  employeesWithStats.foldl
    (fun acc employee =>
      { totalEmployees := acc.totalEmployees + 1,
        totalWorkDays := acc.totalWorkDays + numOrZero employee.daysWorked,
        totalSalary := acc.totalSalary + numOrZero employee.totalSalary })
    { totalEmployees := 0, totalWorkDays := 0, totalSalary := 0 }

/-- The computation of `fetchEmployees` once its two queries have answered:
the employees with their figures, and the aggregate. -/
def fetchEmployeesCompute (tz : Int) (employeesData : List Employee)
    (attendanceData : List AttendanceRecord) : List EmployeeStats × TotalStats :=
  let employeesWithStats := employeesData.map (employeeStats tz attendanceData)
  (employeesWithStats, totalStats employeesWithStats)

/-! ## Calendar dates and the month range -/

/-- The day number (days since 1970-01-01) of the Gregorian date `y`-`m`-`d`,
`m` from 1 to 12. -/
def daysFromCivil (y m d : Int) : Int :=
  let y1 := if m ≤ 2 then y - 1 else y
  let era := y1 / 400
  let yoe := y1 - era * 400
  let mp := (m + 9) % 12
  let doy := (153 * mp + 2) / 5 + d - 1
  let doe := yoe * 365 + yoe / 4 - yoe / 100 + doy
  era * 146097 + doe - 719468

/-- The Gregorian date (year, month from 1 to 12, day of month) of a day number. -/
def civilOfDay (day : Int) : Int × Int × Int :=
  let z := day + 719468
  let era := z / 146097
  let doe := z - era * 146097
  let yoe := (doe - doe / 1460 + doe / 36524 - doe / 146096) / 365
  let doy := doe - (365 * yoe + yoe / 4 - yoe / 100)
  let mp := (5 * doy + 2) / 153
  let d := doy - (153 * mp + 2) / 5 + 1
  let m := if mp < 10 then mp + 3 else mp - 9
  (if m ≤ 2 then yoe + era * 400 + 1 else yoe + era * 400, m, d)

/-- The instant of `new Date(year, monthIndex, day)`: local midnight of the
given day, the month index and the day overflowing into the neighbouring months
and years, a year from 0 to 99 standing for 1900 + year. -/
def jsDate (tz : Int) (year monthIndex day : Int) : Int :=
  let yr := if 0 ≤ year ∧ year ≤ 99 then 1900 + year else year
  (daysFromCivil (yr + monthIndex / 12) (monthIndex % 12 + 1) 1 + (day - 1)) * msPerDay - tz

/-- The bounds `{ startOfMonth, endOfMonth }` of `getMonthDates` for the month
string `year-month`; the detail page computes `startDate` and `endDate` by the
same two expressions. -/
def getMonthDates (tz : Int) (year month : Int) : Int × Int :=
  (jsDate tz year (month - 1) 1, jsDate tz year month 0)

/-- The month's attendance query:
`.gte('created_at', startOfMonth).lte('created_at', endOfMonth)`. -/
def monthAttendance (s : Store) (range : Int × Int) : List AttendanceRecord :=
  s.attendance_records.filter (fun r => range.1 ≤ r.created_at ∧ r.created_at ≤ range.2)

/-- The function `fetchEmployees` for the selected month: the two queries, then
the computation; a failing query leaves the figures of the page as they were
(`none`).  The employee query orders its rows by `created_at`, newest first;
the rows carry no such column here and the table is taken to hold them in the
order the query returns. -/
def fetchEmployees (employeesFault attendanceFault : Option StoreError) (tz : Int)
    (year month : Int) (s : Store) : Option (List EmployeeStats × TotalStats) :=
  match employeesFault with
  | some _ => none
  | none =>
    match attendanceFault with
    | some _ => none
    | none => some (fetchEmployeesCompute tz s.employees (monthAttendance s (getMonthDates tz year month)))

/-- The `.order('created_at', { ascending: false })` modifier. -/
def orderByCreatedAtDesc (rows : List AttendanceRecord) : List AttendanceRecord :=
  rows.insertionSort (fun a b => b.created_at ≤ a.created_at)

/-- The grouped records `fetchEmployeeData` computes for the detail page of
employee `id` in the selected month. -/
def detailRecords (tz : Int) (year month : Int) (s : Store) (id : Nat) : DailyRecords :=
  let range := getMonthDates tz year month
  groupByDay tz (orderByCreatedAtDesc (s.attendance_records.filter
    (fun r => r.employee_id = id ∧ range.1 ≤ r.created_at ∧ r.created_at ≤ range.2)))

/-- An instant lies in the calendar month `year-month` of the zone: from local
midnight of the first of the month up to, not including, local midnight of
the first of the next month. -/
def inCalendarMonth (tz : Int) (year month : Int) (t : Int) : Prop :=
  jsDate tz year (month - 1) 1 ≤ t ∧ t < jsDate tz year month 1

instance (tz year month t : Int) : Decidable (inCalendarMonth tz year month t) := by
  unfold inCalendarMonth
  infer_instance

/-! ## Deleting an employee (`handleDelete`, employee list page) -/

/-- The query `from('employees').select('fingerprint_id').eq('id', id).single()`. -/
def fingerprintOfEmployee (fault : Option StoreError) (s : Store) (id : Nat) :
    Except StoreError (Option Nat) :=
  match fault with
  | some err => .error err
  | none => (single (s.employees.filter (fun e => e.id = id))).map (fun e => e.fingerprint_id)

/-- The call `from('employees').delete().eq('id', id)`; the store deletes the
attendance records of the employee with it (`打卡記錄會通過級聯刪除自動刪除`). -/
def deleteEmployee (fault : Option StoreError) (s : Store) (id : Nat) : Except StoreError Store :=
  match fault with
  | some err => .error err
  | none =>
    .ok { s with
      employees := s.employees.filter (fun e => e.id ≠ id),
      attendance_records := s.attendance_records.filter (fun r => r.employee_id ≠ id) }

/-- The truthiness of `employee.fingerprint_id`: present and not 0. -/
def truthyId (fingerprint_id : Option Nat) : Option Nat :=
  match fingerprint_id with
  | some f => if f = 0 then none else some f
  | none => none

/-- Everything outside the store that one run of `handleDelete` depends on: the
answer to the confirmation dialog, the faults of the two store calls, and the
device's answer to `delete`, consulted only if the call is made. -/
structure DeleteEnv where
  confirmed : Bool
  fetchFault : Option StoreError
  deleteFault : Option StoreError
  device : DeviceResponse Unit

/-- What a run of `handleDelete` leaves: the store, the message set (none when
the dialog is dismissed), and the id the device `delete` was called with, if it
was called. -/
structure DeleteOutcome where
  store : Store
  message : Option String
  deviceDelete : Option Nat

/-- The message of full success. -/
def msgDeleted : String := "員工和相關數據已完全刪除"

/-- The warning: employee removed, device cleanup failed. -/
def msgDeletedDeviceFailed : String := "員工已刪除，但指紋刪除失敗"

/-- The generic failure message of the `catch` block. -/
def msgDeleteFailed (errorMessage : String) : String := "刪除失敗: " ++ errorMessage

/-- One run of `handleDelete` on the employee with identity `id`. -/
def handleDelete (env : DeleteEnv) (s : Store) (id : Nat) : DeleteOutcome :=
  if !env.confirmed then { store := s, message := none, deviceDelete := none }
  else
    match fingerprintOfEmployee env.fetchFault s id with
    | .error fetchError =>
      { store := s, message := some (msgDeleteFailed fetchError.message), deviceDelete := none }
    | .ok fingerprint_id =>
      match deleteEmployee env.deleteFault s id with
      | .error deleteError =>
        { store := s, message := some (msgDeleteFailed deleteError.message),
          deviceDelete := none }
      | .ok s' =>
        match truthyId fingerprint_id with
        | some f =>
          match env.device with
          | .failed errorMessage =>
            { store := s', message := some (msgDeleteFailed errorMessage), deviceDelete := some f }
          | .notOk _ =>
            { store := s', message := some msgDeletedDeviceFailed, deviceDelete := some f }
          | .ok _ => { store := s', message := some msgDeleted, deviceDelete := some f }
        | none => { store := s', message := some msgDeleted, deviceDelete := none }

/-! ## Monthly figures on the employee detail page -/

/-- The full-day count rendered on the detail page. -/
def fullDaysDetail (attendanceRecords : DailyRecords) : Nat :=
  ((objectValues attendanceRecords).filter
    (fun records => hasIn records && hasOut records && !hasHalfDay records)).length

/-- The half-day count rendered on the detail page. -/
def halfDaysDetail (attendanceRecords : DailyRecords) : Nat :=
  ((objectValues attendanceRecords).filter
    (fun records => hasIn records && hasOut records && hasHalfDay records)).length

/-- The amount the detail page computes for the month, the argument of
`toFixed(2)`, in exact arithmetic (`monthlyPayShown` is what the page shows,
computed in doubles). -/
def monthlyPayDetail (attendanceRecords : DailyRecords) (employee : Employee) : ℚ :=
  daysWorkedOf (fullDaysDetail attendanceRecords) (halfDaysDetail attendanceRecords) *
    salaryOrZero employee.salary

/-- The number shown by `x.toFixed(2)` for a number whose exact value is `x`:
`x` rounded to the nearest hundredth, a tie going away from zero. -/
def toFixed2 (x : ℚ) : ℚ :=
  if x < 0 then -((⌊(-x) * 100 + 1 / 2⌋ : ℤ) : ℚ) / 100 else ((⌊x * 100 + 1 / 2⌋ : ℤ) : ℚ) / 100

/-! ## Pay in IEEE doubles -/

/-- Rounding of a rational to the nearest integer, a tie going to the even
neighbour. -/
def roundHalfEven (x : ℚ) : ℤ :=
  let f := ⌊x⌋
  if x - f < 1 / 2 then f
  else if 1 / 2 < x - f then f + 1
  else if f % 2 = 0 then f else f + 1

/-- The IEEE 754 double nearest to `x` (round to nearest, ties to even), for
magnitudes in the normal range of doubles: with `e` the binary exponent of
`x`, the multiple of `2 ^ (e - 52)` nearest to `x`.  It is the value a
JavaScript number holds for the real number `x`, and the result of a
JavaScript arithmetic operation whose exact result is `x`. -/
def toDouble (x : ℚ) : ℚ :=
  if x = 0 then 0
  else (roundHalfEven (x / (2 : ℚ) ^ (Int.log 2 |x| - 52)) : ℚ) * (2 : ℚ) ^ (Int.log 2 |x| - 52)

/-- The number JavaScript computes for
`(fullDays + (halfDays * 0.5)) * (employee.salary || 0)`: the salary is the
double of the stored value, and each of the three operations rounds its exact
result to a double. -/
def totalSalaryDouble (fullDays halfDays : Nat) (salary : Option ℚ) : ℚ :=
  toDouble (toDouble ((fullDays : ℚ) + toDouble ((halfDays : ℚ) * (1 / 2))) *
    toDouble (salaryOrZero salary))

/-- The amount the detail page shows for the month:
`((fullDays + halfDays * 0.5) * (employee.salary || 0)).toFixed(2)`. -/
def monthlyPayShown (attendanceRecords : DailyRecords) (employee : Employee) : ℚ :=
  toFixed2 (totalSalaryDouble (fullDaysDetail attendanceRecords) (halfDaysDetail attendanceRecords)
    employee.salary)

/-! ## Days of a record list, as the specification counts them -/

/-- The distinct local days of a list of records, in order of first occurrence. -/
def daysInOrder (tz : Int) (records : List AttendanceRecord) : List Int :=
  records.foldl
    (fun acc r => if localDay tz r.created_at ∈ acc then acc else acc ++ [localDay tz r.created_at])
    []

/-- The records of a list dated on local day `d`. -/
def recordsOn (tz : Int) (records : List AttendanceRecord) (d : Int) : List AttendanceRecord :=
  records.filter (fun r => localDay tz r.created_at = d)

/-- Following the specification: the list has a record of type `ty` dated `d`. -/
def hasTypeOn (tz : Int) (records : List AttendanceRecord) (d : Int) (ty : String) : Bool :=
  records.any (fun r => localDay tz r.created_at = d ∧ r.type = ty)

/-- Following the specification: the list has a half-day-flagged record dated `d`. -/
def hasHalfOn (tz : Int) (records : List AttendanceRecord) (d : Int) : Bool :=
  records.any (fun r => localDay tz r.created_at = d ∧ r.is_half_day = true)

/-- Following the specification: the number of distinct calendar dates on which
the list has an `in`, an `out` and no half-day-flagged record. -/
def specFullDays (tz : Int) (records : List AttendanceRecord) : Nat :=
  ((records.map (fun r => localDay tz r.created_at)).toFinset.filter
    (fun d => hasTypeOn tz records d "in" = true ∧ hasTypeOn tz records d "out" = true ∧
      hasHalfOn tz records d = false)).card

/-- Following the specification: the number of distinct calendar dates on which
the list has an `in`, an `out` and some half-day-flagged record. -/
def specHalfDays (tz : Int) (records : List AttendanceRecord) : Nat :=
  ((records.map (fun r => localDay tz r.created_at)).toFinset.filter
    (fun d => hasTypeOn tz records d "in" = true ∧ hasTypeOn tz records d "out" = true ∧
      hasHalfOn tz records d = true)).card

/-- Following the specification: the calendar dates that count, those on which
the list has a record of type `in` and a record of type `out`. -/
def specCountedDays (tz : Int) (records : List AttendanceRecord) : Finset Int :=
  (records.map (fun r => localDay tz r.created_at)).toFinset.filter
    (fun d => hasTypeOn tz records d "in" = true ∧ hasTypeOn tz records d "out" = true)

/-! ## Employee codes (`generateEmployeeId`, `handleCreateEmployee`) -/

/-- The last `k` characters of the decimal numeral of a positive number, as
digits, the most significant first; all of them when the numeral is shorter. -/
def lastDigits : Nat → Nat → List Nat
  | 0, _ => []
  | k + 1, t => if t = 0 then [] else lastDigits k (t / 10) ++ [t % 10]

/-- The expression `timestamp.slice(-6)` for `timestamp = Date.now().toString()`. -/
def sliceLastSix (timestamp : Nat) : String :=
  if timestamp = 0 then "0" else String.mk ((lastDigits 6 timestamp).map Nat.digitChar)

/-- The function `generateEmployeeId` at the instant `now` (milliseconds since
the epoch); `handleCreateEmployee` computes its code by the same expression. -/
def generateEmployeeId (now : Nat) : String := "EMP" ++ sliceLastSix now

/-! ## Creating employees and linking fingerprints -/

/-- The text of a salary field, by what `parseFloat` makes of it: the empty
string, a non-empty text that parses to `NaN`, or a text that parses to a
number. -/
inductive SalaryText where
  | empty
  | notNumeric
  | number (value : ℚ)
deriving DecidableEq

/-- The form state `employeeData` (fingerprint page) and `newEmployee`
(employee list page). -/
structure EmployeeForm where
  name : String
  department : String
  position : String
  salary : SalaryText
deriving DecidableEq

/-- The salary `registerFingerprint` sends:
`employeeData.salary ? parseFloat(employeeData.salary) : 0`; a `NaN` travels
as JSON `null`. -/
def salaryOfRegister (salary : SalaryText) : Option ℚ :=
  match salary with
  | .empty => some 0
  | .notNumeric => none
  | .number value => some value

/-- The salary `handleCreateEmployee` sends: `parseFloat(newEmployee.salary) || 0`. -/
def salaryOfCreate (salary : SalaryText) : Option ℚ :=
  match salary with
  | .empty => some 0
  | .notNumeric => some 0
  | .number value => some (numOrZero value)

/-- The fields an insert into `employees` supplies; the store assigns `id`. -/
structure EmployeeRow where
  name : String
  department : String
  position : String
  employee_id : String
  salary : Option ℚ
  fingerprint_id : Option Nat

/-- The call `from('employees').insert([row])`. -/
def insertEmployee (fault : Option StoreError) (s : Store) (row : EmployeeRow) :
    Except StoreError Store :=
  match fault with
  | some err => .error err
  | none =>
    .ok { s with
      employees := s.employees ++
        [{ id := s.nextId, employee_id := row.employee_id, name := row.name,
           department := row.department, position := row.position, salary := row.salary,
           fingerprint_id := row.fingerprint_id }],
      nextId := s.nextId + 1 }

/-- What a flow that may call the device leaves: the store, the message set,
and whether the device request was issued. -/
structure FlowOutcome where
  store : Store
  message : Option String
  deviceCalled : Bool

/-- Everything outside the store that a run of `registerFingerprint` depends
on: the clock, the answer of the device to `register` (its `id`), and the
fault of the insert. -/
structure RegisterEnv where
  now : Nat
  device : DeviceResponse Nat
  insertFault : Option StoreError

/-- One run of `registerFingerprint` (fingerprint page): enroll, then insert the
employee with the new fingerprint id. -/
def registerFingerprint (env : RegisterEnv) (employeeData : EmployeeForm) (s : Store) :
    FlowOutcome :=
  if employeeData.name = "" then { store := s, message := some "請填寫姓名", deviceCalled := false }
  else
    match env.device with
    | .failed _ => { store := s, message := some "註冊失敗", deviceCalled := true }
    | .notOk error =>
      { store := s, message := some (orDefault error "指紋註冊失敗"), deviceCalled := true }
    | .ok id =>
      match insertEmployee env.insertFault s
          { name := employeeData.name, department := employeeData.department,
            position := employeeData.position, employee_id := generateEmployeeId env.now,
            salary := salaryOfRegister employeeData.salary, fingerprint_id := some id } with
      | .error _ => { store := s, message := some "註冊失敗", deviceCalled := true }
      | .ok s' => { store := s', message := some "員工信息和指紋註冊成功！", deviceCalled := true }

/-- One run of `handleCreateEmployee` (employee list page): insert the employee,
without a fingerprint; no device is involved. -/
def handleCreateEmployee (now : Nat) (insertFault : Option StoreError)
    (newEmployee : EmployeeForm) (s : Store) : Store × String :=
  match insertEmployee insertFault s
      { name := newEmployee.name, department := newEmployee.department,
        position := newEmployee.position, employee_id := "EMP" ++ sliceLastSix now,
        salary := salaryOfCreate newEmployee.salary, fingerprint_id := none } with
  | .error error => (s, "創建失敗: " ++ error.message)
  | .ok s' => (s', "員工創建成功！")

/-- The call `from('employees').update({ fingerprint_id: d }).eq('id', employeeId)`. -/
def updateFingerprint (fault : Option StoreError) (s : Store) (employeeId d : Nat) :
    Except StoreError Store :=
  match fault with
  | some err => .error err
  | none =>
    .ok { s with
      employees := s.employees.map
        (fun e => if e.id = employeeId then { e with fingerprint_id := some d } else e) }

/-- Everything outside the store that a run of `handleRegisterFingerprint`
depends on. -/
structure LinkEnv where
  device : DeviceResponse Nat
  updateFault : Option StoreError

/-- One run of `handleRegisterFingerprint` (employee list page): enroll, then
write the new fingerprint id onto the employee. -/
def handleRegisterFingerprint (env : LinkEnv) (s : Store) (employeeId : Nat) : FlowOutcome :=
  match env.device with
  | .failed errorMessage =>
    { store := s, message := some ("註冊失敗: " ++ errorMessage), deviceCalled := true }
  | .notOk error =>
    { store := s, message := some (orDefault error "指紋註冊失敗"), deviceCalled := true }
  | .ok id =>
    match updateFingerprint env.updateFault s employeeId id with
    | .error error =>
      { store := s, message := some ("註冊失敗: " ++ error.message), deviceCalled := true }
    | .ok s' => { store := s', message := some "指紋註冊成功！", deviceCalled := true }

/-- The condition under which the employee list page offers the
register-fingerprint button for a row: `!employee.fingerprint_id`. -/
def offersRegisterFingerprint (employee : Employee) : Bool :=
  (truthyId employee.fingerprint_id).isNone

/-- The condition under which the employee list page renders the delete button
of a row: `employee.fingerprint_id` is truthy (the other branch of the same
conditional renders the register-fingerprint button). -/
def offersDelete (employee : Employee) : Bool :=
  (truthyId employee.fingerprint_id).isSome

/-- One run of `deleteFingerprint` (fingerprint page): the device request only;
no store call is made. -/
def deleteFingerprint (response : DeviceResponse Unit) (s : Store) (_id : Nat) :
    Store × Option String :=
  match response with
  | .ok _ => (s, some "指紋刪除成功")
  | .notOk _ => (s, none)
  | .failed _ => (s, some "刪除指紋失敗")

/-! ## Profile edits (`handleUpdate`, both pages) -/

/-- The call `from('employees').update({ name, department, position, salary }).eq('id', id)`. -/
def updateProfile (fault : Option StoreError) (s : Store) (id : Nat) (edited : Employee) :
    Except StoreError Store :=
  match fault with
  | some err => .error err
  | none =>
    .ok { s with
      employees := s.employees.map
        (fun e => if e.id = id then
          { e with name := edited.name, department := edited.department,
                   position := edited.position, salary := edited.salary }
        else e) }

/-- One run of `handleUpdate` on the employee list page: `selectedEmployee` is
the row under edit, with the edited fields. -/
def handleUpdate (fault : Option StoreError) (s : Store) (selectedEmployee : Employee) :
    Store × String :=
  match updateProfile fault s selectedEmployee.id selectedEmployee with
  | .error _ => (s, "更新失敗")
  | .ok s' => (s', "員工信息更新成功")

/-- One run of `handleUpdate` on the employee detail page: `employee` is the row
shown, `editingEmployee` holds the edited fields. -/
def handleUpdateDetail (fault : Option StoreError) (s : Store)
    (employee editingEmployee : Employee) : Store × String :=
  match updateProfile fault s employee.id editingEmployee with
  | .error _ => (s, "更新失敗")
  | .ok s' => (s', "員工信息更新成功")

/-! ## The fingerprint list (`fetchFingerprints`, fingerprint page) -/

/-- An entry of the merged list: a device fingerprint with the employee found
for it, if any. -/
structure FingerprintEntry where
  id : Nat
  employee : Option Employee
deriving DecidableEq

/-- One run of `fetchFingerprints`: the ids listed by the device, the employees
whose `fingerprint_id` is among them (`.in('fingerprint_id', ids)`), and the
merge.  `none` is the `catch` block, which leaves the list as it was: a failed
request, a body that is no array of fingerprints, or a failed query.  The
flow does not read `response.ok`; what counts is the body, and a response
without `ok` carries the device's error object, on which `.map` throws. -/
def fetchFingerprints (device : DeviceResponse (List Nat)) (fault : Option StoreError)
    (s : Store) : Option (List FingerprintEntry) :=
  match device with
  | .ok fingerprintData =>
    match fault with
    | some _ => none
    | none =>
      let employees := s.employees.filter
        (fun e => fingerprintData.any (fun id => e.fingerprint_id = some id))
      some (fingerprintData.map
        (fun id => { id := id, employee := employees.find? (fun emp => emp.fingerprint_id = some id) }))
  | .notOk _ => none
  | .failed _ => none

/-! ## Operator edits of attendance records (employee detail page) -/

/-- The form state `editingRecord`. -/
structure EditingRecord where
  id : Nat
  type : String
  is_half_day : Bool
  created_at : Int

/-- The call `from('attendance_records').update({ type, is_half_day }).eq('id', id)`. -/
def updateRecord (fault : Option StoreError) (s : Store) (id : Nat) (type : String)
    (is_half_day : Bool) : Except StoreError Store :=
  match fault with
  | some err => .error err
  | none =>
    .ok { s with
      attendance_records := s.attendance_records.map
        (fun r => if r.id = id then { r with type := type, is_half_day := is_half_day } else r) }

/-- One run of `handleEditRecord`. -/
def handleEditRecord (fault : Option StoreError) (s : Store) (editingRecord : EditingRecord) :
    Store × String :=
  match updateRecord fault s editingRecord.id editingRecord.type editingRecord.is_half_day with
  | .error _ => (s, "更新失敗")
  | .ok s' => (s', "打卡記錄更新成功")

/-- The form state `newRecord`. -/
structure NewRecord where
  date : String
  time : String
  type : String
  is_half_day : Bool

/-- Everything outside the store that a run of `handleAddRecord` depends on:
the reading of a date-time text by `new Date(text)` (`none` for an invalid
date, on which `toISOString()` throws), the clock of the store and the fault
of the insert. -/
structure AddRecordEnv where
  parseDate : String → Option Int
  storeNow : Int
  insertFault : Option StoreError

/-- One run of `handleAddRecord` for the employee shown on the detail page. -/
def handleAddRecord (env : AddRecordEnv) (s : Store) (employee : Employee)
    (newRecord : NewRecord) : Store × String :=
  match env.parseDate (newRecord.date ++ "T" ++ newRecord.time) with
  | none => (s, "添加打卡記錄失敗")
  | some dateTime =>
    match insertAttendance env.insertFault env.storeNow s
        { employee_id := employee.id, type := newRecord.type, status := "present",
          is_half_day := some newRecord.is_half_day, created_at := some dateTime } with
    | .error _ => (s, "添加打卡記錄失敗")
    | .ok s' => (s', "打卡記錄添加成功")

/-! ## The device registry and the reachable states of store and device -/

/-- Modelled from the spec: the device (its firmware is not in the source
tree).  The enrollment ids on the device after an `enroll` request answered by
`response`: a successful enroll creates the entry it returns. -/
def deviceAfterEnroll (enrolled : List Nat) (response : DeviceResponse Nat) : List Nat :=
  match response with
  | .ok id => id :: enrolled
  | .notOk _ => enrolled
  | .failed _ => enrolled

/-- Modelled from the spec: the device (its firmware is not in the source
tree).  The enrollment ids on the device after a `delete(id)` request answered
by `response`: a successful delete destroys the entry. -/
def deviceAfterDelete (enrolled : List Nat) (id : Nat) (response : DeviceResponse Unit) :
    List Nat :=
  match response with
  | .ok _ => enrolled.filter (fun x => x ≠ id)
  | .notOk _ => enrolled
  | .failed _ => enrolled

/-- The store together with the enrollment ids held by the device. -/
structure World where
  store : Store
  enrolled : List Nat

/-- No two employee rows reference the same enrollment id. -/
def NoSharedEnrollment (employees : List Employee) : Prop :=
  employees.Pairwise (fun a b => a.fingerprint_id = b.fingerprint_id → a.fingerprint_id = none)

instance (employees : List Employee) : Decidable (NoSharedEnrollment employees) := by
  unfold NoSharedEnrollment
  infer_instance

/-- The states reachable from an empty store and an empty device registry by
the operations of the application on employees and fingerprints, every device
enroll returning an id not currently enrolled.  With `guarded` true,
`deleteFingerprint` is applied only to ids that no employee references. -/
inductive AppReachable (guarded : Bool) : World → Prop where
  | init (n : Nat) : AppReachable guarded ⟨⟨[], [], n⟩, []⟩
  | register (w : World) (env : RegisterEnv) (employeeData : EmployeeForm) :
      AppReachable guarded w → (∀ d, env.device = .ok d → d ∉ w.enrolled) →
      AppReachable guarded
        ⟨(registerFingerprint env employeeData w.store).store,
          if (registerFingerprint env employeeData w.store).deviceCalled
          then deviceAfterEnroll w.enrolled env.device else w.enrolled⟩
  | create (w : World) (now : Nat) (fault : Option StoreError) (newEmployee : EmployeeForm) :
      AppReachable guarded w →
      AppReachable guarded ⟨(handleCreateEmployee now fault newEmployee w.store).1, w.enrolled⟩
  | link (w : World) (env : LinkEnv) (employeeId : Nat) :
      AppReachable guarded w → (∀ d, env.device = .ok d → d ∉ w.enrolled) →
      AppReachable guarded
        ⟨(handleRegisterFingerprint env w.store employeeId).store,
          deviceAfterEnroll w.enrolled env.device⟩
  | edit (w : World) (fault : Option StoreError) (selectedEmployee : Employee) :
      AppReachable guarded w →
      AppReachable guarded ⟨(handleUpdate fault w.store selectedEmployee).1, w.enrolled⟩
  | editDetail (w : World) (fault : Option StoreError) (employee editingEmployee : Employee) :
      AppReachable guarded w →
      AppReachable guarded
        ⟨(handleUpdateDetail fault w.store employee editingEmployee).1, w.enrolled⟩
  | delete (w : World) (env : DeleteEnv) (id : Nat) :
      AppReachable guarded w →
      AppReachable guarded
        ⟨(handleDelete env w.store id).store,
          match (handleDelete env w.store id).deviceDelete with
          | some f => deviceAfterDelete w.enrolled f env.device
          | none => w.enrolled⟩
  | deleteFingerprint (w : World) (response : DeviceResponse Unit) (id : Nat) :
      AppReachable guarded w →
      (guarded = true → ∀ e ∈ w.store.employees, e.fingerprint_id ≠ some id) →
      AppReachable guarded
        ⟨(deleteFingerprint response w.store id).1, deviceAfterDelete w.enrolled id response⟩

/-- The invariant of store and device under the operations on employees and
fingerprints: employee identities are distinct and below the next identity, no
two employees reference the same enrollment id, and every referenced
enrollment id is on the device. -/
def WorldInv (employees : List Employee) (nextId : Nat) (enrolled : List Nat) : Prop :=
  employees.Pairwise (fun a b => a.id ≠ b.id) ∧
  (∀ e ∈ employees, e.id < nextId) ∧
  NoSharedEnrollment employees ∧
  ∀ e ∈ employees, ∀ f, e.fingerprint_id = some f → f ∈ enrolled

/-! ## Overlapping runs of the verify flow -/

/-- What the reading part of a run of `checkAttendance` hands on: a result
already settled, or the employee and the clock type to insert. -/
inductive VerifyPlan where
  | finished (result : PunchResult)
  | insert (employee : Employee) (type : String)

/-- The part of `checkAttendance` up to the choice of the clock type: the device
request, the employee lookup and the query for today's records.  It reads the
store and writes nothing. -/
def verifyRead (env : VerifyEnv) (s : Store) : VerifyPlan :=
  match env.device with
  | .failed _ => .finished punchFailed
  | .notOk error =>
    .finished { success := false, message := orDefault error "指紋驗證失敗", employee := none,
                type := none, time := none }
  | .ok fingerprintId =>
    match employeeByFingerprint env.employeeFault s fingerprintId with
    | .error employeeError =>
      if employeeError.code = "PGRST116" then .finished punchUnregistered
      else .finished punchFailed
    | .ok employee =>
      match todayRecordsQuery env.recordsFault s employee.id (startOfDay env.tz env.now) with
      | .error _ => .finished punchFailed
      | .ok todayRecords =>
        match decideType todayRecords with
        | none => .finished (punchAlreadyCompleted employee)
        | some type => .insert employee type

/-- The rest of `checkAttendance` (`記錄打卡`): the insert, on the store as it is
when the insert arrives. -/
def verifyWrite (env : VerifyEnv) (s : Store) (plan : VerifyPlan) : Store × PunchResult :=
  match plan with
  | .finished result => (s, result)
  | .insert employee type =>
    match insertAttendance env.insertFault env.now s
        { employee_id := employee.id, type := type, status := "present",
          is_half_day := none, created_at := none } with
    | .error _ => (s, punchFailed)
    | .ok s' => (s', punchSuccess employee type env.now)

/-- Two runs of `checkAttendance` one after the other: the final store and the
two results. -/
def serialRuns (env1 env2 : VerifyEnv) (s : Store) : Store × PunchResult × PunchResult :=
  let first := checkAttendance env1 s
  let second := checkAttendance env2 first.1
  (second.1, first.2, second.2)

/-- Two overlapping runs of `checkAttendance` (two browsers, say): both read the
store before either insert arrives; the inserts then arrive one after the
other. -/
def overlappedRuns (env1 env2 : VerifyEnv) (s : Store) : Store × PunchResult × PunchResult :=
  let plan1 := verifyRead env1 s
  let plan2 := verifyRead env2 s
  let first := verifyWrite env1 s plan1
  let second := verifyWrite env2 first.1 plan2
  (second.1, first.2, second.2)

/-! ## Store and device after a flow -/

/-- Store and device after a run of `registerFingerprint`: its one device
request, when issued, is the enroll. -/
def registerWorld (env : RegisterEnv) (employeeData : EmployeeForm) (w : World) : World :=
  ⟨(registerFingerprint env employeeData w.store).store,
    if (registerFingerprint env employeeData w.store).deviceCalled
    then deviceAfterEnroll w.enrolled env.device else w.enrolled⟩

/-- Store and device after a run of `handleRegisterFingerprint`: its one device
request is the enroll. -/
def linkWorld (env : LinkEnv) (w : World) (employeeId : Nat) : World :=
  ⟨(handleRegisterFingerprint env w.store employeeId).store,
    deviceAfterEnroll w.enrolled env.device⟩

/-- Store and device after a run of `handleDelete`: its one device request, when
issued, is the delete of the fingerprint id it read. -/
def deleteWorld (env : DeleteEnv) (w : World) (id : Nat) : World :=
  ⟨(handleDelete env w.store id).store,
    match (handleDelete env w.store id).deviceDelete with
    | some f => deviceAfterDelete w.enrolled f env.device
    | none => w.enrolled⟩

/-- Store and device after a run of `deleteFingerprint`. -/
def deleteFingerprintWorld (response : DeviceResponse Unit) (w : World) (id : Nat) : World :=
  ⟨(deleteFingerprint response w.store id).1, deviceAfterDelete w.enrolled id response⟩

/-! ## Form constraints and page guards -/

/-- The constraint validation of a salary input (`type="number"`, `min="0"`,
`step="0.01"`, not required), which the browser runs before it fires the
`submit` event of a form. -/
def salaryInputValid (salary : SalaryText) : Bool :=
  match salary with
  | .empty => true
  | .notNumeric => false
  | .number value => decide (0 ≤ value) && decide ((value * 100).den = 1)

/-- The constraint validation of the new-employee form of the employee list
page: the name input is `required`, the salary input is as above. -/
def newEmployeeFormValid (newEmployee : EmployeeForm) : Bool :=
  decide (newEmployee.name ≠ "") && salaryInputValid newEmployee.salary

/-- Pressing the submit button of the new-employee form
(`<form onSubmit={handleCreateEmployee}>`): the handler runs only if the form
passes constraint validation. -/
def submitNewEmployee (now : Nat) (insertFault : Option StoreError) (newEmployee : EmployeeForm)
    (s : Store) : Store × Option String :=
  if newEmployeeFormValid newEmployee then
    ((handleCreateEmployee now insertFault newEmployee s).1,
      some (handleCreateEmployee now insertFault newEmployee s).2)
  else (s, none)

/-- The operations the employee list page binds to its controls. -/
inductive ListPageAction where
  | create (now : Nat) (fault : Option StoreError) (newEmployee : EmployeeForm)
  | update (fault : Option StoreError) (selectedEmployee : Employee)
  | delete (env : DeleteEnv) (id : Nat)
  | registerFingerprint (env : LinkEnv) (employeeId : Nat)

/-- The component `EmployeesPage` under an operator action: with
`isAuthenticated` false it returns `null` (and redirects to the login page), so
no control exists and nothing runs; otherwise the handler bound to the control
runs. -/
def employeesPage (isAuthenticated : Bool) (action : ListPageAction) (w : World) : World :=
  if !isAuthenticated then w
  else
    match action with
    | .create now fault newEmployee =>
      ⟨(handleCreateEmployee now fault newEmployee w.store).1, w.enrolled⟩
    | .update fault selectedEmployee => ⟨(handleUpdate fault w.store selectedEmployee).1, w.enrolled⟩
    | .delete env id => deleteWorld env w id
    | .registerFingerprint env employeeId => linkWorld env w employeeId

/-- The operations the fingerprint management page binds to its controls. -/
inductive HomeAction where
  | register (env : RegisterEnv) (employeeData : EmployeeForm)
  | deleteFingerprint (response : DeviceResponse Unit) (id : Nat)

/-- The component `Home` (fingerprint management page) under an operator action:
the component does not read `isAuthenticated`; the handler bound to the control
runs. -/
def homePage (_isAuthenticated : Bool) (action : HomeAction) (w : World) : World :=
  match action with
  | .register env employeeData => registerWorld env employeeData w
  | .deleteFingerprint response id => deleteFingerprintWorld response w id

/-! ## The list page's figures from grouped records -/

/-- The per-employee computation of `fetchEmployees` from the grouped records
`dailyRecords` on: the day loop and the pay. -/
def statsOfDaily (dailyRecords : DailyRecords) (employee : Employee) : EmployeeStats :=
  let count := countDays (objectValues dailyRecords)
  let totalSalary := daysWorkedOf count.fullDays count.halfDays * salaryOrZero employee.salary
  { employee := employee, fullDays := count.fullDays, halfDays := count.halfDays,
    daysWorked := daysWorkedOf count.fullDays count.halfDays, totalSalary := totalSalary }

/-! ## Sample data -/

/-- A sample employee linked to fingerprint 7. -/
def sampleEmployee : Employee :=
  { id := 1, employee_id := "EMP000001", name := "Lin", department := "Ops",
    position := "Clerk", salary := some 100, fingerprint_id := some 7 }

/-- A sample store: one employee, an empty ledger. -/
def sampleStore : Store :=
  { employees := [sampleEmployee], attendance_records := [], nextId := 1 }

/-- Two operator-entered `in` records on one day and no `out`. -/
def twoInRecords : List AttendanceRecord :=
  [{ id := 1, employee_id := 1, created_at := 32400000, type := "in", status := "present",
     is_half_day := false },
   { id := 2, employee_id := 1, created_at := 36000000, type := "in", status := "present",
     is_half_day := false }]

/-- A complete day (`in` at 09:00, `out` at 18:00) followed by a complete day
whose `out` is flagged as a half day. -/
def fullAndHalfDay : List AttendanceRecord :=
  [{ id := 1, employee_id := 1, created_at := 32400000, type := "in", status := "present",
     is_half_day := false },
   { id := 2, employee_id := 1, created_at := 64800000, type := "out", status := "present",
     is_half_day := false },
   { id := 3, employee_id := 1, created_at := 118800000, type := "in", status := "present",
     is_half_day := false },
   { id := 4, employee_id := 1, created_at := 133200000, type := "out", status := "present",
     is_half_day := true }]

/-- A day with an `in` and an `out` record, none flagged. -/
def completeDay : List AttendanceRecord :=
  [{ id := 1, employee_id := 1, created_at := 32400000, type := "in", status := "present",
     is_half_day := false },
   { id := 2, employee_id := 1, created_at := 64800000, type := "out", status := "present",
     is_half_day := false }]

/-- The records of the specification's round trip, days counted from the first
of the month: `in` at 09:00 and `out` at 18:00 on day 5, `in` at 09:00 on day 10. -/
def roundTripRecords : List AttendanceRecord :=
  [{ id := 1, employee_id := 1, created_at := 4 * 86400000 + 32400000, type := "in",
     status := "present", is_half_day := false },
   { id := 2, employee_id := 1, created_at := 4 * 86400000 + 64800000, type := "out",
     status := "present", is_half_day := false },
   { id := 3, employee_id := 1, created_at := 9 * 86400000 + 32400000, type := "in",
     status := "present", is_half_day := false }]

/-- The offset of a zone eight hours ahead of UTC. -/
def tzTaipei : Int := 28800000

/-- A store whose ledger holds one in/out pair of the sample employee, at 09:00
and 18:00 local time on 31 January 2024. -/
def lastDayStore : Store :=
  { employees := [sampleEmployee],
    attendance_records :=
      [{ id := 1, employee_id := 1, created_at := jsDate tzTaipei 2024 0 31 + 32400000,
         type := "in", status := "present", is_half_day := false },
       { id := 2, employee_id := 1, created_at := jsDate tzTaipei 2024 0 31 + 64800000,
         type := "out", status := "present", is_half_day := false }],
    nextId := 3 }

/-- A run of `handleDelete` that is confirmed, meets no store fault, and whose
device call gets the answer `device`. -/
def deleteEnvWith (device : DeviceResponse Unit) : DeleteEnv :=
  { confirmed := true, fetchFault := none, deleteFault := none, device := device }

/-- A date-time reader that knows one text, 09:00 local time on 31 January 2024
in the zone eight hours ahead of UTC, and finds every other text invalid. -/
def sampleParseDate (text : String) : Option Int :=
  if text = "2024-01-31T09:00" then some 1706662800000 else none

/-- The records of `fullAndHalfDay` in another order. -/
def fullAndHalfDayShuffled : List AttendanceRecord :=
  [{ id := 4, employee_id := 1, created_at := 133200000, type := "out", status := "present",
     is_half_day := true },
   { id := 2, employee_id := 1, created_at := 64800000, type := "out", status := "present",
     is_half_day := false },
   { id := 1, employee_id := 1, created_at := 32400000, type := "in", status := "present",
     is_half_day := false },
   { id := 3, employee_id := 1, created_at := 118800000, type := "in", status := "present",
     is_half_day := false }]

/-- A store in which the sample employee has no record dated today (the epoch
day) and one operator-entered `in` record dated 09:00 the next day. -/
def tomorrowInStore : Store :=
  { employees := [sampleEmployee],
    attendance_records :=
      [{ id := 1, employee_id := 1, created_at := 86400000 + 32400000, type := "in",
         status := "present", is_half_day := false }],
    nextId := 2 }

/-- As `tomorrowInStore`, the operator-entered record being an `out`. -/
def tomorrowOutStore : Store :=
  { employees := [sampleEmployee],
    attendance_records :=
      [{ id := 1, employee_id := 1, created_at := 86400000 + 32400000, type := "out",
         status := "present", is_half_day := false }],
    nextId := 2 }

/-- A second sample employee, without a fingerprint. -/
def unlinkedEmployee : Employee :=
  { id := 2, employee_id := "EMP000002", name := "Wu", department := "Ops",
    position := "Clerk", salary := some 120, fingerprint_id := none }

/-- A store with the sample employee (fingerprint 7) and the unlinked one. -/
def twoEmployeeStore : Store :=
  { employees := [sampleEmployee, unlinkedEmployee], attendance_records := [], nextId := 3 }

/-- A run of `handleRegisterFingerprint` in which the device enrolls under the
id `d` and the store answers. -/
def linkOk (d : Nat) : LinkEnv := { device := .ok d, updateFault := none }

/-- A filled registration form. -/
def sampleForm : EmployeeForm :=
  { name := "Chen", department := "Ops", position := "Clerk", salary := .number 90 }

/-- A run of `registerFingerprint` at which the device enrolls under id 1 and
the store answers. -/
def registerOne (now : Nat) : RegisterEnv := { now := now, device := .ok 1, insertFault := none }

/-- The empty store and the empty device. -/
def world0 : World := ⟨⟨[], [], 1⟩, []⟩

/-- The state after registering a first employee, enrolled under id 1. -/
def world1 : World :=
  ⟨(registerFingerprint (registerOne 1700000123456) sampleForm world0.store).store,
    if (registerFingerprint (registerOne 1700000123456) sampleForm world0.store).deviceCalled
    then deviceAfterEnroll world0.enrolled (registerOne 1700000123456).device
    else world0.enrolled⟩

/-- The state after then deleting fingerprint 1 on the fingerprint page. -/
def world2 : World :=
  ⟨(deleteFingerprint (.ok ()) world1.store 1).1, deviceAfterDelete world1.enrolled 1 (.ok ())⟩

/-- The state after then registering a second employee, the device handing out
the freed id 1 again. -/
def world3 : World :=
  ⟨(registerFingerprint (registerOne 1700000999999) sampleForm world2.store).store,
    if (registerFingerprint (registerOne 1700000999999) sampleForm world2.store).deviceCalled
    then deviceAfterEnroll world2.enrolled (registerOne 1700000999999).device
    else world2.enrolled⟩

/-- A run of `handleRegisterFingerprint` in which the device enrolls under the
id `d` and the store rejects the update. -/
def linkRejected (d : Nat) : LinkEnv :=
  { device := .ok d, updateFault := some ⟨"23505", "duplicate key value"⟩ }

/-- The sample store on a device holding the sample employee's fingerprint 7. -/
def sampleWorld : World := ⟨twoEmployeeStore, [7]⟩

/-- A form with an empty name. -/
def namelessForm : EmployeeForm :=
  { name := "", department := "Ops", position := "Clerk", salary := .number 90 }

/-- A form whose salary text is `-5`. -/
def negativeSalaryForm : EmployeeForm :=
  { name := "Chen", department := "Ops", position := "Clerk", salary := .number (-5) }

/-- A store whose one employee references the enrollment id 0. -/
def zeroIdStore : Store :=
  { employees := [{ sampleEmployee with fingerprint_id := some 0 }], attendance_records := [],
    nextId := 2 }

/-- The records of `fullAndHalfDay` mixed with records of another employee. -/
def mixedRecords : List AttendanceRecord :=
  [{ id := 9, employee_id := 2, created_at := 32400000, type := "in", status := "present",
     is_half_day := true }] ++ fullAndHalfDay ++
  [{ id := 10, employee_id := 2, created_at := 64800000, type := "out", status := "present",
     is_half_day := false }]

/-- A run of `registerFingerprint` at which the device enrolls under id 2 and
the store answers. -/
def registerTwo (now : Nat) : RegisterEnv := { now := now, device := .ok 2, insertFault := none }

/-- The state after `world1` and the registration of a second employee,
enrolled under id 2. -/
def pairWorld : World := registerWorld (registerTwo 1700000999999) sampleForm world1

/-- The state after then a link for the second employee that the store
rejects: enrollment 3 is on the device and no employee references it. -/
def pairWorldOrphan : World := linkWorld (linkRejected 3) pairWorld 2

/-- The state after then deleting the unreferenced fingerprint 3 on the
fingerprint page. -/
def pairWorldCleaned : World := deleteFingerprintWorld (.ok ()) pairWorldOrphan 3

/-- A store in which the sample employee has an `in` record dated today (09:00
of the epoch day) and an operator-entered `in` record dated 09:00 the next day. -/
def todayInTomorrowInStore : Store :=
  { employees := [sampleEmployee],
    attendance_records :=
      [{ id := 1, employee_id := 1, created_at := 32400000, type := "in",
         status := "present", is_half_day := false },
       { id := 2, employee_id := 1, created_at := 86400000 + 32400000, type := "in",
         status := "present", is_half_day := false }],
    nextId := 3 }

/-- A form for a second employee. -/
def secondForm : EmployeeForm :=
  { name := "Wu", department := "Ops", position := "Clerk", salary := .number 120 }

/-- The state after `world2` (the first employee still references enrollment
id 1, which the device has freed) and the creation of a second employee
without a fingerprint. -/
def staleWorld : World :=
  ⟨(handleCreateEmployee 1700000555555 none secondForm world2.store).1, world2.enrolled⟩

/-- Three complete days of the sample employee, none flagged. -/
def threeFullDays : List AttendanceRecord :=
  [{ id := 1, employee_id := 1, created_at := 32400000, type := "in", status := "present",
     is_half_day := false },
   { id := 2, employee_id := 1, created_at := 64800000, type := "out", status := "present",
     is_half_day := false },
   { id := 3, employee_id := 1, created_at := 86400000 + 32400000, type := "in",
     status := "present", is_half_day := false },
   { id := 4, employee_id := 1, created_at := 86400000 + 64800000, type := "out",
     status := "present", is_half_day := false },
   { id := 5, employee_id := 1, created_at := 2 * 86400000 + 32400000, type := "in",
     status := "present", is_half_day := false },
   { id := 6, employee_id := 1, created_at := 2 * 86400000 + 64800000, type := "out",
     status := "present", is_half_day := false }]

/-- The sample employee at a day rate of 0.10. -/
def tenthRateEmployee : Employee := { sampleEmployee with salary := some (1 / 10) }

/-- A store on the second day: the sample employee has a complete day
yesterday (the epoch day) and nothing since; the other employee has an `in`
record of today, 08:00. -/
def secondDayStore : Store :=
  { employees := [sampleEmployee, unlinkedEmployee],
    attendance_records :=
      [{ id := 3, employee_id := 1, created_at := 32400000, type := "in", status := "present",
         is_half_day := false },
       { id := 4, employee_id := 1, created_at := 64800000, type := "out", status := "present",
         is_half_day := false },
       { id := 5, employee_id := 2, created_at := 86400000 + 28800000, type := "in",
         status := "present", is_half_day := false }],
    nextId := 6 }

/-! ## Theorems -/

theorem startOfDay_le (tz now : Int) : startOfDay tz now ≤ now := by
  unfold startOfDay localDay msPerDay
  have := Int.ediv_mul_le (now + tz) (show (86400000 : Int) ≠ 0 by decide)
  omega

theorem startOfDay_eq_of_localDay_eq {tz a b : Int} (h : localDay tz a = localDay tz b) :
    startOfDay tz a = startOfDay tz b := by
  unfold startOfDay; rw [h]

theorem checkAttendance_resolved (tz now : Int) (f : Nat) (e : Employee) (emps : List Employee)
    (recs : List AttendanceRecord) (n : Nat)
    (hlink : emps.filter (fun x => x.fingerprint_id = some f) = [e]) :
    checkAttendance (verifyOk tz now f) ⟨emps, recs, n⟩ =
      match decideType ((orderByCreatedAt (recordsSince ⟨emps, recs, n⟩ e.id
          (startOfDay tz now))).map (fun r => r.type)) with
      | none => (⟨emps, recs, n⟩, punchAlreadyCompleted e)
      | some type =>
        (⟨emps, recs ++ [clockRecord n e.id now type], n + 1⟩, punchSuccess e type now) := by
  simp only [checkAttendance, verifyOk, employeeByFingerprint, hlink, single, todayRecordsQuery]
  cases decideType ((orderByCreatedAt (recordsSince ⟨emps, recs, n⟩ e.id
      (startOfDay tz now))).map (fun r => r.type)) <;>
    simp [insertAttendance, clockRecord]

theorem recordsSince_append (emps : List Employee) (recs : List AttendanceRecord)
    (r : AttendanceRecord) (n m id : Nat) (today : Int) :
    recordsSince ⟨emps, recs ++ [r], n⟩ id today
      = recordsSince ⟨emps, recs, m⟩ id today ++
          (if r.employee_id = id ∧ today ≤ r.created_at then [r] else []) := by
  simp only [recordsSince, List.filter_append]
  congr 1
  by_cases h : r.employee_id = id ∧ today ≤ r.created_at
  · simp [List.filter, h]
  · simp [List.filter, h]

/-- C1 (the claim fails). Two inputs.  In the reachable state `world3` two
employees reference enrollment id 1 and the ledger is empty: the verify flow
with the device returning 1 finds no single row for the fingerprint, reports
it as unregistered and stores nothing.  In `tomorrowInStore` the sample
employee alone references fingerprint 7 and has no record dated today, but one
operator-entered `in` dated tomorrow: the first run stores an `out`, the
second and the third store nothing. -/
theorem verify_shared_or_later_record :
    AppReachable false world3 ∧
    world3.store.employees.map (fun e => (e.id, e.fingerprint_id))
      = [(1, some 1), (2, some 1)] ∧
    world3.store.attendance_records = [] ∧
    (checkAttendance (verifyOk 0 1000 1) world3.store).1.attendance_records = [] ∧
    (checkAttendance (verifyOk 0 1000 1) world3.store).2 = punchUnregistered ∧
    tomorrowInStore.employees.filter (fun x => x.fingerprint_id = some 7) = [sampleEmployee] ∧
    dayTypes 0 tomorrowInStore 1 0 = [] ∧
    (checkAttendance (verifyOk 0 1000 7) tomorrowInStore).2.type = some "out" ∧
    (checkAttendance (verifyOk 0 2000 7)
      (checkAttendance (verifyOk 0 1000 7) tomorrowInStore).1).2.message
        = "今天已完成上下班打卡" ∧
    (checkAttendance (verifyOk 0 3000 7)
      (checkAttendance (verifyOk 0 2000 7)
        (checkAttendance (verifyOk 0 1000 7) tomorrowInStore).1).1).1.attendance_records.map
      (fun r => (r.created_at, r.type)) = [(86400000 + 32400000, "in"), (1000, "out")] := by
  have h1 : AppReachable false world1 :=
    AppReachable.register world0 (registerOne 1700000123456) sampleForm (AppReachable.init 1)
      (fun _ _ hmem => by cases hmem)
  have h2 : AppReachable false world2 :=
    AppReachable.deleteFingerprint world1 (.ok ()) 1 h1 (fun hg => by cases hg)
  have h3 : AppReachable false world3 :=
    AppReachable.register world2 (registerOne 1700000999999) sampleForm h2
      (fun d hd => by cases hd; decide)
  exact ⟨h3, by decide, by decide, by decide, by decide, by decide, by decide, by decide,
    by decide, by decide⟩

/-- C1 (amended). For an employee `e` who alone references the fingerprint `f`
(the lookup by `f` resolves to `e`) and who has no attendance record dated
today or later (the flow's query, for the records from today's local midnight
on, is empty), three successive runs of `checkAttendance` on the same local
day, the device matching `f` and the store answering each time, behave as
follows: the first stores exactly one record, of type `in`, the second exactly
one record, of type `out`, and the third stores nothing and returns the
`already completed today` result, whose `success` is false. -/
theorem verify_in_out_done (tz now1 now2 now3 : Int) (f : Nat) (e : Employee) (s : Store)
    (hlink : s.employees.filter (fun x => x.fingerprint_id = some f) = [e])
    (hnone : recordsSince s e.id (startOfDay tz now1) = [])
    (h12 : now1 ≤ now2)
    (hd2 : localDay tz now2 = localDay tz now1) (hd3 : localDay tz now3 = localDay tz now1) :
    ∃ s1 s2 : Store,
      checkAttendance (verifyOk tz now1 f) s = (s1, punchSuccess e "in" now1) ∧
      s1.attendance_records = s.attendance_records ++ [clockRecord s.nextId e.id now1 "in"] ∧
      checkAttendance (verifyOk tz now2 f) s1 = (s2, punchSuccess e "out" now2) ∧
      s2.attendance_records = s1.attendance_records ++ [clockRecord s1.nextId e.id now2 "out"] ∧
      checkAttendance (verifyOk tz now3 f) s2 = (s2, punchAlreadyCompleted e) ∧
      (punchAlreadyCompleted e).success = false := by
  obtain ⟨emps, recs, n⟩ := s
  have e2 := startOfDay_eq_of_localDay_eq hd2
  have e3 := startOfDay_eq_of_localDay_eq hd3
  have hs1 := startOfDay_le tz now1
  refine ⟨⟨emps, recs ++ [clockRecord n e.id now1 "in"], n + 1⟩,
    ⟨emps, (recs ++ [clockRecord n e.id now1 "in"]) ++ [clockRecord (n + 1) e.id now2 "out"],
      n + 1 + 1⟩, ?_, rfl, ?_, rfl, ?_, rfl⟩
  · rw [checkAttendance_resolved tz now1 f e emps recs n hlink, hnone]
    simp [orderByCreatedAt, decideType]
  · rw [checkAttendance_resolved tz now2 f e emps _ _ hlink, recordsSince_append emps recs _ _ n,
      e2, hnone]
    simp [orderByCreatedAt, decideType, clockRecord, hs1]
  · have h2 : startOfDay tz now1 ≤ now2 := le_trans hs1 h12
    rw [checkAttendance_resolved tz now3 f e emps _ _ hlink,
      recordsSince_append emps _ _ _ (n + 1), recordsSince_append emps recs _ _ n, e3, hnone]
    simp [orderByCreatedAt, decideType, clockRecord, hs1, h2, h12]

theorem verify_in_out_done_witness :
    secondDayStore.employees.filter (fun x => x.fingerprint_id = some 7) = [sampleEmployee] ∧
    recordsSince secondDayStore sampleEmployee.id (startOfDay 0 118800000) = [] ∧
    ∃ s1 s2 : Store,
      checkAttendance (verifyOk 0 118800000 7) secondDayStore
        = (s1, punchSuccess sampleEmployee "in" 118800000) ∧
      s1.attendance_records = secondDayStore.attendance_records ++
        [clockRecord secondDayStore.nextId sampleEmployee.id 118800000 "in"] ∧
      checkAttendance (verifyOk 0 151200000 7) s1
        = (s2, punchSuccess sampleEmployee "out" 151200000) ∧
      s2.attendance_records =
        s1.attendance_records ++ [clockRecord s1.nextId sampleEmployee.id 151200000 "out"] ∧
      checkAttendance (verifyOk 0 154800000 7) s2 = (s2, punchAlreadyCompleted sampleEmployee) ∧
      (punchAlreadyCompleted sampleEmployee).success = false :=
  ⟨by decide, by decide,
    verify_in_out_done 0 118800000 151200000 154800000 7 sampleEmployee secondDayStore
      (by decide) (by decide) (by decide) (by decide) (by decide)⟩

theorem startOfDay_le_iff (tz : Int) {c now : Int} (h : c ≤ now) :
    startOfDay tz now ≤ c ↔ localDay tz c = localDay tz now := by
  unfold startOfDay localDay msPerDay
  have hD : (0 : Int) < 86400000 := by decide
  have h1 : (c + tz) / 86400000 ≤ (now + tz) / 86400000 :=
    Int.ediv_le_ediv hD (by omega)
  have h2 := Int.le_ediv_iff_mul_le (a := (now + tz) / 86400000) (b := c + tz) hD
  constructor
  · intro h3
    have : (now + tz) / 86400000 ≤ (c + tz) / 86400000 := h2.mpr (by omega)
    omega
  · intro h3
    have := h2.mp (le_of_eq h3.symm)
    omega

theorem checkAttendance_cases (env : VerifyEnv) (s : Store) :
    (checkAttendance env s).1 = s ∨
    ∃ (e : Employee) (type : String),
      decideType ((orderByCreatedAt (recordsSince s e.id (startOfDay env.tz env.now))).map
        (fun r => r.type)) = some type ∧
      (checkAttendance env s).1 =
        ⟨s.employees, s.attendance_records ++ [clockRecord s.nextId e.id env.now type],
          s.nextId + 1⟩ := by
  unfold checkAttendance
  cases env.device with
  | failed m => exact Or.inl rfl
  | notOk err => exact Or.inl rfl
  | ok f =>
    dsimp only
    cases employeeByFingerprint env.employeeFault s f with
    | error err => dsimp only; split <;> exact Or.inl rfl
    | ok e =>
      dsimp only
      cases hq : todayRecordsQuery env.recordsFault s e.id (startOfDay env.tz env.now) with
      | error err => exact Or.inl rfl
      | ok today =>
        dsimp only
        cases hd : decideType today with
        | none => exact Or.inl rfl
        | some type =>
          dsimp only
          cases hi : env.insertFault with
          | some err => simp [insertAttendance, hi]
          | none =>
            right
            refine ⟨e, type, ?_, ?_⟩
            · unfold todayRecordsQuery at hq
              cases hr : env.recordsFault with
              | some err => simp [hr] at hq
              | none =>
                simp only [hr, Except.ok.injEq] at hq
                rw [hq]; exact hd
            · simp [insertAttendance, hi, clockRecord]

theorem ledgerInv_append (tz : Int) (recs : List AttendanceRecord) (t now : Int) (n id : Nat)
    (type : String) (emps : List Employee) (m : Nat)
    (hinv : LedgerInv tz recs t) (ht : t ≤ now)
    (hdec : decideType ((orderByCreatedAt (recordsSince ⟨emps, recs, m⟩ id
      (startOfDay tz now))).map (fun r => r.type)) = some type) :
    LedgerInv tz (recs ++ [clockRecord n id now type]) now := by
  obtain ⟨hb, hs, hv⟩ := hinv
  have hrs : recordsSince ⟨emps, recs, m⟩ id (startOfDay tz now) = recs.filter
      (fun r => r.employee_id = id ∧ localDay tz r.created_at = localDay tz now) := by
    unfold recordsSince
    apply List.filter_congr
    intro r hr
    have := startOfDay_le_iff tz (le_trans (hb r hr) ht)
    simp only [this]
  have hsorted : (recs.filter (fun r => r.employee_id = id ∧
      localDay tz r.created_at = localDay tz now)).Sorted
      (fun a b => a.created_at ≤ b.created_at) := List.Pairwise.filter _ hs
  rw [hrs, orderByCreatedAt, List.Sorted.insertionSort_eq hsorted] at hdec
  refine ⟨?_, ?_, ?_⟩
  · intro r hr
    rcases List.mem_append.mp hr with h | h
    · exact le_trans (hb r h) ht
    · simp only [List.mem_singleton] at h
      subst h; exact le_refl _
  · refine List.pairwise_append.mpr ⟨hs, List.pairwise_singleton _ _, ?_⟩
    intro a ha b hb2
    simp only [List.mem_singleton] at hb2
    subst hb2
    exact le_trans (hb a ha) ht
  · intro emp day
    rw [List.filter_append, List.map_append]
    by_cases hm : id = emp ∧ localDay tz now = day
    · obtain ⟨rfl, rfl⟩ := hm
      have hnew : List.filter (fun r => decide (r.employee_id = id ∧
          localDay tz r.created_at = localDay tz now)) [clockRecord n id now type]
          = [clockRecord n id now type] := by
        simp [List.filter, clockRecord]
      rw [hnew]
      rcases hv id (localDay tz now) with h | h | h
      · rw [h] at hdec ⊢
        simp [decideType] at hdec
        subst hdec
        right; left; rfl
      · rw [h] at hdec ⊢
        simp [decideType] at hdec
        subst hdec
        right; right; rfl
      · rw [h] at hdec
        simp [decideType] at hdec
    · have hnew : List.filter (fun r => decide (r.employee_id = emp ∧
          localDay tz r.created_at = day)) [clockRecord n id now type] = [] := by
        simp only [List.filter_eq_nil_iff, List.mem_singleton, forall_eq, clockRecord,
          decide_eq_true_eq]
        exact hm
      rw [hnew, List.map_nil, List.append_nil]
      exact hv emp day

theorem ledgerInv_of_reachable {tz : Int} {s : Store} {t : Int} (h : VerifyReachable tz s t) :
    LedgerInv tz s.attendance_records t := by
  induction h with
  | empty emps n t =>
    refine ⟨by simp, List.sorted_nil, fun emp day => Or.inl (by simp)⟩
  | employees s t emps _ ih => exact ih
  | run s t env _ htz ht ih =>
    subst htz
    rcases checkAttendance_cases env s with h | ⟨e, type, hdec, h⟩
    · rw [h]
      exact ⟨fun r hr => le_trans (ih.1 r hr) ht, ih.2.1, ih.2.2⟩
    · rw [h]
      exact ledgerInv_append env.tz s.attendance_records t env.now s.nextId e.id type
        s.employees s.nextId ih ht hdec

/-- C2. In every state reachable from an empty attendance ledger by runs of the
verify flow at non-decreasing instants (any employee table, any answer of the
device, any store fault), the records of every employee on every local day,
ordered by timestamp, have types `[]`, `[in]` or `[in, out]`; and a further run
of the flow adds at most one record. -/
theorem verify_ledger_invariant (tz : Int) (s : Store) (t : Int) (h : VerifyReachable tz s t) :
    (∀ (emp : Nat) (day : Int),
      dayTypes tz s emp day = [] ∨ dayTypes tz s emp day = ["in"] ∨
        dayTypes tz s emp day = ["in", "out"]) ∧
    ∀ env : VerifyEnv, ∃ added : List AttendanceRecord, added.length ≤ 1 ∧
      (checkAttendance env s).1.attendance_records = s.attendance_records ++ added := by
  obtain ⟨_, hs, hv⟩ := ledgerInv_of_reachable h
  constructor
  · intro emp day
    have hsorted : (s.attendance_records.filter (fun r => r.employee_id = emp ∧
        localDay tz r.created_at = day)).Sorted
        (fun a b => a.created_at ≤ b.created_at) := List.Pairwise.filter _ hs
    unfold dayTypes
    rw [orderByCreatedAt, List.Sorted.insertionSort_eq hsorted]
    exact hv emp day
  · intro env
    rcases checkAttendance_cases env s with h | ⟨e, type, _, h⟩
    · exact ⟨[], by simp, by rw [h]; simp⟩
    · exact ⟨[clockRecord s.nextId e.id env.now type], by simp, by rw [h]⟩

theorem verify_ledger_invariant_witness :
    (∀ (emp : Nat) (day : Int),
      dayTypes 0 (checkAttendance (verifyOk 0 1000 7) sampleStore).1 emp day = [] ∨
      dayTypes 0 (checkAttendance (verifyOk 0 1000 7) sampleStore).1 emp day = ["in"] ∨
      dayTypes 0 (checkAttendance (verifyOk 0 1000 7) sampleStore).1 emp day = ["in", "out"]) ∧
    ∀ env : VerifyEnv, ∃ added : List AttendanceRecord, added.length ≤ 1 ∧
      (checkAttendance env (checkAttendance (verifyOk 0 1000 7) sampleStore).1).1.attendance_records
        = (checkAttendance (verifyOk 0 1000 7) sampleStore).1.attendance_records ++ added :=
  verify_ledger_invariant 0 (checkAttendance (verifyOk 0 1000 7) sampleStore).1 1000
    (VerifyReachable.run sampleStore 0 (verifyOk 0 1000 7)
      (VerifyReachable.empty [sampleEmployee] 1 0) rfl (by decide))

/-- C10. When the device verification succeeds with a fingerprint id that no
employee in the store references (and the employee lookup is answered by the
store), `checkAttendance` returns the `unregistered fingerprint` result, whose
`success` is false, and leaves the store, the attendance ledger included,
unchanged. -/
theorem verify_unregistered (env : VerifyEnv) (s : Store) (f : Nat)
    (hdev : env.device = .ok f) (hfault : env.employeeFault = none)
    (hno : ∀ e ∈ s.employees, e.fingerprint_id ≠ some f) :
    checkAttendance env s = (s, punchUnregistered) ∧ punchUnregistered.success = false ∧
      (checkAttendance env s).1.attendance_records = s.attendance_records := by
  have hfilter : s.employees.filter (fun e => e.fingerprint_id = some f) = [] := by
    simp only [List.filter_eq_nil_iff, decide_eq_true_eq]
    exact hno
  have hrun : checkAttendance env s = (s, punchUnregistered) := by
    simp [checkAttendance, hdev, employeeByFingerprint, hfault, hfilter, single]
  exact ⟨hrun, rfl, by rw [hrun]⟩

theorem verify_unregistered_witness :
    checkAttendance (verifyOk 0 1000 9) sampleStore = (sampleStore, punchUnregistered) ∧
      punchUnregistered.success = false ∧
      (checkAttendance (verifyOk 0 1000 9) sampleStore).1.attendance_records
        = sampleStore.attendance_records :=
  verify_unregistered (verifyOk 0 1000 9) sampleStore 9 rfl rfl (by decide)


theorem hasIn_iff (records : List AttendanceRecord) :
    hasIn records = true ↔ ∃ r ∈ records, r.type = "in" := by
  simp [hasIn]

theorem hasOut_iff (records : List AttendanceRecord) :
    hasOut records = true ↔ ∃ r ∈ records, r.type = "out" := by
  simp [hasOut]

theorem hasHalfDay_iff (records : List AttendanceRecord) :
    hasHalfDay records = true ↔ ∃ r ∈ records, r.is_half_day = true := by
  simp [hasHalfDay]

theorem foldl_countDay (days : List (List AttendanceRecord)) (acc : DayCount) :
    days.foldl countDay acc =
      ⟨acc.fullDays + (days.filter
          (fun records => hasIn records && hasOut records && !hasHalfDay records)).length,
        acc.halfDays + (days.filter
          (fun records => hasIn records && hasOut records && hasHalfDay records)).length⟩ := by
  induction days generalizing acc with
  | nil => simp
  | cons records rest ih =>
    rw [List.foldl_cons, ih]
    simp only [countDay, List.filter_cons]
    cases hi : hasIn records <;> cases ho : hasOut records <;> cases hh : hasHalfDay records <;>
      simp [Nat.add_assoc, Nat.add_comm 1]

theorem countDays_eq_detail (days : DailyRecords) :
    countDays (objectValues days) = ⟨fullDaysDetail days, halfDaysDetail days⟩ := by
  simp [countDays, foldl_countDay, fullDaysDetail, halfDaysDetail]

theorem numOrZero_eq (x : ℚ) : numOrZero x = x := by
  unfold numOrZero; split <;> simp_all

theorem salaryOrZero_eq (salary : Option ℚ) : salaryOrZero salary = salary.getD 0 := by
  cases salary <;> simp [salaryOrZero, numOrZero_eq]

/-- C4. A day that counts (its records hold an `in` and an `out`) is counted as
a half day, adding 0.5 to `daysWorked`, if any record of the day has
`is_half_day` true, however many records the day has, and as a full day,
adding 1, otherwise; it is never counted as both. -/
theorem counted_day_half_or_full (acc : DayCount) (records : List AttendanceRecord)
    (hin : ∃ r ∈ records, r.type = "in") (hout : ∃ r ∈ records, r.type = "out") :
    ((∃ r ∈ records, r.is_half_day = true) →
      countDay acc records = ⟨acc.fullDays, acc.halfDays + 1⟩ ∧
      daysWorkedOf (countDay acc records).fullDays (countDay acc records).halfDays
        = daysWorkedOf acc.fullDays acc.halfDays + 1 / 2) ∧
    ((¬∃ r ∈ records, r.is_half_day = true) →
      countDay acc records = ⟨acc.fullDays + 1, acc.halfDays⟩ ∧
      daysWorkedOf (countDay acc records).fullDays (countDay acc records).halfDays
        = daysWorkedOf acc.fullDays acc.halfDays + 1) ∧
    ¬((countDay acc records).fullDays = acc.fullDays + 1 ∧
      (countDay acc records).halfDays = acc.halfDays + 1) := by
  rw [← hasIn_iff] at hin
  rw [← hasOut_iff] at hout
  rw [← hasHalfDay_iff]
  cases hh : hasHalfDay records
  · have hc : countDay acc records = ⟨acc.fullDays + 1, acc.halfDays⟩ := by
      simp [countDay, hin, hout, hh]
    rw [hc]
    refine ⟨fun h => absurd h (by simp), fun _ => ⟨rfl, ?_⟩, by simp⟩
    simp only [daysWorkedOf]; push_cast; ring
  · have hc : countDay acc records = ⟨acc.fullDays, acc.halfDays + 1⟩ := by
      simp [countDay, hin, hout, hh]
    rw [hc]
    refine ⟨fun _ => ⟨rfl, ?_⟩, fun h => absurd rfl h, by simp⟩
    simp only [daysWorkedOf]; push_cast; ring

theorem counted_day_half_or_full_witness :
    ((∃ r ∈ completeDay, r.is_half_day = true) →
      countDay ⟨2, 1⟩ completeDay = ⟨2, 1 + 1⟩ ∧
      daysWorkedOf (countDay ⟨2, 1⟩ completeDay).fullDays (countDay ⟨2, 1⟩ completeDay).halfDays
        = daysWorkedOf 2 1 + 1 / 2) ∧
    ((¬∃ r ∈ completeDay, r.is_half_day = true) →
      countDay ⟨2, 1⟩ completeDay = ⟨2 + 1, 1⟩ ∧
      daysWorkedOf (countDay ⟨2, 1⟩ completeDay).fullDays (countDay ⟨2, 1⟩ completeDay).halfDays
        = daysWorkedOf 2 1 + 1) ∧
    ¬((countDay ⟨2, 1⟩ completeDay).fullDays = 2 + 1 ∧
      (countDay ⟨2, 1⟩ completeDay).halfDays = 1 + 1) :=
  counted_day_half_or_full ⟨2, 1⟩ completeDay (by decide) (by decide)

theorem roundHalfEven_intCast (z : ℤ) : roundHalfEven (z : ℚ) = z := by
  simp [roundHalfEven]

theorem log_eq_of_bounds (x : ℚ) (e : ℤ) (hlo : (2 : ℚ) ^ e ≤ x) (hhi : x < (2 : ℚ) ^ (e + 1)) :
    Int.log 2 x = e := by
  have hpos : 0 < x := lt_of_lt_of_le (by positivity) hlo
  have h1 : e ≤ Int.log 2 x :=
    (Int.zpow_le_iff_le_log (by norm_num) hpos).mp (by exact_mod_cast hlo)
  have h2 : Int.log 2 x < e + 1 :=
    (Int.lt_zpow_iff_log_lt (by norm_num) hpos).mp (by exact_mod_cast hhi)
  omega

theorem toDouble_eq_of_bounds (x : ℚ) (e : ℤ) (hlo : (2 : ℚ) ^ e ≤ x)
    (hhi : x < (2 : ℚ) ^ (e + 1)) :
    toDouble x = (roundHalfEven (x / (2 : ℚ) ^ (e - 52)) : ℚ) * (2 : ℚ) ^ (e - 52) := by
  have hpos : 0 < x := lt_of_lt_of_le (by positivity) hlo
  unfold toDouble
  rw [if_neg (ne_of_gt hpos), abs_of_pos hpos, log_eq_of_bounds x e hlo hhi]

theorem toDouble_of_scaled (x : ℚ) (z : ℤ) (hx : x = z * (2 : ℚ) ^ (Int.log 2 |x| - 52)) :
    toDouble x = x := by
  unfold toDouble
  split
  · next h => exact h.symm
  · have hne : (2 : ℚ) ^ (Int.log 2 |x| - 52) ≠ 0 := by positivity
    have hq : x / (2 : ℚ) ^ (Int.log 2 |x| - 52) = z := by
      rw [div_eq_iff hne]; exact hx
    rw [hq, roundHalfEven_intCast]
    exact hx.symm

theorem toDouble_half_nat (n : ℕ) (h : n < 2 ^ 53) : toDouble ((n : ℚ) / 2) = (n : ℚ) / 2 := by
  rcases Nat.eq_zero_or_pos n with rfl | hpos
  · simp [toDouble]
  · have hx : (0 : ℚ) < (n : ℚ) / 2 := by positivity
    have hlt2 : (n : ℚ) / 2 < (2 : ℚ) ^ (52 : ℤ) := by
      have h53 : (n : ℚ) < 2 ^ 53 := by exact_mod_cast h
      have e52 : (2 : ℚ) ^ (52 : ℤ) = 2 ^ 53 / 2 := by norm_num
      rw [e52]
      linarith
    have hlt : Int.log 2 ((n : ℚ) / 2) < 52 :=
      (Int.lt_zpow_iff_log_lt (by norm_num) hx).mp (by exact_mod_cast hlt2)
    obtain ⟨k, hk⟩ := Int.eq_ofNat_of_zero_le (show 0 ≤ 51 - Int.log 2 ((n : ℚ) / 2) by omega)
    apply toDouble_of_scaled _ ((n : ℤ) * 2 ^ k)
    rw [abs_of_pos hx]
    have he : Int.log 2 ((n : ℚ) / 2) - 52 = -((k : ℤ) + 1) := by omega
    rw [he, zpow_neg, zpow_add_one₀ (by norm_num), zpow_natCast]
    push_cast
    field_simp
    ring

theorem toDouble_natCast (n : ℕ) (h : n < 2 ^ 52) : toDouble (n : ℚ) = n := by
  have := toDouble_half_nat (2 * n) (by omega)
  have h2 : ((2 * n : ℕ) : ℚ) / 2 = n := by push_cast; ring
  rwa [h2] at this

theorem daysWorked_double (fullDays halfDays : Nat) (hb : 2 * fullDays + halfDays < 2 ^ 53) :
    toDouble ((fullDays : ℚ) + toDouble ((halfDays : ℚ) * (1 / 2))) =
      daysWorkedOf fullDays halfDays := by
  have h1 : (halfDays : ℚ) * (1 / 2) = (halfDays : ℚ) / 2 := by ring
  have h2 : (fullDays : ℚ) + (halfDays : ℚ) / 2 = ((2 * fullDays + halfDays : ℕ) : ℚ) / 2 := by
    push_cast; ring
  rw [h1, toDouble_half_nat halfDays (by omega), h2, toDouble_half_nat _ hb, ← h2]
  simp only [daysWorkedOf]; ring

theorem totalSalaryDouble_eq (fullDays halfDays : Nat) (salary : Option ℚ)
    (hb : 2 * fullDays + halfDays < 2 ^ 53) :
    totalSalaryDouble fullDays halfDays salary =
      toDouble (daysWorkedOf fullDays halfDays * toDouble (salary.getD 0)) := by
  unfold totalSalaryDouble
  rw [daysWorked_double fullDays halfDays hb, salaryOrZero_eq]

theorem toDouble_tenth : toDouble (1 / 10) = 3602879701896397 / 36028797018963968 := by
  rw [toDouble_eq_of_bounds (1 / 10) (-4) (by norm_num) (by norm_num)]
  norm_num [roundHalfEven]

theorem toDouble_three_tenths :
    toDouble (10808639105689191 / 36028797018963968) = 1351079888211149 / 4503599627370496 := by
  rw [toDouble_eq_of_bounds _ (-2) (by norm_num) (by norm_num)]
  norm_num [roundHalfEven]

theorem toDouble_rate_200_01 : toDouble (20001 / 100) = 879653282685911 / 4398046511104 := by
  rw [toDouble_eq_of_bounds (20001 / 100) 7 (by norm_num) (by norm_num)]
  norm_num [roundHalfEven]

theorem toDouble_half_rate :
    toDouble (879653282685911 / 8796093022208) = 879653282685911 / 8796093022208 := by
  rw [toDouble_eq_of_bounds _ 6 (by norm_num) (by norm_num)]
  norm_num [roundHalfEven]

/-- C5 (the claim fails). Three full days at a day rate of 0.10: the page
holds the rate as the double nearest to 0.1 and the product is rounded to a
double again, giving 0.30000000000000004 (1351079888211149 / 2^52), which is
neither the exact product of the day count and the stored rate, 0.3, nor the
exact product of the day count and the double of the rate.  For one half day
at a day rate of 200.01 the double computed lies below 100.005 and the detail
page shows 100.00, where the exact product, 100.005, would show as 100.01. -/
theorem pay_in_doubles_not_exact :
    (employeeStats 0 threeFullDays tenthRateEmployee).fullDays = 3 ∧
    (employeeStats 0 threeFullDays tenthRateEmployee).halfDays = 0 ∧
    (employeeStats 0 threeFullDays tenthRateEmployee).daysWorked = 3 ∧
    tenthRateEmployee.salary = some (1 / 10) ∧
    toDouble (1 / 10) = 3602879701896397 / 36028797018963968 ∧
    totalSalaryDouble 3 0 tenthRateEmployee.salary = 1351079888211149 / 4503599627370496 ∧
    totalSalaryDouble 3 0 tenthRateEmployee.salary ≠ 3 * (1 / 10) ∧
    totalSalaryDouble 3 0 tenthRateEmployee.salary ≠ 3 * toDouble (1 / 10) ∧
    totalSalaryDouble 0 1 (some (20001 / 100)) = 879653282685911 / 8796093022208 ∧
    toFixed2 (totalSalaryDouble 0 1 (some (20001 / 100))) = 100 ∧
    toFixed2 (daysWorkedOf 0 1 * (20001 / 100)) = 10001 / 100 := by
  have hc : countDays (objectValues (groupByDay 0
      (threeFullDays.filter (fun r => r.employee_id = tenthRateEmployee.id)))) = ⟨3, 0⟩ := by
    decide
  have hpay : totalSalaryDouble 3 0 tenthRateEmployee.salary
      = 1351079888211149 / 4503599627370496 := by
    rw [totalSalaryDouble_eq 3 0 _ (by norm_num)]
    simp only [tenthRateEmployee, Option.getD_some, toDouble_tenth, daysWorkedOf]
    have h3 : (((3 : ℕ) : ℚ) + ((0 : ℕ) : ℚ) * (1 / 2)) * (3602879701896397 / 36028797018963968)
        = 10808639105689191 / 36028797018963968 := by norm_num
    rw [h3, toDouble_three_tenths]
  have hhalf : totalSalaryDouble 0 1 (some (20001 / 100)) = 879653282685911 / 8796093022208 := by
    rw [totalSalaryDouble_eq 0 1 _ (by norm_num)]
    simp only [Option.getD_some, toDouble_rate_200_01, daysWorkedOf]
    have h3 : (((0 : ℕ) : ℚ) + ((1 : ℕ) : ℚ) * (1 / 2)) * (879653282685911 / 4398046511104)
        = 879653282685911 / 8796093022208 := by norm_num
    rw [h3, toDouble_half_rate]
  refine ⟨?_, ?_, ?_, rfl, toDouble_tenth, hpay, ?_, ?_, hhalf, ?_, ?_⟩
  · simp only [employeeStats, hc]
  · simp only [employeeStats, hc]
  · simp only [employeeStats, hc, daysWorkedOf]; norm_num
  · rw [hpay]; norm_num
  · rw [hpay, toDouble_tenth]; norm_num
  · rw [hhalf]; norm_num [toFixed2]
  · norm_num [toFixed2, daysWorkedOf]

/-- C5 (amended). For every employee, with `2 * fullDays + halfDays` below 2^53
as any month gives, the computed `daysWorked` equals
`fullDays + halfDays / 2` exactly, in doubles as in exact arithmetic.  The computed total pay is the double nearest
to `daysWorked` times the day rate, the day rate being the double of the
stored value and a missing day rate counting as 0: one rounding of the exact
product.  It equals the exact product whenever the day rate and the product
are themselves doubles; for `daysWorked = 1.5` and a day rate of 100.00 the
total pay is 150, shown as 150.00.  The detail page shows the same double
through `toFixed(2)`. -/
theorem pay_is_rounded_product (tz : Int) (attendanceData : List AttendanceRecord)
    (employee : Employee) (days : DailyRecords)
    (hb : 2 * (employeeStats tz attendanceData employee).fullDays
      + (employeeStats tz attendanceData employee).halfDays < 2 ^ 53)
    (hd : 2 * fullDaysDetail days + halfDaysDetail days < 2 ^ 53) :
    (employeeStats tz attendanceData employee).daysWorked
      = (employeeStats tz attendanceData employee).fullDays
        + ((employeeStats tz attendanceData employee).halfDays : ℚ) / 2 ∧
    toDouble (((employeeStats tz attendanceData employee).fullDays : ℚ)
        + toDouble (((employeeStats tz attendanceData employee).halfDays : ℚ) * (1 / 2)))
      = (employeeStats tz attendanceData employee).daysWorked ∧
    totalSalaryDouble (employeeStats tz attendanceData employee).fullDays
        (employeeStats tz attendanceData employee).halfDays employee.salary
      = toDouble ((employeeStats tz attendanceData employee).daysWorked
          * toDouble (employee.salary.getD 0)) ∧
    (toDouble (employee.salary.getD 0) = employee.salary.getD 0 →
      toDouble ((employeeStats tz attendanceData employee).daysWorked * employee.salary.getD 0)
        = (employeeStats tz attendanceData employee).daysWorked * employee.salary.getD 0 →
      totalSalaryDouble (employeeStats tz attendanceData employee).fullDays
          (employeeStats tz attendanceData employee).halfDays employee.salary
        = (employeeStats tz attendanceData employee).daysWorked * employee.salary.getD 0 ∧
      totalSalaryDouble (employeeStats tz attendanceData employee).fullDays
          (employeeStats tz attendanceData employee).halfDays employee.salary
        = (employeeStats tz attendanceData employee).totalSalary) ∧
    monthlyPayShown days employee
      = toFixed2 (toDouble (((fullDaysDetail days : ℚ) + (halfDaysDetail days : ℚ) / 2)
          * toDouble (employee.salary.getD 0))) ∧
    (employeeStats 0 fullAndHalfDay sampleEmployee).daysWorked = 3 / 2 ∧
    sampleEmployee.salary = some 100 ∧
    totalSalaryDouble (employeeStats 0 fullAndHalfDay sampleEmployee).fullDays
      (employeeStats 0 fullAndHalfDay sampleEmployee).halfDays sampleEmployee.salary = 150 ∧
    monthlyPayShown (groupByDay 0 fullAndHalfDay) sampleEmployee = 150 := by
  have hdw : (employeeStats tz attendanceData employee).daysWorked
      = daysWorkedOf (employeeStats tz attendanceData employee).fullDays
          (employeeStats tz attendanceData employee).halfDays := rfl
  have hts : (employeeStats tz attendanceData employee).totalSalary
      = (employeeStats tz attendanceData employee).daysWorked * employee.salary.getD 0 := by
    simp only [employeeStats, salaryOrZero_eq]
  have hc : countDays (objectValues (groupByDay 0 fullAndHalfDay)) = ⟨1, 1⟩ := by decide
  have hf : fullAndHalfDay.filter (fun record => record.employee_id = sampleEmployee.id)
      = fullAndHalfDay := by decide
  have hdet := countDays_eq_detail (groupByDay 0 fullAndHalfDay)
  rw [hc] at hdet
  have hfd : fullDaysDetail (groupByDay 0 fullAndHalfDay) = 1 := by
    have := congrArg DayCount.fullDays hdet; simpa using this.symm
  have hhd : halfDaysDetail (groupByDay 0 fullAndHalfDay) = 1 := by
    have := congrArg DayCount.halfDays hdet; simpa using this.symm
  have h100 : toDouble 100 = 100 := by
    have := toDouble_natCast 100 (by norm_num)
    simpa using this
  have h150 : toDouble 150 = 150 := by
    have := toDouble_natCast 150 (by norm_num)
    simpa using this
  have hsample : totalSalaryDouble 1 1 (some 100) = 150 := by
    rw [totalSalaryDouble_eq 1 1 _ (by norm_num)]
    simp only [Option.getD_some, h100, daysWorkedOf]
    have h3 : (((1 : ℕ) : ℚ) + ((1 : ℕ) : ℚ) * (1 / 2)) * 100 = 150 := by norm_num
    rw [h3, h150]
  refine ⟨?_, ?_, ?_, ?_, ?_, ?_, rfl, ?_, ?_⟩
  · rw [hdw]; simp only [daysWorkedOf]; ring
  · rw [hdw]; exact daysWorked_double _ _ hb
  · rw [hdw]; exact totalSalaryDouble_eq _ _ _ hb
  · intro h1 h2
    have := totalSalaryDouble_eq (employeeStats tz attendanceData employee).fullDays
      (employeeStats tz attendanceData employee).halfDays employee.salary hb
    rw [← hdw, h1, h2] at this
    exact ⟨this, by rw [this, hts]⟩
  · unfold monthlyPayShown
    rw [totalSalaryDouble_eq _ _ _ hd]
    simp only [daysWorkedOf]
    congr 3
    ring
  · simp only [employeeStats, hf, hc, daysWorkedOf]; norm_num
  · simp only [employeeStats, hf, hc]
    exact hsample
  · unfold monthlyPayShown
    rw [hfd, hhd]
    simp only [sampleEmployee, hsample]
    norm_num [toFixed2]

theorem pay_is_rounded_product_witness :
    2 * (employeeStats 0 fullAndHalfDay sampleEmployee).fullDays
      + (employeeStats 0 fullAndHalfDay sampleEmployee).halfDays < 2 ^ 53 ∧
    (employeeStats 0 fullAndHalfDay sampleEmployee).daysWorked
      = (employeeStats 0 fullAndHalfDay sampleEmployee).fullDays
        + ((employeeStats 0 fullAndHalfDay sampleEmployee).halfDays : ℚ) / 2 ∧
    totalSalaryDouble (employeeStats 0 fullAndHalfDay sampleEmployee).fullDays
        (employeeStats 0 fullAndHalfDay sampleEmployee).halfDays sampleEmployee.salary
      = toDouble ((employeeStats 0 fullAndHalfDay sampleEmployee).daysWorked
          * toDouble (sampleEmployee.salary.getD 0)) :=
  ⟨by decide,
    (pay_is_rounded_product 0 fullAndHalfDay sampleEmployee (groupByDay 0 fullAndHalfDay)
      (by decide) (by decide)).1,
    (pay_is_rounded_product 0 fullAndHalfDay sampleEmployee (groupByDay 0 fullAndHalfDay)
      (by decide) (by decide)).2.2.1⟩

theorem foldl_totalStats (stats : List EmployeeStats) (acc : TotalStats) :
    stats.foldl
      (fun acc employee =>
        ({ totalEmployees := acc.totalEmployees + 1,
           totalWorkDays := acc.totalWorkDays + numOrZero employee.daysWorked,
           totalSalary := acc.totalSalary + numOrZero employee.totalSalary } : TotalStats)) acc
      = { totalEmployees := acc.totalEmployees + stats.length,
          totalWorkDays := acc.totalWorkDays + (stats.map (fun e => e.daysWorked)).sum,
          totalSalary := acc.totalSalary + (stats.map (fun e => e.totalSalary)).sum } := by
  induction stats generalizing acc with
  | nil => simp
  | cons e rest ih =>
    rw [List.foldl_cons, ih]
    simp only [numOrZero_eq, List.length_cons, List.map_cons, List.sum_cons]
    congr 1
    · omega
    · ring
    · ring

/-- C8. For every list of employees with their monthly statistics the aggregate
computed by `fetchEmployees` has `totalEmployees` equal to the number of
employees in the list, `totalWorkDays` equal to the sum of their `daysWorked`
and `totalSalary` equal to the sum of their total pay; for the empty list all
three are 0. -/
theorem aggregate_counts_and_sums (tz : Int) (stats : List EmployeeStats)
    (employeesData : List Employee) (attendanceData : List AttendanceRecord) :
    (totalStats stats).totalEmployees = stats.length ∧
    (totalStats stats).totalWorkDays = (stats.map (fun e => e.daysWorked)).sum ∧
    (totalStats stats).totalSalary = (stats.map (fun e => e.totalSalary)).sum ∧
    totalStats [] = { totalEmployees := 0, totalWorkDays := 0, totalSalary := 0 } ∧
    (fetchEmployeesCompute tz employeesData attendanceData).2.totalEmployees
      = employeesData.length ∧
    (fetchEmployeesCompute tz employeesData attendanceData).2.totalWorkDays
      = (employeesData.map (fun e => (employeeStats tz attendanceData e).daysWorked)).sum ∧
    (fetchEmployeesCompute tz employeesData attendanceData).2.totalSalary
      = (employeesData.map (fun e => (employeeStats tz attendanceData e).totalSalary)).sum := by
  have h : ∀ l : List EmployeeStats, totalStats l =
      { totalEmployees := l.length, totalWorkDays := (l.map (fun e => e.daysWorked)).sum,
        totalSalary := (l.map (fun e => e.totalSalary)).sum } := by
    intro l
    unfold totalStats
    rw [foldl_totalStats]
    simp
  refine ⟨?_, ?_, ?_, rfl, ?_, ?_, ?_⟩ <;>
    simp [fetchEmployeesCompute, h, Function.comp_def]

theorem daysInOrder_append (tz : Int) (records : List AttendanceRecord) (r : AttendanceRecord) :
    daysInOrder tz (records ++ [r]) =
      if localDay tz r.created_at ∈ daysInOrder tz records then daysInOrder tz records
      else daysInOrder tz records ++ [localDay tz r.created_at] := by
  simp [daysInOrder, List.foldl_append]

theorem mem_daysInOrder (tz : Int) (records : List AttendanceRecord) (d : Int) :
    d ∈ daysInOrder tz records ↔ ∃ r ∈ records, localDay tz r.created_at = d := by
  induction records using List.reverseRecOn with
  | nil => simp [daysInOrder]
  | append_singleton rs r ih =>
    rw [daysInOrder_append]
    split
    · rename_i h
      rw [ih]
      constructor
      · rintro ⟨x, hx, rfl⟩; exact ⟨x, List.mem_append_left _ hx, rfl⟩
      · rintro ⟨x, hx, rfl⟩
        rcases List.mem_append.mp hx with hx | hx
        · exact ⟨x, hx, rfl⟩
        · simp only [List.mem_singleton] at hx
          subst hx
          exact (ih.mp h)
    · rw [List.mem_append, ih]
      constructor
      · rintro (⟨x, hx, rfl⟩ | hx)
        · exact ⟨x, List.mem_append_left _ hx, rfl⟩
        · simp only [List.mem_singleton] at hx
          exact ⟨r, by simp, hx.symm⟩
      · rintro ⟨x, hx, rfl⟩
        rcases List.mem_append.mp hx with hx | hx
        · exact Or.inl ⟨x, hx, rfl⟩
        · simp only [List.mem_singleton] at hx
          subst hx
          exact Or.inr (by simp)

theorem nodup_daysInOrder (tz : Int) (records : List AttendanceRecord) :
    (daysInOrder tz records).Nodup := by
  induction records using List.reverseRecOn with
  | nil => simp [daysInOrder]
  | append_singleton rs r ih =>
    rw [daysInOrder_append]
    split
    · exact ih
    · rename_i h
      exact List.Nodup.append ih (List.nodup_singleton _) (by simpa using h)

theorem groupByDay_eq (tz : Int) (records : List AttendanceRecord) :
    groupByDay tz records = (daysInOrder tz records).map (fun d => (d, recordsOn tz records d)) := by
  induction records using List.reverseRecOn with
  | nil => simp [groupByDay, daysInOrder]
  | append_singleton rs r ih =>
    have hstep : groupByDay tz (rs ++ [r]) = groupStep tz (groupByDay tz rs) r := by
      simp [groupByDay, List.foldl_append]
    have hany : ((daysInOrder tz rs).map (fun d => (d, recordsOn tz rs d))).any
        (fun p => p.1 = localDay tz r.created_at)
        = decide (localDay tz r.created_at ∈ daysInOrder tz rs) := by
      rw [Bool.eq_iff_iff]
      simp
    rw [hstep, ih, daysInOrder_append]
    unfold groupStep
    simp only [hany, decide_eq_true_eq]
    by_cases h : localDay tz r.created_at ∈ daysInOrder tz rs
    · rw [if_pos h, if_pos h, List.map_map]
      apply List.map_congr_left
      intro d _
      simp only [Function.comp_apply, recordsOn, List.filter_append]
      by_cases hd : d = localDay tz r.created_at
      · subst hd; simp [List.filter]
      · have hd2 : ¬ localDay tz r.created_at = d := fun h => hd h.symm
        simp [List.filter, hd, hd2]
    · rw [if_neg h, if_neg h, List.map_append]
      congr 1
      · apply List.map_congr_left
        intro d hdm
        have hd2 : ¬ localDay tz r.created_at = d := fun h2 => h (h2 ▸ hdm)
        simp [recordsOn, List.filter_append, List.filter, hd2]
      · have hnone : recordsOn tz rs (localDay tz r.created_at) = [] := by
          simp only [recordsOn, List.filter_eq_nil_iff, decide_eq_true_eq]
          intro x hx hxd
          exact h ((mem_daysInOrder tz rs _).mpr ⟨x, hx, hxd⟩)
        simp only [List.map_cons, List.map_nil, recordsOn, List.filter_append] at hnone ⊢
        rw [hnone]
        simp [List.filter]

theorem hasIn_recordsOn (tz : Int) (records : List AttendanceRecord) (d : Int) :
    hasIn (recordsOn tz records d) = hasTypeOn tz records d "in" := by
  rw [Bool.eq_iff_iff]
  simp [hasIn, recordsOn, hasTypeOn]

theorem hasOut_recordsOn (tz : Int) (records : List AttendanceRecord) (d : Int) :
    hasOut (recordsOn tz records d) = hasTypeOn tz records d "out" := by
  rw [Bool.eq_iff_iff]
  simp [hasOut, recordsOn, hasTypeOn]

theorem hasHalfDay_recordsOn (tz : Int) (records : List AttendanceRecord) (d : Int) :
    hasHalfDay (recordsOn tz records d) = hasHalfOn tz records d := by
  rw [Bool.eq_iff_iff]
  simp [hasHalfDay, recordsOn, hasHalfOn]

theorem toFinset_daysInOrder (tz : Int) (records : List AttendanceRecord) :
    (daysInOrder tz records).toFinset
      = (records.map (fun r => localDay tz r.created_at)).toFinset := by
  ext d
  simp [mem_daysInOrder]

theorem length_filter_groups (tz : Int) (records : List AttendanceRecord)
    (p : List AttendanceRecord → Bool) :
    ((objectValues (groupByDay tz records)).filter p).length
      = ((records.map (fun r => localDay tz r.created_at)).toFinset.filter
          (fun d => p (recordsOn tz records d) = true)).card := by
  rw [groupByDay_eq, objectValues, List.map_map, List.filter_map, List.length_map,
    ← toFinset_daysInOrder, ← List.toFinset_filter,
    List.toFinset_card_of_nodup ((nodup_daysInOrder tz records).filter _)]
  rfl

theorem countDays_groupByDay (tz : Int) (records : List AttendanceRecord) :
    countDays (objectValues (groupByDay tz records))
      = ⟨specFullDays tz records, specHalfDays tz records⟩ := by
  rw [countDays, foldl_countDay, length_filter_groups, length_filter_groups]
  simp only [Nat.zero_add, specFullDays, specHalfDays, hasIn_recordsOn, hasOut_recordsOn,
    hasHalfDay_recordsOn, Bool.and_eq_true, Bool.not_eq_true', and_assoc]

theorem specDays_add (tz : Int) (records : List AttendanceRecord) :
    specFullDays tz records + specHalfDays tz records = (specCountedDays tz records).card := by
  unfold specFullDays specHalfDays specCountedDays
  rw [← Finset.filter_card_add_filter_neg_card_eq_card
    (fun d => hasHalfOn tz records d = true)
    (s := (records.map (fun r => localDay tz r.created_at)).toFinset.filter
      (fun d => hasTypeOn tz records d "in" = true ∧ hasTypeOn tz records d "out" = true))]
  rw [Finset.filter_filter, Finset.filter_filter, Nat.add_comm]
  congr 2
  · ext d; simp [and_assoc]
  · ext d; simp [and_assoc]

theorem mem_specCountedDays (tz : Int) (records : List AttendanceRecord) (d : Int) :
    d ∈ specCountedDays tz records ↔
      (∃ r ∈ records, localDay tz r.created_at = d ∧ r.type = "in") ∧
      (∃ r ∈ records, localDay tz r.created_at = d ∧ r.type = "out") := by
  simp only [specCountedDays, Finset.mem_filter, List.mem_toFinset, List.mem_map, hasTypeOn,
    List.any_eq_true, decide_eq_true_eq]
  constructor
  · rintro ⟨_, h1, h2⟩
    exact ⟨h1, h2⟩
  · rintro ⟨⟨r, hr, hd, ht⟩, h2⟩
    exact ⟨⟨r, hr, hd⟩, ⟨r, hr, hd, ht⟩, h2⟩

theorem specDays_append_in_only (tz : Int) (records extra : List AttendanceRecord)
    (hin : ∀ x ∈ extra, x.type = "in")
    (hnew : ∀ x ∈ extra, ∀ r ∈ records, localDay tz r.created_at ≠ localDay tz x.created_at) :
    specFullDays tz (records ++ extra) = specFullDays tz records ∧
    specHalfDays tz (records ++ extra) = specHalfDays tz records := by
  have hmemA : ∀ d, d ∈ (records.map (fun r => localDay tz r.created_at)).toFinset ↔
      ∃ r ∈ records, localDay tz r.created_at = d := by
    intro d; simp
  have hout : ∀ d, hasTypeOn tz (records ++ extra) d "out" = hasTypeOn tz records d "out" := by
    intro d
    rw [Bool.eq_iff_iff]
    simp only [hasTypeOn, List.any_eq_true, decide_eq_true_eq, List.mem_append]
    constructor
    · rintro ⟨x, hx | hx, hd, ht⟩
      · exact ⟨x, hx, hd, ht⟩
      · rw [hin x hx] at ht
        exact absurd ht (by decide)
    · rintro ⟨x, hx, h⟩
      exact ⟨x, Or.inl hx, h⟩
  have hold : ∀ d, (∃ r ∈ records, localDay tz r.created_at = d) →
      ∀ x ∈ extra, localDay tz x.created_at ≠ d := by
    rintro d ⟨r, hr, hrd⟩ x hx hxd
    exact hnew x hx r hr (hrd.trans hxd.symm)
  have hty : ∀ d ty, (∃ r ∈ records, localDay tz r.created_at = d) →
      hasTypeOn tz (records ++ extra) d ty = hasTypeOn tz records d ty := by
    intro d ty hd
    rw [Bool.eq_iff_iff]
    simp only [hasTypeOn, List.any_eq_true, decide_eq_true_eq, List.mem_append]
    constructor
    · rintro ⟨x, hx | hx, hxd, ht⟩
      · exact ⟨x, hx, hxd, ht⟩
      · exact absurd hxd (hold d hd x hx)
    · rintro ⟨x, hx, h⟩
      exact ⟨x, Or.inl hx, h⟩
  have hhalf : ∀ d, (∃ r ∈ records, localDay tz r.created_at = d) →
      hasHalfOn tz (records ++ extra) d = hasHalfOn tz records d := by
    intro d hd
    rw [Bool.eq_iff_iff]
    simp only [hasHalfOn, List.any_eq_true, decide_eq_true_eq, List.mem_append]
    constructor
    · rintro ⟨x, hx | hx, hxd, ht⟩
      · exact ⟨x, hx, hxd, ht⟩
      · exact absurd hxd (hold d hd x hx)
    · rintro ⟨x, hx, h⟩
      exact ⟨x, Or.inl hx, h⟩
  have hdate : ∀ d, hasTypeOn tz records d "out" = true →
      ∃ r ∈ records, localDay tz r.created_at = d := by
    intro d h
    simp only [hasTypeOn, List.any_eq_true, decide_eq_true_eq] at h
    obtain ⟨r, hr, hd, _⟩ := h
    exact ⟨r, hr, hd⟩
  have key : ∀ b : Bool,
      ((records ++ extra).map (fun r => localDay tz r.created_at)).toFinset.filter
        (fun d => hasTypeOn tz (records ++ extra) d "in" = true ∧
          hasTypeOn tz (records ++ extra) d "out" = true ∧ hasHalfOn tz (records ++ extra) d = b)
      = (records.map (fun r => localDay tz r.created_at)).toFinset.filter
        (fun d => hasTypeOn tz records d "in" = true ∧
          hasTypeOn tz records d "out" = true ∧ hasHalfOn tz records d = b) := by
    intro b
    ext d
    simp only [Finset.mem_filter, hmemA]
    constructor
    · rintro ⟨_, h1, h2, h3⟩
      rw [hout] at h2
      have hd := hdate d h2
      rw [hty d _ hd] at h1
      rw [hhalf d hd] at h3
      exact ⟨hd, h1, h2, h3⟩
    · rintro ⟨hd, h1, h2, h3⟩
      refine ⟨?_, ?_, ?_, ?_⟩
      · simp only [List.mem_toFinset, List.mem_map, List.mem_append]
        obtain ⟨r, hr, hrd⟩ := hd
        exact ⟨r, Or.inl hr, hrd⟩
      · rw [hty d _ hd]; exact h1
      · rw [hout]; exact h2
      · rw [hhalf d hd]; exact h3
  exact ⟨by unfold specFullDays; rw [key false], by unfold specHalfDays; rw [key true]⟩

theorem employeeStats_append_in_only (tz : Int) (attendanceData extra : List AttendanceRecord)
    (employee : Employee)
    (hin : ∀ x ∈ extra, x.employee_id = employee.id → x.type = "in")
    (hnew : ∀ x ∈ extra, x.employee_id = employee.id → ∀ r ∈ attendanceData,
      r.employee_id = employee.id → localDay tz r.created_at ≠ localDay tz x.created_at) :
    employeeStats tz (attendanceData ++ extra) employee = employeeStats tz attendanceData employee := by
  have h := specDays_append_in_only tz
    (attendanceData.filter (fun record => record.employee_id = employee.id))
    (extra.filter (fun record => record.employee_id = employee.id))
    (by
      intro x hx
      rw [List.mem_filter] at hx
      exact hin x hx.1 (by simpa using hx.2))
    (by
      intro x hx r hr
      rw [List.mem_filter] at hx hr
      exact hnew x hx.1 (by simpa using hx.2) r hr.1 (by simpa using hr.2))
  simp only [employeeStats, countDays_groupByDay, List.filter_append, h.1, h.2]

/-- C3. In the monthly payroll computation a calendar day contributes to
`fullDays` or `halfDays` if and only if the employee's records of that day
contain at least one record of type `in` and at least one of type `out`: on
the list page and on the detail page the full and half days together number
exactly the calendar dates with both.  Days holding only `in` records
contribute nothing: adding such days to a month changes no figure, a month of
`in` records only gives `fullDays = 0`, `halfDays = 0` and `daysWorked = 0`,
and so do two operator-entered `in` records with no `out`.  The same holds of
the body of the day loop: a day changes the counters (and is then counted
once) if and only if its records hold an `in` and an `out`.  A complete day
gives `fullDays = 1`; a complete day and a complete half day give 1, 1 and
`daysWorked = 3/2`. -/
theorem day_counts_iff_in_and_out (tz : Int) (attendanceData extra : List AttendanceRecord)
    (employee : Employee) (acc : DayCount) (records : List AttendanceRecord)
    (days : DailyRecords) :
    ((employeeStats tz attendanceData employee).fullDays
        + (employeeStats tz attendanceData employee).halfDays
      = (specCountedDays tz
          (attendanceData.filter (fun r => r.employee_id = employee.id))).card) ∧
    (∀ d : Int,
      d ∈ specCountedDays tz (attendanceData.filter (fun r => r.employee_id = employee.id)) ↔
        (∃ r ∈ attendanceData, r.employee_id = employee.id ∧ localDay tz r.created_at = d ∧
          r.type = "in") ∧
        (∃ r ∈ attendanceData, r.employee_id = employee.id ∧ localDay tz r.created_at = d ∧
          r.type = "out")) ∧
    (fullDaysDetail (groupByDay tz records) + halfDaysDetail (groupByDay tz records)
      = (specCountedDays tz records).card) ∧
    ((∀ x ∈ extra, x.employee_id = employee.id → x.type = "in") →
      (∀ x ∈ extra, x.employee_id = employee.id → ∀ r ∈ attendanceData,
        r.employee_id = employee.id → localDay tz r.created_at ≠ localDay tz x.created_at) →
      employeeStats tz (attendanceData ++ extra) employee
        = employeeStats tz attendanceData employee) ∧
    ((∀ r ∈ attendanceData, r.employee_id = employee.id → r.type = "in") →
      (employeeStats tz attendanceData employee).fullDays = 0 ∧
      (employeeStats tz attendanceData employee).halfDays = 0 ∧
      (employeeStats tz attendanceData employee).daysWorked = 0) ∧
    ((countDay acc records).fullDays + (countDay acc records).halfDays
        = acc.fullDays + acc.halfDays + 1 ↔
      ((∃ r ∈ records, r.type = "in") ∧ ∃ r ∈ records, r.type = "out")) ∧
    (countDay acc records ≠ acc ↔
      ((∃ r ∈ records, r.type = "in") ∧ ∃ r ∈ records, r.type = "out")) ∧
    ((countDays (objectValues days)).fullDays + (countDays (objectValues days)).halfDays
        = (days.filter (fun p => decide ((∃ r ∈ p.2, r.type = "in") ∧
            ∃ r ∈ p.2, r.type = "out"))).length) ∧
    (fullDaysDetail days + halfDaysDetail days
        = (days.filter (fun p => decide ((∃ r ∈ p.2, r.type = "in") ∧
            ∃ r ∈ p.2, r.type = "out"))).length) ∧
    ((∀ r ∈ records, r.type = "in") → countDay acc records = acc) ∧
    (employeeStats 0 twoInRecords sampleEmployee).daysWorked = 0 ∧
    ((employeeStats 0 completeDay sampleEmployee).fullDays = 1 ∧
      (employeeStats 0 completeDay sampleEmployee).daysWorked = 1) ∧
    ((employeeStats 0 fullAndHalfDay sampleEmployee).fullDays = 1 ∧
      (employeeStats 0 fullAndHalfDay sampleEmployee).halfDays = 1 ∧
      (employeeStats 0 fullAndHalfDay sampleEmployee).daysWorked = 3 / 2) ∧
    ((employeeStats 0 roundTripRecords sampleEmployee).fullDays = 1 ∧
      (employeeStats 0 roundTripRecords sampleEmployee).halfDays = 0 ∧
      (employeeStats 0 (roundTripRecords ++ twoInRecords) sampleEmployee).fullDays = 1) := by
  have hstep : ∀ (a : DayCount) (rs : List AttendanceRecord),
      (countDay a rs ≠ a ↔ (hasIn rs = true ∧ hasOut rs = true)) ∧
      ((countDay a rs).fullDays + (countDay a rs).halfDays = a.fullDays + a.halfDays + 1 ↔
        (hasIn rs = true ∧ hasOut rs = true)) := by
    intro a rs
    obtain ⟨f, h⟩ := a
    unfold countDay
    cases hasIn rs <;> cases hasOut rs <;> cases hasHalfDay rs <;> simp <;> omega
  have hmonth : fullDaysDetail days + halfDaysDetail days
      = (days.filter (fun p => decide ((∃ r ∈ p.2, r.type = "in") ∧
          ∃ r ∈ p.2, r.type = "out"))).length := by
    have hfun : (fun p : Int × List AttendanceRecord => decide ((∃ r ∈ p.2, r.type = "in") ∧
        ∃ r ∈ p.2, r.type = "out")) = fun p => hasIn p.2 && hasOut p.2 := by
      funext p
      have h1 := hasIn_iff p.2
      have h2 := hasOut_iff p.2
      cases hi : hasIn p.2 <;> cases ho : hasOut p.2 <;> simp [← h1, ← h2, hi, ho]
    rw [hfun]
    unfold fullDaysDetail halfDaysDetail objectValues
    induction days with
    | nil => simp
    | cons p rest ih =>
      simp only [List.map_cons, List.filter_cons]
      cases hi : hasIn p.2 <;> cases ho : hasOut p.2 <;> cases hh : hasHalfDay p.2 <;>
        simp <;> omega
  have hstats : ∀ (data : List AttendanceRecord),
      (employeeStats tz data employee).fullDays + (employeeStats tz data employee).halfDays
        = (specCountedDays tz (data.filter (fun r => r.employee_id = employee.id))).card := by
    intro data
    simp only [employeeStats, countDays_groupByDay]
    exact specDays_add tz _
  have hsample : ∀ (recs : List AttendanceRecord) (c : DayCount),
      countDays (objectValues (groupByDay 0
        (recs.filter (fun r => r.employee_id = sampleEmployee.id)))) = c →
      (employeeStats 0 recs sampleEmployee).fullDays = c.fullDays ∧
      (employeeStats 0 recs sampleEmployee).halfDays = c.halfDays ∧
      (employeeStats 0 recs sampleEmployee).daysWorked = daysWorkedOf c.fullDays c.halfDays := by
    intro recs c hc
    simp only [employeeStats, hc, and_self]
  have s1 := hsample twoInRecords ⟨0, 0⟩ (by decide)
  have s2 := hsample completeDay ⟨1, 0⟩ (by decide)
  have s3 := hsample fullAndHalfDay ⟨1, 1⟩ (by decide)
  have s4 := hsample roundTripRecords ⟨1, 0⟩ (by decide)
  have s5 := hsample (roundTripRecords ++ twoInRecords) ⟨1, 0⟩ (by decide)
  refine ⟨hstats attendanceData, ?_, ?_, employeeStats_append_in_only tz attendanceData extra employee,
    ?_, ?_, ?_, ?_, hmonth, ?_, ?_, ⟨s2.1, ?_⟩, ⟨s3.1, s3.2.1, ?_⟩, ⟨s4.1, s4.2.1, s5.1⟩⟩
  · intro d
    rw [mem_specCountedDays]
    simp only [List.mem_filter, decide_eq_true_eq, and_assoc]
  · have hd := countDays_eq_detail (groupByDay tz records)
    rw [countDays_groupByDay] at hd
    have h1 := congrArg DayCount.fullDays hd
    have h2 := congrArg DayCount.halfDays hd
    simp only at h1 h2
    rw [← h1, ← h2]
    exact specDays_add tz records
  · intro hall
    have hcard := hstats attendanceData
    have hempty : specCountedDays tz
        (attendanceData.filter (fun r => r.employee_id = employee.id)) = ∅ := by
      rw [Finset.eq_empty_iff_forall_not_mem]
      intro d hd
      rw [mem_specCountedDays] at hd
      obtain ⟨_, r, hr, _, ht⟩ := hd
      rw [List.mem_filter] at hr
      rw [hall r hr.1 (by simpa using hr.2)] at ht
      exact absurd ht (by decide)
    rw [hempty, Finset.card_empty] at hcard
    have hf : (employeeStats tz attendanceData employee).fullDays = 0 := by omega
    have hh : (employeeStats tz attendanceData employee).halfDays = 0 := by omega
    refine ⟨hf, hh, ?_⟩
    have hdw : (employeeStats tz attendanceData employee).daysWorked
        = daysWorkedOf (employeeStats tz attendanceData employee).fullDays
            (employeeStats tz attendanceData employee).halfDays := rfl
    rw [hdw, hf, hh]
    simp [daysWorkedOf]
  · rw [← hasIn_iff, ← hasOut_iff]; exact (hstep acc records).2
  · rw [← hasIn_iff, ← hasOut_iff]; exact (hstep acc records).1
  · rw [countDays_eq_detail]; exact hmonth
  · intro hall
    have hno : hasOut records = false := by
      simp only [hasOut, List.any_eq_false, decide_eq_true_eq]
      intro r hr h
      rw [hall r hr] at h
      exact absurd h (by decide)
    simp [countDay, hno]
  · rw [s1.2.2]; simp [daysWorkedOf]
  · rw [s2.2.2]; simp [daysWorkedOf]
  · rw [s3.2.2]; simp only [daysWorkedOf]; norm_num

/-- C6. For every list of one employee's records in a month, grouping the
records by calendar date and then counting gives `fullDays` equal to the number
of distinct calendar dates on which the list has an `in`, an `out` and no
half-day-flagged record, and `halfDays` equal to the number of distinct dates
with an `in`, an `out` and some half-day-flagged record.  Every date has one
group, holding exactly the records of that date, so every record falls in
exactly the group of its own date.  For `in` at 09:00 and `out` at 18:00 on
day 5 and `in` at 09:00 on day 10 the result is `fullDays = 1`,
`halfDays = 0`, `daysWorked = 1`. -/
theorem grouped_count_matches_dates (tz : Int) (records : List AttendanceRecord)
    (attendanceData : List AttendanceRecord) (employee : Employee) :
    (countDays (objectValues (groupByDay tz records))).fullDays = specFullDays tz records ∧
    (countDays (objectValues (groupByDay tz records))).halfDays = specHalfDays tz records ∧
    (employeeStats tz attendanceData employee).fullDays
      = specFullDays tz (attendanceData.filter (fun r => r.employee_id = employee.id)) ∧
    (employeeStats tz attendanceData employee).halfDays
      = specHalfDays tz (attendanceData.filter (fun r => r.employee_id = employee.id)) ∧
    ((groupByDay tz records).map (fun p => p.1)).Nodup ∧
    (∀ r ∈ records, ∃ p ∈ groupByDay tz records, p.1 = localDay tz r.created_at) ∧
    (∀ p ∈ groupByDay tz records,
      p.2 = records.filter (fun r => localDay tz r.created_at = p.1)) ∧
    (∀ r ∈ records, ∀ p ∈ groupByDay tz records,
      (r ∈ p.2 ↔ p.1 = localDay tz r.created_at)) ∧
    (employeeStats 0 roundTripRecords sampleEmployee).fullDays = 1 ∧
    (employeeStats 0 roundTripRecords sampleEmployee).halfDays = 0 ∧
    (employeeStats 0 roundTripRecords sampleEmployee).daysWorked = 1 := by
  have hgroup : ∀ p ∈ groupByDay tz records,
      p.2 = records.filter (fun r => localDay tz r.created_at = p.1) := by
    intro p hp
    rw [groupByDay_eq, List.mem_map] at hp
    obtain ⟨d, _, rfl⟩ := hp
    rfl
  have hround : countDays (objectValues (groupByDay 0
      (roundTripRecords.filter (fun r => r.employee_id = sampleEmployee.id)))) = ⟨1, 0⟩ := by
    decide
  refine ⟨?_, ?_, ?_, ?_, ?_, ?_, hgroup, ?_, ?_, ?_, ?_⟩
  · rw [countDays_groupByDay]
  · rw [countDays_groupByDay]
  · simp only [employeeStats, countDays_groupByDay]
  · simp only [employeeStats, countDays_groupByDay]
  · rw [groupByDay_eq, List.map_map]
    have : ((fun p : Int × List AttendanceRecord => p.1) ∘
        fun d => (d, recordsOn tz records d)) = id := rfl
    rw [this, List.map_id]
    exact nodup_daysInOrder tz records
  · intro r hr
    refine ⟨(localDay tz r.created_at, recordsOn tz records (localDay tz r.created_at)), ?_, rfl⟩
    rw [groupByDay_eq, List.mem_map]
    exact ⟨_, (mem_daysInOrder tz records _).mpr ⟨r, hr, rfl⟩, rfl⟩
  · intro r hr p hp
    rw [hgroup p hp, List.mem_filter]
    simp only [decide_eq_true_eq, hr, true_and]
    exact eq_comm
  · simp only [employeeStats, hround]
  · simp only [employeeStats, hround]
  · simp only [employeeStats, hround, daysWorkedOf]; norm_num


theorem endOfMonth_opens_last_day (tz year month : Int) :
    (getMonthDates tz year month).2 + msPerDay = jsDate tz year month 1 := by
  simp only [getMonthDates, jsDate]
  ring

theorem monthAttendance_excludes_last_day (tz year month : Int) (s : Store)
    (r : AttendanceRecord) (h : (getMonthDates tz year month).2 < r.created_at) :
    r ∉ monthAttendance s (getMonthDates tz year month) := by
  simp only [monthAttendance, List.mem_filter, decide_eq_true_eq, not_and, not_le]
  intro _ _
  exact h

/-- C7 (the code at the failing input). With January 2024 selected in a zone
eight hours ahead of UTC, an in/out pair stored at 09:00 and 18:00 local time
on 31 January 2024 lies in that calendar month, yet the range of
`getMonthDates` ends at local midnight opening the 31st: the month's query
returns neither record, the list page counts no day for the employee and the
detail page groups no record. -/
theorem month_range_misses_last_day :
    lastDayStore.attendance_records.map (fun r => civilOfDay (localDay tzTaipei r.created_at))
      = [(2024, 1, 31), (2024, 1, 31)] ∧
    (∀ r ∈ lastDayStore.attendance_records, inCalendarMonth tzTaipei 2024 1 r.created_at) ∧
    civilOfDay (localDay tzTaipei (getMonthDates tzTaipei 2024 1).1) = (2024, 1, 1) ∧
    civilOfDay (localDay tzTaipei (getMonthDates tzTaipei 2024 1).2) = (2024, 1, 31) ∧
    (getMonthDates tzTaipei 2024 1).2 = startOfDay tzTaipei (getMonthDates tzTaipei 2024 1).2 ∧
    monthAttendance lastDayStore (getMonthDates tzTaipei 2024 1) = [] ∧
    (fetchEmployees none none tzTaipei 2024 1 lastDayStore).map
      (fun p => p.1.map (fun e => (e.fullDays, e.halfDays))) = some [(0, 0)] ∧
    detailRecords tzTaipei 2024 1 lastDayStore 1 = [] := by
  refine ⟨by decide, by decide, by decide, by decide, by decide, by decide, by decide, by decide⟩

theorem handleDelete_device_failed (env : DeleteEnv) (s : Store) (id : Nat) (e : Employee)
    (f : Nat) (errorMessage : String) (hconfirmed : env.confirmed = true)
    (hfetch : env.fetchFault = none) (hdelete : env.deleteFault = none)
    (hrow : s.employees.filter (fun x => x.id = id) = [e])
    (hf : e.fingerprint_id = some f) (hf0 : f ≠ 0) (hdev : env.device = .failed errorMessage) :
    handleDelete env s id =
      { store := { s with
          employees := s.employees.filter (fun x => x.id ≠ id),
          attendance_records := s.attendance_records.filter (fun r => r.employee_id ≠ id) },
        message := some (msgDeleteFailed errorMessage), deviceDelete := some f } := by
  simp [handleDelete, hconfirmed, fingerprintOfEmployee, hfetch, hrow, single, Except.map,
    deleteEmployee, hdelete, hf, truthyId, hf0, hdev]

theorem handleDelete_device_notOk (env : DeleteEnv) (s : Store) (id : Nat) (e : Employee)
    (f : Nat) (error : Option String) (hconfirmed : env.confirmed = true)
    (hfetch : env.fetchFault = none) (hdelete : env.deleteFault = none)
    (hrow : s.employees.filter (fun x => x.id = id) = [e])
    (hf : e.fingerprint_id = some f) (hf0 : f ≠ 0) (hdev : env.device = .notOk error) :
    handleDelete env s id =
      { store := { s with
          employees := s.employees.filter (fun x => x.id ≠ id),
          attendance_records := s.attendance_records.filter (fun r => r.employee_id ≠ id) },
        message := some msgDeletedDeviceFailed, deviceDelete := some f } := by
  simp [handleDelete, hconfirmed, fingerprintOfEmployee, hfetch, hrow, single, Except.map,
    deleteEmployee, hdelete, hf, truthyId, hf0, hdev]

/-- C9 (the code at the failing input). Deleting the sample employee, whose
fingerprint id is 7, with the store deletion succeeding: when the device
answers with an error status the flow reports the warning `employee removed,
device cleanup failed`; when the device call itself fails (the request throws)
the employee is removed all the same and is not restored, the device call was
made with id 7, but the flow reports the generic failure message of its
`catch` block, not the warning. -/
theorem delete_device_throw_reports_generic_failure :
    (handleDelete (deleteEnvWith (.notOk none)) sampleStore 1).message
      = some msgDeletedDeviceFailed ∧
    (handleDelete (deleteEnvWith (.notOk none)) sampleStore 1).store.employees = [] ∧
    (handleDelete (deleteEnvWith (.failed "Failed to fetch")) sampleStore 1).store.employees = [] ∧
    (handleDelete (deleteEnvWith (.failed "Failed to fetch")) sampleStore 1).deviceDelete
      = some 7 ∧
    (handleDelete (deleteEnvWith (.failed "Failed to fetch")) sampleStore 1).message
      = some (msgDeleteFailed "Failed to fetch") ∧
    (handleDelete (deleteEnvWith (.failed "Failed to fetch")) sampleStore 1).message
      ≠ some msgDeletedDeviceFailed := by
  refine ⟨by decide, by decide, by decide, by decide, by decide, by decide⟩

/-! ### Device failures, the fingerprint list, and operator edits -/

/-- C11. Whenever the device call fails (a response that is not ok, or a request
that throws) the store is left unchanged: `checkAttendance` writes no
attendance record and returns a result whose `success` is false,
`registerFingerprint` creates no employee, and `handleRegisterFingerprint`
changes no enrollment reference. -/
theorem device_failure_leaves_store (venv : VerifyEnv) (renv : RegisterEnv) (lenv : LinkEnv)
    (employeeData : EmployeeForm) (s : Store) (employeeId : Nat)
    (hv : ∀ d, venv.device ≠ .ok d) (hr : ∀ d, renv.device ≠ .ok d)
    (hl : ∀ d, lenv.device ≠ .ok d) :
    (checkAttendance venv s).1 = s ∧ (checkAttendance venv s).2.success = false ∧
    (registerFingerprint renv employeeData s).store = s ∧
    (handleRegisterFingerprint lenv s employeeId).store = s := by
  refine ⟨?_, ?_, ?_, ?_⟩
  · unfold checkAttendance
    cases hd : venv.device with
    | ok d => exact absurd hd (hv d)
    | notOk e => rfl
    | failed m => rfl
  · unfold checkAttendance
    cases hd : venv.device with
    | ok d => exact absurd hd (hv d)
    | notOk e => rfl
    | failed m => rfl
  · unfold registerFingerprint
    split
    · rfl
    · cases hd : renv.device with
      | ok d => exact absurd hd (hr d)
      | notOk e => rfl
      | failed m => rfl
  · unfold handleRegisterFingerprint
    cases hd : lenv.device with
    | ok d => exact absurd hd (hl d)
    | notOk e => rfl
    | failed m => rfl

theorem device_failure_leaves_store_witness :
    (checkAttendance ⟨0, 1000, .notOk none, none, none, none⟩ sampleStore).1 = sampleStore ∧
    (checkAttendance ⟨0, 1000, .notOk none, none, none, none⟩ sampleStore).2.success = false ∧
    (registerFingerprint ⟨1000, .failed "timeout", none⟩ ⟨"Wu", "Ops", "Clerk", .empty⟩
      sampleStore).store = sampleStore ∧
    (handleRegisterFingerprint ⟨.notOk (some "sensor busy"), none⟩ sampleStore 1).store
      = sampleStore :=
  device_failure_leaves_store ⟨0, 1000, .notOk none, none, none, none⟩
    ⟨1000, .failed "timeout", none⟩ ⟨.notOk (some "sensor busy"), none⟩
    ⟨"Wu", "Ops", "Clerk", .empty⟩ sampleStore 1
    (fun _ h => by cases h) (fun _ h => by cases h) (fun _ h => by cases h)

/-- C14. For every list of device enrollment ids and every employee table, the
merged list built by `fetchFingerprints` has one entry per device id in the
order of the device; the entries without an employee are exactly the device ids
that no employee references; every other entry carries an employee of the
table whose `fingerprint_id` is the id of the entry. -/
theorem merged_list_marks_orphans (ids : List Nat) (s : Store) :
    ∃ combined : List FingerprintEntry,
      fetchFingerprints (.ok ids) none s = some combined ∧
      combined.map (fun entry => entry.id) = ids ∧
      (∀ entry ∈ combined,
        (entry.employee = none ↔ ∀ e ∈ s.employees, e.fingerprint_id ≠ some entry.id)) ∧
      ((combined.filter (fun entry => entry.employee = none)).map (fun entry => entry.id)
        = ids.filter (fun id => ∀ e ∈ s.employees, e.fingerprint_id ≠ some id)) ∧
      (∀ entry ∈ combined, ∀ emp, entry.employee = some emp →
        emp ∈ s.employees ∧ emp.fingerprint_id = some entry.id) := by
  have hnone : ∀ id ∈ ids,
      ((s.employees.filter (fun e => ids.any (fun id => e.fingerprint_id = some id))).find?
        (fun emp => emp.fingerprint_id = some id) = none
        ↔ ∀ e ∈ s.employees, e.fingerprint_id ≠ some id) := by
    intro id hid
    rw [List.find?_eq_none]
    constructor
    · intro h e he hfp
      have hmem : e ∈ s.employees.filter
          (fun e => ids.any (fun id => e.fingerprint_id = some id)) := by
        rw [List.mem_filter]
        refine ⟨he, ?_⟩
        rw [List.any_eq_true]
        exact ⟨id, hid, by simpa using hfp⟩
      exact h e hmem (by simpa using hfp)
    · intro h e he
      have := h e (List.mem_of_mem_filter he)
      simpa using this
  refine ⟨_, rfl, ?_, ?_, ?_, ?_⟩
  · simp [Function.comp_def]
  · intro entry hentry
    rw [List.mem_map] at hentry
    obtain ⟨id, hid, rfl⟩ := hentry
    exact hnone id hid
  · rw [List.filter_map, List.map_map]
    have hid : ((fun entry : FingerprintEntry => entry.id) ∘ fun id =>
        ({ id := id, employee := (s.employees.filter
          (fun e => ids.any (fun id => e.fingerprint_id = some id))).find?
            (fun emp => emp.fingerprint_id = some id) } : FingerprintEntry)) = id := rfl
    rw [hid, List.map_id]
    apply List.filter_congr
    intro id hid2
    simp only [Function.comp_apply]
    rw [Bool.eq_iff_iff, decide_eq_true_iff, decide_eq_true_iff]
    exact hnone id hid2
  · intro entry hentry emp hemp
    rw [List.mem_map] at hentry
    obtain ⟨id, _, rfl⟩ := hentry
    simp only at hemp
    have h1 := List.find?_some hemp
    have h2 := List.mem_of_find?_eq_some hemp
    exact ⟨List.mem_of_mem_filter h2, by simpa using h1⟩

theorem forall₂_map_self {α : Type} (R : α → α → Prop) (f : α → α) (l : List α)
    (h : ∀ a ∈ l, R a (f a)) : List.Forall₂ R l (l.map f) := by
  induction l with
  | nil => exact List.Forall₂.nil
  | cons a rest ih =>
    exact List.Forall₂.cons (h a (List.mem_cons_self a rest))
      (ih (fun b hb => h b (List.mem_cons_of_mem a hb)))

theorem forall₂_self {α : Type} (R : α → α → Prop) (l : List α) (h : ∀ a ∈ l, R a a) :
    List.Forall₂ R l l := by
  have := forall₂_map_self R id l h
  simpa using this

/-- C16. A profile edit (`handleUpdate` on the employee list page and on the
employee detail page) changes only the name, department, position and salary
of the targeted employee: row by row, the identity, the employee code and the
enrollment reference are unchanged, every row of another employee is unchanged
altogether, and (the store answering) the targeted row takes the four edited
fields; the attendance ledger is untouched.  A code or an enrollment reference
carried by the edited object is not written. -/
theorem profile_edit_frame (fault : Option StoreError) (s : Store)
    (selectedEmployee employee editingEmployee : Employee) :
    List.Forall₂
      (fun old new => new.id = old.id ∧ new.employee_id = old.employee_id ∧
        new.fingerprint_id = old.fingerprint_id ∧
        (old.id ≠ selectedEmployee.id → new = old) ∧
        (fault = none → old.id = selectedEmployee.id →
          new.name = selectedEmployee.name ∧ new.department = selectedEmployee.department ∧
          new.position = selectedEmployee.position ∧ new.salary = selectedEmployee.salary))
      s.employees (handleUpdate fault s selectedEmployee).1.employees ∧
    (handleUpdate fault s selectedEmployee).1.attendance_records = s.attendance_records ∧
    List.Forall₂
      (fun old new => new.id = old.id ∧ new.employee_id = old.employee_id ∧
        new.fingerprint_id = old.fingerprint_id ∧
        (old.id ≠ employee.id → new = old) ∧
        (fault = none → old.id = employee.id →
          new.name = editingEmployee.name ∧ new.department = editingEmployee.department ∧
          new.position = editingEmployee.position ∧ new.salary = editingEmployee.salary))
      s.employees (handleUpdateDetail fault s employee editingEmployee).1.employees ∧
    (handleUpdateDetail fault s employee editingEmployee).1.attendance_records
      = s.attendance_records ∧
    (handleUpdate none twoEmployeeStore
        { unlinkedEmployee with name := "Wu Mei", salary := some 150, employee_id := "EMP999999",
                                fingerprint_id := some 9 }).1.employees
      = [sampleEmployee, { unlinkedEmployee with name := "Wu Mei", salary := some 150 }] := by
  cases fault with
  | some err =>
    refine ⟨?_, rfl, ?_, rfl, by decide⟩
    · exact forall₂_self _ _ (fun a _ => ⟨rfl, rfl, rfl, fun _ => rfl, fun h => absurd h (by simp)⟩)
    · exact forall₂_self _ _ (fun a _ => ⟨rfl, rfl, rfl, fun _ => rfl, fun h => absurd h (by simp)⟩)
  | none =>
    refine ⟨?_, rfl, ?_, rfl, by decide⟩
    · apply forall₂_map_self
      intro a _
      by_cases h : a.id = selectedEmployee.id
      · simp [h]
      · simp [h]
    · apply forall₂_map_self
      intro a _
      by_cases h : a.id = employee.id
      · simp [h]
      · simp [h]

/-- C17. Editing an attendance record (`handleEditRecord`) sets only the type and
the half-day flag of the record with the given id, whatever the state of that
record's day (no sequencing check is applied): row by row, the identity, the
employee, the timestamp and the status are unchanged, every other record is
unchanged altogether, and (the store answering) the record with the given id
takes the two edited fields; the employee table is untouched.  Turning the
`out` of a complete day into an `in` is accepted, and the timestamp held by
the form is not written. -/
theorem record_edit_frame (fault : Option StoreError) (s : Store)
    (editingRecord : EditingRecord) :
    List.Forall₂
      (fun old new => new.id = old.id ∧ new.employee_id = old.employee_id ∧
        new.created_at = old.created_at ∧ new.status = old.status ∧
        (old.id ≠ editingRecord.id → new = old) ∧
        (fault = none → old.id = editingRecord.id →
          new.type = editingRecord.type ∧ new.is_half_day = editingRecord.is_half_day))
      s.attendance_records (handleEditRecord fault s editingRecord).1.attendance_records ∧
    (handleEditRecord fault s editingRecord).1.employees = s.employees ∧
    (handleEditRecord none lastDayStore ⟨2, "in", true, 0⟩).1.attendance_records
      = [{ id := 1, employee_id := 1, created_at := 1706662800000, type := "in",
           status := "present", is_half_day := false },
         { id := 2, employee_id := 1, created_at := 1706695200000, type := "in",
           status := "present", is_half_day := true }] := by
  cases fault with
  | some err =>
    refine ⟨?_, rfl, by decide⟩
    exact forall₂_self _ _
      (fun a _ => ⟨rfl, rfl, rfl, rfl, fun _ => rfl, fun h => absurd h (by simp)⟩)
  | none =>
    refine ⟨?_, rfl, by decide⟩
    apply forall₂_map_self
    intro a _
    by_cases h : a.id = editingRecord.id
    · simp [h]
    · simp [h]

/-- C18. A manual insert by the operator (`handleAddRecord`) with a date and
time that form a valid instant is accepted for every state of the target day
(the store answering): it adds exactly one record, carrying the given
employee, type, half-day flag and the instant composed from the entered date
and time; a day that already holds an `in` and an `out` takes a third record.
With a date or time that forms no valid instant nothing is written. -/
theorem manual_insert_unguarded (env : AddRecordEnv) (s : Store) (employee : Employee)
    (newRecord : NewRecord) :
    (∀ dateTime : Int, env.parseDate (newRecord.date ++ "T" ++ newRecord.time) = some dateTime →
      env.insertFault = none →
      (handleAddRecord env s employee newRecord).1.attendance_records
        = s.attendance_records ++
          [{ id := s.nextId, employee_id := employee.id, created_at := dateTime,
             type := newRecord.type, status := "present",
             is_half_day := newRecord.is_half_day }] ∧
      (handleAddRecord env s employee newRecord).1.employees = s.employees ∧
      (handleAddRecord env s employee newRecord).2 = "打卡記錄添加成功") ∧
    (env.parseDate (newRecord.date ++ "T" ++ newRecord.time) = none →
      (handleAddRecord env s employee newRecord).1 = s ∧
      (handleAddRecord env s employee newRecord).2 = "添加打卡記錄失敗") ∧
    dayTypes tzTaipei lastDayStore 1 19753 = ["in", "out"] ∧
    dayTypes tzTaipei (handleAddRecord ⟨sampleParseDate, 0, none⟩ lastDayStore
      sampleEmployee ⟨"2024-01-31", "09:00", "in", false⟩).1 1 19753 = ["in", "in", "out"] := by
  refine ⟨?_, ?_, by decide, by decide⟩
  · intro dateTime hparse hfault
    simp [handleAddRecord, hparse, hfault, insertAttendance]
  · intro hparse
    simp [handleAddRecord, hparse]

/-! ### Today's records and the order of records -/

theorem checkAttendance_before_today (tz now : Int) (f : Nat) (emps : List Employee)
    (recs : List AttendanceRecord) (n : Nat) (r : AttendanceRecord)
    (hr : r.created_at < startOfDay tz now) :
    (checkAttendance (verifyOk tz now f) ⟨emps, r :: recs, n⟩).2
      = (checkAttendance (verifyOk tz now f) ⟨emps, recs, n⟩).2 := by
  have hrs : ∀ id, recordsSince ⟨emps, r :: recs, n⟩ id (startOfDay tz now)
      = recordsSince ⟨emps, recs, n⟩ id (startOfDay tz now) := by
    intro id
    simp only [recordsSince]
    rw [List.filter_cons_of_neg]
    simp only [decide_eq_true_eq, not_and, not_le]
    exact fun _ => hr
  simp only [checkAttendance, verifyOk, employeeByFingerprint, todayRecordsQuery, hrs]
  cases single (emps.filter (fun e => e.fingerprint_id = some f)) with
  | error err => dsimp only; split <;> rfl
  | ok e =>
    dsimp only
    cases decideType ((orderByCreatedAt (recordsSince ⟨emps, recs, n⟩ e.id
        (startOfDay tz now))).map (fun r => r.type)) with
    | none => rfl
    | some type => simp [insertAttendance]

/-- C19 (the code at the failing input). The sample store with an empty ledger
and the stores holding one operator-entered record dated tomorrow agree on the
employee's records dated today (there are none), yet the verify flow at
instant 1000 of the epoch day answers differently: with the empty ledger it
stores an `in`; with an `in` dated tomorrow it stores an `out`; with an `out`
dated tomorrow it stores nothing and reports the day as already completed.
The query for today's records has a lower bound only. -/
theorem verify_counts_tomorrows_records :
    dayTypes 0 sampleStore 1 0 = [] ∧ dayTypes 0 tomorrowInStore 1 0 = [] ∧
    dayTypes 0 tomorrowOutStore 1 0 = [] ∧
    localDay 0 1000 = 0 ∧ localDay 0 (86400000 + 32400000) = 1 ∧
    (checkAttendance (verifyOk 0 1000 7) sampleStore).2.type = some "in" ∧
    (checkAttendance (verifyOk 0 1000 7) tomorrowInStore).2.type = some "out" ∧
    (checkAttendance (verifyOk 0 1000 7) tomorrowInStore).2.success = true ∧
    (checkAttendance (verifyOk 0 1000 7) tomorrowOutStore).2.success = false ∧
    (checkAttendance (verifyOk 0 1000 7) tomorrowOutStore).2.message = "今天已完成上下班打卡" ∧
    (checkAttendance (verifyOk 0 1000 7) tomorrowOutStore).1.attendance_records
      = tomorrowOutStore.attendance_records := by
  refine ⟨by decide, by decide, by decide, by decide, by decide, by decide, by decide,
    by decide, by decide, by decide, by decide⟩

theorem hasTypeOn_perm (tz : Int) {l1 l2 : List AttendanceRecord} (h : l1.Perm l2) (d : Int)
    (ty : String) : hasTypeOn tz l1 d ty = hasTypeOn tz l2 d ty := by
  rw [Bool.eq_iff_iff]
  simp only [hasTypeOn, List.any_eq_true]
  exact ⟨fun ⟨r, hr, hp⟩ => ⟨r, h.mem_iff.mp hr, hp⟩, fun ⟨r, hr, hp⟩ => ⟨r, h.mem_iff.mpr hr, hp⟩⟩

theorem hasHalfOn_perm (tz : Int) {l1 l2 : List AttendanceRecord} (h : l1.Perm l2) (d : Int) :
    hasHalfOn tz l1 d = hasHalfOn tz l2 d := by
  rw [Bool.eq_iff_iff]
  simp only [hasHalfOn, List.any_eq_true]
  exact ⟨fun ⟨r, hr, hp⟩ => ⟨r, h.mem_iff.mp hr, hp⟩, fun ⟨r, hr, hp⟩ => ⟨r, h.mem_iff.mpr hr, hp⟩⟩

theorem specDays_perm (tz : Int) {l1 l2 : List AttendanceRecord} (h : l1.Perm l2) :
    specFullDays tz l1 = specFullDays tz l2 ∧ specHalfDays tz l1 = specHalfDays tz l2 := by
  have hset : (l1.map (fun r => localDay tz r.created_at)).toFinset
      = (l2.map (fun r => localDay tz r.created_at)).toFinset :=
    List.toFinset_eq_of_perm _ _ (h.map _)
  unfold specFullDays specHalfDays
  rw [hset]
  simp only [hasTypeOn_perm tz h, hasHalfOn_perm tz h, and_self]

theorem employeeStats_perm (tz : Int) {l1 l2 : List AttendanceRecord} (h : l1.Perm l2)
    (employee : Employee) : employeeStats tz l1 employee = employeeStats tz l2 employee := by
  have hf := h.filter (fun record => decide (record.employee_id = employee.id))
  have hs := specDays_perm tz hf
  simp only [employeeStats, countDays_groupByDay, hs.1, hs.2]

/-- C20. The monthly payroll figures do not depend on the order of the records:
for every list of attendance records and every permutation of it the
per-employee computation of `fetchEmployees` yields the same `fullDays`,
`halfDays`, `daysWorked` and total pay, and so the same figures and aggregate
for every list of employees. -/
theorem payroll_order_independent (tz : Int) (records permuted : List AttendanceRecord)
    (employee : Employee) (employeesData : List Employee) (h : records.Perm permuted) :
    (employeeStats tz records employee).fullDays
      = (employeeStats tz permuted employee).fullDays ∧
    (employeeStats tz records employee).halfDays
      = (employeeStats tz permuted employee).halfDays ∧
    (employeeStats tz records employee).daysWorked
      = (employeeStats tz permuted employee).daysWorked ∧
    (employeeStats tz records employee).totalSalary
      = (employeeStats tz permuted employee).totalSalary ∧
    fetchEmployeesCompute tz employeesData records
      = fetchEmployeesCompute tz employeesData permuted := by
  have he := employeeStats_perm tz h
  refine ⟨by rw [he], by rw [he], by rw [he], by rw [he], ?_⟩
  have hmap : employeesData.map (employeeStats tz records)
      = employeesData.map (employeeStats tz permuted) :=
    List.map_congr_left (fun e _ => he e)
  simp only [fetchEmployeesCompute, hmap]

theorem payroll_order_independent_witness :
    (employeeStats 0 fullAndHalfDay sampleEmployee).fullDays
      = (employeeStats 0 fullAndHalfDayShuffled sampleEmployee).fullDays ∧
    (employeeStats 0 fullAndHalfDay sampleEmployee).halfDays
      = (employeeStats 0 fullAndHalfDayShuffled sampleEmployee).halfDays ∧
    (employeeStats 0 fullAndHalfDay sampleEmployee).daysWorked
      = (employeeStats 0 fullAndHalfDayShuffled sampleEmployee).daysWorked ∧
    (employeeStats 0 fullAndHalfDay sampleEmployee).totalSalary
      = (employeeStats 0 fullAndHalfDayShuffled sampleEmployee).totalSalary ∧
    fetchEmployeesCompute 0 [sampleEmployee] fullAndHalfDay
      = fetchEmployeesCompute 0 [sampleEmployee] fullAndHalfDayShuffled :=
  payroll_order_independent 0 fullAndHalfDay fullAndHalfDayShuffled sampleEmployee
    [sampleEmployee] (by decide)

/-! ### Employee codes -/

theorem digitChar_injective_of_lt (a b : Nat) (ha : a < 10) (hb : b < 10)
    (h : Nat.digitChar a = Nat.digitChar b) : a = b := by
  interval_cases a <;> interval_cases b <;> first | rfl | (exact absurd h (by decide))

theorem lastDigits_six (t : Nat) (h : 100000 ≤ t) :
    lastDigits 6 t =
      [t / 100000 % 10, t / 10000 % 10, t / 1000 % 10, t / 100 % 10, t / 10 % 10, t % 10] := by
  have h0 : t ≠ 0 := by omega
  have h1 : t / 10 ≠ 0 := by omega
  have h2 : t / 10 / 10 ≠ 0 := by omega
  have h3 : t / 10 / 10 / 10 ≠ 0 := by omega
  have h4 : t / 10 / 10 / 10 / 10 ≠ 0 := by omega
  have h5 : t / 10 / 10 / 10 / 10 / 10 ≠ 0 := by omega
  simp only [lastDigits, h0, h1, h2, h3, h4, h5, if_false, List.nil_append, List.cons_append,
    List.cons.injEq, and_true]
  refine ⟨?_, ?_, ?_, ?_⟩ <;> omega

theorem generateEmployeeId_eq_iff (t1 t2 : Nat) (h1 : 100000 ≤ t1) (h2 : 100000 ≤ t2) :
    generateEmployeeId t1 = generateEmployeeId t2 ↔ t1 % 1000000 = t2 % 1000000 := by
  have z1 : t1 ≠ 0 := by omega
  have z2 : t2 ≠ 0 := by omega
  have hstr : generateEmployeeId t1 = generateEmployeeId t2 ↔
      (lastDigits 6 t1).map Nat.digitChar = (lastDigits 6 t2).map Nat.digitChar := by
    simp only [generateEmployeeId, sliceLastSix, z1, z2, if_false]
    constructor
    · intro h
      have hd := congrArg String.data h
      simp only [String.data_append] at hd
      exact List.append_cancel_left hd
    · intro h
      rw [h]
  rw [hstr, lastDigits_six t1 h1, lastDigits_six t2 h2]
  simp only [List.map_cons, List.map_nil, List.cons.injEq, and_true]
  constructor
  · rintro ⟨a5, a4, a3, a2, a1, a0⟩
    have e5 := digitChar_injective_of_lt _ _ (Nat.mod_lt _ (by decide)) (Nat.mod_lt _ (by decide)) a5
    have e4 := digitChar_injective_of_lt _ _ (Nat.mod_lt _ (by decide)) (Nat.mod_lt _ (by decide)) a4
    have e3 := digitChar_injective_of_lt _ _ (Nat.mod_lt _ (by decide)) (Nat.mod_lt _ (by decide)) a3
    have e2 := digitChar_injective_of_lt _ _ (Nat.mod_lt _ (by decide)) (Nat.mod_lt _ (by decide)) a2
    have e1 := digitChar_injective_of_lt _ _ (Nat.mod_lt _ (by decide)) (Nat.mod_lt _ (by decide)) a1
    have e0 := digitChar_injective_of_lt _ _ (Nat.mod_lt _ (by decide)) (Nat.mod_lt _ (by decide)) a0
    omega
  · intro h
    have e5 : t1 / 100000 % 10 = t2 / 100000 % 10 := by omega
    have e4 : t1 / 10000 % 10 = t2 / 10000 % 10 := by omega
    have e3 : t1 / 1000 % 10 = t2 / 1000 % 10 := by omega
    have e2 : t1 / 100 % 10 = t2 / 100 % 10 := by omega
    have e1 : t1 / 10 % 10 = t2 / 10 % 10 := by omega
    have e0 : t1 % 10 = t2 % 10 := by omega
    rw [e5, e4, e3, e2, e1, e0]
    exact ⟨rfl, rfl, rfl, rfl, rfl, rfl⟩

/-- C15 (the claim fails). Two creation instants one million milliseconds apart
are distinct and yet get the same employee code, from `generateEmployeeId` and
from the expression of `handleCreateEmployee` alike. -/
theorem employee_code_collision :
    (1700000123456 : Nat) ≠ 1700001123456 ∧
    generateEmployeeId 1700000123456 = "EMP123456" ∧
    generateEmployeeId 1700001123456 = "EMP123456" ∧
    ¬ (∀ t1 t2 : Nat, t1 ≠ t2 → generateEmployeeId t1 ≠ generateEmployeeId t2) ∧
    ((handleCreateEmployee 1700000123456 none ⟨"Lin", "", "", .empty⟩ sampleStore).1.employees.map
        (fun e => e.employee_id) = ["EMP000001", "EMP123456"]) ∧
    ((handleCreateEmployee 1700001123456 none ⟨"Wu", "", "", .empty⟩ sampleStore).1.employees.map
        (fun e => e.employee_id) = ["EMP000001", "EMP123456"]) := by
  refine ⟨by decide, by decide, by decide, ?_, by decide, by decide⟩
  intro h
  exact h 1700000123456 1700001123456 (by decide) (by decide)

/-- C15 (amended). For creation instants of at least six digits (every instant
after the first 100 seconds of 1970), two employee codes are equal exactly when
the instants agree modulo 1,000,000 milliseconds; so two distinct creation
instants less than 1,000,000 milliseconds apart get different codes. -/
theorem employee_code_unique_within_window (t1 t2 : Nat) (h1 : 100000 ≤ t1)
    (h2 : 100000 ≤ t2) :
    (generateEmployeeId t1 = generateEmployeeId t2 ↔ t1 % 1000000 = t2 % 1000000) ∧
    (t1 ≠ t2 → t1 < t2 + 1000000 → t2 < t1 + 1000000 →
      generateEmployeeId t1 ≠ generateEmployeeId t2) := by
  have hiff := generateEmployeeId_eq_iff t1 t2 h1 h2
  refine ⟨hiff, ?_⟩
  intro hne hlt1 hlt2 heq
  have := hiff.mp heq
  omega

theorem employee_code_unique_within_window_witness :
    (generateEmployeeId 1700000123456 = generateEmployeeId 1700000123457 ↔
      1700000123456 % 1000000 = 1700000123457 % 1000000) ∧
    (1700000123456 ≠ 1700000123457 → 1700000123456 < 1700000123457 + 1000000 →
      1700000123457 < 1700000123456 + 1000000 →
      generateEmployeeId 1700000123456 ≠ generateEmployeeId 1700000123457) :=
  employee_code_unique_within_window 1700000123456 1700000123457 (by decide) (by decide)

/-! ### Linking fingerprints -/

/-- C12 (the claim fails). In a store where employee 1 references fingerprint 7
and employee 2 references none (so the page offers to register a fingerprint
for employee 2), a device enroll answering with id 7 makes
`handleRegisterFingerprint` write 7 onto employee 2 and report success: both
employees then reference 7.  An enroll answering 8 for employee 1 replaces its
reference 7 by 8, again with success.  `registerFingerprint` inserts a new
employee referencing 7 although employee 1 references it.  No run reports a
conflict and none leaves the store unchanged. -/
theorem link_meets_no_conflict :
    offersRegisterFingerprint unlinkedEmployee = true ∧
    (handleRegisterFingerprint (linkOk 7) twoEmployeeStore 2).store.employees.map
      (fun e => (e.id, e.fingerprint_id)) = [(1, some 7), (2, some 7)] ∧
    (handleRegisterFingerprint (linkOk 7) twoEmployeeStore 2).message = some "指紋註冊成功！" ∧
    (handleRegisterFingerprint (linkOk 8) twoEmployeeStore 1).store.employees.map
      (fun e => (e.id, e.fingerprint_id)) = [(1, some 8), (2, none)] ∧
    (handleRegisterFingerprint (linkOk 8) twoEmployeeStore 1).message = some "指紋註冊成功！" ∧
    (registerFingerprint ⟨1700000123456, .ok 7, none⟩ sampleForm twoEmployeeStore).store.employees.map
      (fun e => (e.id, e.fingerprint_id)) = [(1, some 7), (2, none), (3, some 7)] ∧
    (registerFingerprint ⟨1700000123456, .ok 7, none⟩ sampleForm twoEmployeeStore).message
      = some "員工信息和指紋註冊成功！" := by
  refine ⟨by decide, by decide, by decide, by decide, by decide, by decide, by decide⟩

/-- C12 (amended). Linking an enrollment id to an employee applies no conflict
check.  When the device enroll succeeds with id `d`: if the store call answers,
`handleRegisterFingerprint` writes `d` onto the employee with the given
identity, replacing whatever it referenced, leaves every other row as it was
and reports success, and `registerFingerprint` (name filled in) adds one
employee referencing `d` and reports success, whichever employees reference
`d` already; if the store call answers with an error, the flow reports a
failure and the store is unchanged. -/
theorem link_writes_unconditionally (lenv : LinkEnv) (renv : RegisterEnv) (s : Store)
    (employeeId d : Nat) (employeeData : EmployeeForm)
    (hl : lenv.device = .ok d) (hr : renv.device = .ok d) (hname : employeeData.name ≠ "") :
    (lenv.updateFault = none →
      (handleRegisterFingerprint lenv s employeeId).store.employees
        = s.employees.map
            (fun e => if e.id = employeeId then { e with fingerprint_id := some d } else e) ∧
      (handleRegisterFingerprint lenv s employeeId).message = some "指紋註冊成功！") ∧
    (∀ err, lenv.updateFault = some err →
      (handleRegisterFingerprint lenv s employeeId).store = s ∧
      (handleRegisterFingerprint lenv s employeeId).message = some ("註冊失敗: " ++ err.message)) ∧
    (renv.insertFault = none →
      (registerFingerprint renv employeeData s).store.employees
        = s.employees ++
          [{ id := s.nextId, employee_id := generateEmployeeId renv.now,
             name := employeeData.name, department := employeeData.department,
             position := employeeData.position, salary := salaryOfRegister employeeData.salary,
             fingerprint_id := some d }] ∧
      (registerFingerprint renv employeeData s).message = some "員工信息和指紋註冊成功！") ∧
    (∀ err, renv.insertFault = some err →
      (registerFingerprint renv employeeData s).store = s ∧
      (registerFingerprint renv employeeData s).message = some "註冊失敗") := by
  refine ⟨?_, ?_, ?_, ?_⟩
  · intro hf
    simp [handleRegisterFingerprint, hl, updateFingerprint, hf]
  · intro err hf
    simp [handleRegisterFingerprint, hl, updateFingerprint, hf]
  · intro hf
    simp [registerFingerprint, hname, hr, insertEmployee, hf]
  · intro err hf
    simp [registerFingerprint, hname, hr, insertEmployee, hf]

theorem link_writes_unconditionally_witness :
    ((linkOk 7).updateFault = none →
      (handleRegisterFingerprint (linkOk 7) twoEmployeeStore 2).store.employees
        = twoEmployeeStore.employees.map
            (fun e => if e.id = 2 then { e with fingerprint_id := some 7 } else e) ∧
      (handleRegisterFingerprint (linkOk 7) twoEmployeeStore 2).message = some "指紋註冊成功！") ∧
    (∀ err, (linkOk 7).updateFault = some err →
      (handleRegisterFingerprint (linkOk 7) twoEmployeeStore 2).store = twoEmployeeStore ∧
      (handleRegisterFingerprint (linkOk 7) twoEmployeeStore 2).message
        = some ("註冊失敗: " ++ err.message)) ∧
    ((⟨1700000123456, .ok 7, none⟩ : RegisterEnv).insertFault = none →
      (registerFingerprint ⟨1700000123456, .ok 7, none⟩ sampleForm twoEmployeeStore).store.employees
        = twoEmployeeStore.employees ++
          [{ id := twoEmployeeStore.nextId,
             employee_id := generateEmployeeId (⟨1700000123456, .ok 7, none⟩ : RegisterEnv).now,
             name := sampleForm.name, department := sampleForm.department,
             position := sampleForm.position, salary := salaryOfRegister sampleForm.salary,
             fingerprint_id := some 7 }] ∧
      (registerFingerprint ⟨1700000123456, .ok 7, none⟩ sampleForm twoEmployeeStore).message
        = some "員工信息和指紋註冊成功！") ∧
    (∀ err, (⟨1700000123456, .ok 7, none⟩ : RegisterEnv).insertFault = some err →
      (registerFingerprint ⟨1700000123456, .ok 7, none⟩ sampleForm twoEmployeeStore).store
        = twoEmployeeStore ∧
      (registerFingerprint ⟨1700000123456, .ok 7, none⟩ sampleForm twoEmployeeStore).message
        = some "註冊失敗") :=
  link_writes_unconditionally (linkOk 7) ⟨1700000123456, .ok 7, none⟩ twoEmployeeStore 2 7
    sampleForm rfl rfl (by decide)

/-! ### The enrollment invariant -/

theorem worldInv_mono {emps : List Employee} {n : Nat} {enr enr2 : List Nat}
    (h : WorldInv emps n enr) (hsub : ∀ f ∈ enr, f ∈ enr2) : WorldInv emps n enr2 :=
  ⟨h.1, h.2.1, h.2.2.1, fun e he f hf => hsub f (h.2.2.2 e he f hf)⟩

theorem worldInv_insert {emps : List Employee} {n : Nat} {enr enr2 : List Nat} (row : Employee)
    (h : WorldInv emps n enr) (hid : row.id = n) (hsub : ∀ f ∈ enr, f ∈ enr2)
    (hfresh : ∀ f, row.fingerprint_id = some f → f ∉ enr ∧ f ∈ enr2) :
    WorldInv (emps ++ [row]) (n + 1) enr2 := by
  obtain ⟨hids, hlt, hshare, href⟩ := h
  refine ⟨?_, ?_, ?_, ?_⟩
  · refine List.pairwise_append.mpr ⟨hids, List.pairwise_singleton _ _, ?_⟩
    intro a ha b hb
    simp only [List.mem_singleton] at hb
    subst hb
    have := hlt a ha
    omega
  · intro e he
    rcases List.mem_append.mp he with h1 | h1
    · have := hlt e h1; omega
    · simp only [List.mem_singleton] at h1
      subst h1; omega
  · refine List.pairwise_append.mpr ⟨hshare, List.pairwise_singleton _ _, ?_⟩
    intro a ha b hb heq
    simp only [List.mem_singleton] at hb
    subst hb
    cases hfp : a.fingerprint_id with
    | none => rfl
    | some f =>
      exfalso
      exact (hfresh f (by rw [← heq, hfp])).1 (href a ha f hfp)
  · intro e he f hf
    rcases List.mem_append.mp he with h1 | h1
    · exact hsub f (href e h1 f hf)
    · simp only [List.mem_singleton] at h1
      subst h1
      exact (hfresh f hf).2

theorem worldInv_link {emps : List Employee} {n : Nat} {enr : List Nat} (k d : Nat)
    (h : WorldInv emps n enr) (hfresh : d ∉ enr) :
    WorldInv (emps.map (fun e => if e.id = k then { e with fingerprint_id := some d } else e))
      n (d :: enr) := by
  obtain ⟨hids, hlt, hshare, href⟩ := h
  have hidf : ∀ e : Employee,
      (if e.id = k then { e with fingerprint_id := some d } else e).id = e.id := by
    intro e; split <;> rfl
  refine ⟨?_, ?_, ?_, ?_⟩
  · rw [List.pairwise_map]
    exact hids.imp (fun {a b} hab => by rw [hidf, hidf]; exact hab)
  · intro e he
    rw [List.mem_map] at he
    obtain ⟨a, ha, rfl⟩ := he
    rw [hidf]; exact hlt a ha
  · unfold NoSharedEnrollment
    rw [List.pairwise_map]
    refine (hids.and hshare).imp_of_mem ?_
    intro a b ha hb hab heq
    obtain ⟨hne, hsh⟩ := hab
    by_cases hak : a.id = k <;> by_cases hbk : b.id = k
    · exact absurd (hak.trans hbk.symm) hne
    · simp only [hak, hbk, if_true, if_false] at heq
      exact absurd (href b hb d heq.symm) hfresh
    · simp only [hak, hbk, if_true, if_false] at heq
      exact absurd (href a ha d heq) hfresh
    · simp only [hak, hbk, if_false] at heq ⊢
      exact hsh heq
  · intro e he f hf
    rw [List.mem_map] at he
    obtain ⟨a, ha, rfl⟩ := he
    by_cases hak : a.id = k
    · simp only [hak, if_true, Option.some.injEq] at hf
      subst hf
      exact List.mem_cons_self _ _
    · simp only [hak, if_false] at hf
      exact List.mem_cons_of_mem _ (href a ha f hf)

theorem worldInv_edit {emps : List Employee} {n : Nat} {enr : List Nat} (k : Nat)
    (edited : Employee) (h : WorldInv emps n enr) :
    WorldInv (emps.map (fun e => if e.id = k then
        { e with name := edited.name, department := edited.department,
                 position := edited.position, salary := edited.salary }
      else e)) n enr := by
  obtain ⟨hids, hlt, hshare, href⟩ := h
  have hidf : ∀ e : Employee, (if e.id = k then
      ({ e with name := edited.name, department := edited.department,
                position := edited.position, salary := edited.salary } : Employee)
      else e).id = e.id := by
    intro e; split <;> rfl
  have hfpf : ∀ e : Employee, (if e.id = k then
      ({ e with name := edited.name, department := edited.department,
                position := edited.position, salary := edited.salary } : Employee)
      else e).fingerprint_id = e.fingerprint_id := by
    intro e; split <;> rfl
  refine ⟨?_, ?_, ?_, ?_⟩
  · rw [List.pairwise_map]
    exact hids.imp (fun {a b} hab => by rw [hidf, hidf]; exact hab)
  · intro e he
    rw [List.mem_map] at he
    obtain ⟨a, ha, rfl⟩ := he
    rw [hidf]; exact hlt a ha
  · unfold NoSharedEnrollment
    rw [List.pairwise_map]
    exact hshare.imp (fun {a b} hab => by rw [hfpf, hfpf]; exact hab)
  · intro e he f hf
    rw [List.mem_map] at he
    obtain ⟨a, ha, rfl⟩ := he
    rw [hfpf] at hf
    exact href a ha f hf

theorem worldInv_filter {emps : List Employee} {n : Nat} {enr : List Nat} (k : Nat)
    (h : WorldInv emps n enr) : WorldInv (emps.filter (fun e => e.id ≠ k)) n enr := by
  obtain ⟨hids, hlt, hshare, href⟩ := h
  exact ⟨hids.filter _, fun e he => hlt e (List.mem_of_mem_filter he), List.Pairwise.filter _ hshare,
    fun e he f hf => href e (List.mem_of_mem_filter he) f hf⟩

theorem worldInv_unenroll {emps : List Employee} {n : Nat} {enr : List Nat} (f : Nat)
    (h : WorldInv emps n enr) (hfree : ∀ e ∈ emps, e.fingerprint_id ≠ some f) :
    WorldInv emps n (enr.filter (fun x => x ≠ f)) := by
  obtain ⟨hids, hlt, hshare, href⟩ := h
  refine ⟨hids, hlt, hshare, ?_⟩
  intro e he g hg
  rw [List.mem_filter]
  refine ⟨href e he g hg, ?_⟩
  simp only [ne_eq, decide_not, Bool.not_eq_true', decide_eq_false_iff_not]
  intro hgf
  subst hgf
  exact hfree e he hg

theorem worldInv_delete {emps : List Employee} {n : Nat} {enr : List Nat} (k f : Nat)
    (e : Employee) (h : WorldInv emps n enr) (hrow : emps.filter (fun x => x.id = k) = [e])
    (hf : e.fingerprint_id = some f) :
    WorldInv (emps.filter (fun x => x.id ≠ k)) n (enr.filter (fun x => x ≠ f)) := by
  apply worldInv_unenroll f (worldInv_filter k h)
  intro r hr hrf
  have hemem : e ∈ emps.filter (fun x => x.id = k) := by rw [hrow]; exact List.mem_singleton_self e
  rw [List.mem_filter] at hemem hr
  have hek : e.id = k := by simpa using hemem.2
  have hrk : r.id ≠ k := by simpa using hr.2
  have hne : r ≠ e := fun heq => hrk (heq ▸ hek)
  have hsym : Symmetric (fun a b : Employee =>
      a.fingerprint_id = b.fingerprint_id → a.fingerprint_id = none) := by
    intro a b hab hba
    rw [hba]; exact hab hba.symm
  have := List.Pairwise.forall hsym h.2.2.1 hr.1 hemem.1 hne (by rw [hrf, hf])
  rw [hrf] at this
  exact absurd this (by simp)

theorem worldInv_of_reachable {w : World} (h : AppReachable true w) :
    WorldInv w.store.employees w.store.nextId w.enrolled := by
  induction h with
  | init n =>
    exact ⟨List.Pairwise.nil, by simp, List.Pairwise.nil, by simp⟩
  | register w env employeeData _ hfresh ih =>
    by_cases hname : employeeData.name = ""
    · simpa [registerFingerprint, hname] using ih
    · cases hd : env.device with
      | failed m => simpa [registerFingerprint, hname, hd, deviceAfterEnroll] using ih
      | notOk e => simpa [registerFingerprint, hname, hd, deviceAfterEnroll] using ih
      | ok d =>
        have hd2 := hfresh d hd
        cases hf : env.insertFault with
        | some err =>
          simp only [registerFingerprint, hname, hd, insertEmployee, hf, if_false, if_true,
            deviceAfterEnroll]
          exact worldInv_mono ih (fun f hf => List.mem_cons_of_mem _ hf)
        | none =>
          simp only [registerFingerprint, hname, hd, insertEmployee, hf, if_false, if_true,
            deviceAfterEnroll]
          refine worldInv_insert _ ih rfl (fun f hf => List.mem_cons_of_mem _ hf) ?_
          intro f hf
          simp only [Option.some.injEq] at hf
          subst hf
          exact ⟨hd2, List.mem_cons_self _ _⟩
  | create w now fault newEmployee _ ih =>
    cases hf : fault with
    | some err => simpa [handleCreateEmployee, insertEmployee, hf] using ih
    | none =>
      simp only [handleCreateEmployee, insertEmployee, hf]
      exact worldInv_insert _ ih rfl (fun f hf => hf) (fun f hf => by simp at hf)
  | link w env employeeId _ hfresh ih =>
    cases hd : env.device with
    | failed m => simpa [handleRegisterFingerprint, hd, deviceAfterEnroll] using ih
    | notOk e => simpa [handleRegisterFingerprint, hd, deviceAfterEnroll] using ih
    | ok d =>
      have hd2 := hfresh d hd
      cases hf : env.updateFault with
      | some err =>
        simp only [handleRegisterFingerprint, hd, updateFingerprint, hf, deviceAfterEnroll]
        exact worldInv_mono ih (fun f hf => List.mem_cons_of_mem _ hf)
      | none =>
        simp only [handleRegisterFingerprint, hd, updateFingerprint, hf, deviceAfterEnroll]
        exact worldInv_link employeeId d ih hd2
  | edit w fault selectedEmployee _ ih =>
    cases hf : fault with
    | some err => simpa [handleUpdate, updateProfile, hf] using ih
    | none =>
      simp only [handleUpdate, updateProfile, hf]
      exact worldInv_edit selectedEmployee.id selectedEmployee ih
  | editDetail w fault employee editingEmployee _ ih =>
    cases hf : fault with
    | some err => simpa [handleUpdateDetail, updateProfile, hf] using ih
    | none =>
      simp only [handleUpdateDetail, updateProfile, hf]
      exact worldInv_edit employee.id editingEmployee ih
  | delete w env id _ ih =>
    cases hc : env.confirmed with
    | false => simpa [handleDelete, hc] using ih
    | true =>
      cases hff : env.fetchFault with
      | some err => simpa [handleDelete, hc, fingerprintOfEmployee, hff] using ih
      | none =>
        cases hrow : single (w.store.employees.filter (fun e => e.id = id)) with
        | error err =>
          simpa [handleDelete, hc, fingerprintOfEmployee, hff, hrow, Except.map] using ih
        | ok e =>
          have hrows : w.store.employees.filter (fun e => e.id = id) = [e] := by
            unfold single at hrow
            split at hrow
            · simp only [Except.ok.injEq] at hrow
              subst hrow
              assumption
            · exact absurd hrow (by simp)
          cases hdf : env.deleteFault with
          | some err =>
            simpa [handleDelete, hc, fingerprintOfEmployee, hff, hrow, Except.map,
              deleteEmployee, hdf] using ih
          | none =>
            cases ht : truthyId e.fingerprint_id with
            | none =>
              simp only [handleDelete, hc, fingerprintOfEmployee, hff, hrow, Except.map,
                deleteEmployee, hdf, ht, Bool.not_true, Bool.false_eq_true, if_false]
              exact worldInv_filter id ih
            | some f =>
              have hfp : e.fingerprint_id = some f := by
                unfold truthyId at ht
                split at ht
                · split at ht
                  · exact absurd ht (by simp)
                  · simp only [Option.some.injEq] at ht
                    subst ht
                    assumption
                · exact absurd ht (by simp)
              cases hd : env.device with
              | failed m =>
                simp only [handleDelete, hc, fingerprintOfEmployee, hff, hrow, Except.map,
                  deleteEmployee, hdf, ht, hd, Bool.not_true, Bool.false_eq_true, if_false,
                  deviceAfterDelete]
                exact worldInv_filter id ih
              | notOk er =>
                simp only [handleDelete, hc, fingerprintOfEmployee, hff, hrow, Except.map,
                  deleteEmployee, hdf, ht, hd, Bool.not_true, Bool.false_eq_true, if_false,
                  deviceAfterDelete]
                exact worldInv_filter id ih
              | ok u =>
                simp only [handleDelete, hc, fingerprintOfEmployee, hff, hrow, Except.map,
                  deleteEmployee, hdf, ht, hd, Bool.not_true, Bool.false_eq_true, if_false,
                  deviceAfterDelete]
                exact worldInv_delete id f e ih hrows hfp
  | deleteFingerprint w response id _ hguard ih =>
    have hfree := hguard rfl
    cases response with
    | ok u => exact worldInv_unenroll id ih hfree
    | notOk e => exact ih
    | failed m => exact ih

/-- C13 (the claim fails). From the empty store and the empty device: register a
first employee (the device enrolls it under id 1), delete fingerprint 1 on the
fingerprint page (the device frees id 1, the employee keeps its reference),
register a second employee (the device, on which id 1 is not enrolled, hands
out 1 again).  The state is reachable and two employees reference
enrollment id 1. -/
theorem shared_enrollment_reachable :
    AppReachable false world3 ∧
    world2.enrolled = [] ∧
    world3.store.employees.map (fun e => (e.id, e.fingerprint_id))
      = [(1, some 1), (2, some 1)] ∧
    ¬ NoSharedEnrollment world3.store.employees := by
  have h0 : AppReachable false world0 := AppReachable.init 1
  have h1 : AppReachable false world1 :=
    AppReachable.register world0 (registerOne 1700000123456) sampleForm h0
      (fun d _ hmem => by cases hmem)
  have h2 : AppReachable false world2 :=
    AppReachable.deleteFingerprint world1 (.ok ()) 1 h1 (fun hg => by cases hg)
  have he : world2.enrolled = [] := by decide
  have h3 : AppReachable false world3 :=
    AppReachable.register world2 (registerOne 1700000999999) sampleForm h2
      (fun d _ hmem => by rw [he] at hmem; cases hmem)
  exact ⟨h3, he, by decide, by decide⟩

/-- C13 (amended). In every state reachable from an empty store and an empty
device registry by the operations of the application (register a new employee
with fingerprint, create an employee, register a fingerprint for an existing
employee, profile edit on either page, delete an employee, delete a
fingerprint), where each device enroll returns an id not currently enrolled
and `deleteFingerprint` is applied only to enrollment ids that no employee
references, no two employees reference the same enrollment id. -/
theorem no_shared_enrollment_guarded (w : World) (h : AppReachable true w) :
    NoSharedEnrollment w.store.employees ∧
    ∀ e1 ∈ w.store.employees, ∀ e2 ∈ w.store.employees, ∀ f : Nat,
      e1.fingerprint_id = some f → e2.fingerprint_id = some f → e1 = e2 := by
  have hinv := worldInv_of_reachable h
  refine ⟨hinv.2.2.1, ?_⟩
  intro e1 h1 e2 h2 f hf1 hf2
  by_contra hne
  have hsym : Symmetric (fun a b : Employee =>
      a.fingerprint_id = b.fingerprint_id → a.fingerprint_id = none) := by
    intro a b hab hba
    rw [hba]; exact hab hba.symm
  have := List.Pairwise.forall hsym hinv.2.2.1 h1 h2 hne (by rw [hf1, hf2])
  rw [hf1] at this
  exact absurd this (by simp)

theorem no_shared_enrollment_guarded_witness :
    pairWorldCleaned.store.employees.map (fun e => (e.id, e.fingerprint_id))
      = [(1, some 1), (2, some 2)] ∧
    pairWorldOrphan.enrolled = [3, 2, 1] ∧ pairWorldCleaned.enrolled = [2, 1] ∧
    AppReachable true pairWorldCleaned ∧
    (NoSharedEnrollment pairWorldCleaned.store.employees ∧
      ∀ e1 ∈ pairWorldCleaned.store.employees, ∀ e2 ∈ pairWorldCleaned.store.employees,
        ∀ f : Nat, e1.fingerprint_id = some f → e2.fingerprint_id = some f → e1 = e2) :=
  have h1 : AppReachable true world1 :=
    AppReachable.register world0 (registerOne 1700000123456) sampleForm (AppReachable.init 1)
      (fun _ _ hmem => by cases hmem)
  have h2 : AppReachable true pairWorld :=
    AppReachable.register world1 (registerTwo 1700000999999) sampleForm h1
      (fun d hd => by cases hd; decide)
  have h3 : AppReachable true pairWorldOrphan :=
    AppReachable.link pairWorld (linkRejected 3) 2 h2 (fun d hd => by cases hd; decide)
  have h4 : AppReachable true pairWorldCleaned :=
    AppReachable.deleteFingerprint pairWorldOrphan (.ok ()) 3 h3 (fun _ => by decide)
  ⟨by decide, by decide, by decide, h4, no_shared_enrollment_guarded pairWorldCleaned h4⟩

/-! ### Overlapping runs and the decision table of the verify flow -/

theorem checkAttendance_eq_read_write (env : VerifyEnv) (s : Store) :
    checkAttendance env s = verifyWrite env s (verifyRead env s) := by
  unfold checkAttendance verifyRead
  cases env.device with
  | failed m => rfl
  | notOk error => rfl
  | ok f =>
    dsimp only
    cases employeeByFingerprint env.employeeFault s f with
    | error err => dsimp only; split <;> rfl
    | ok e =>
      dsimp only
      cases todayRecordsQuery env.recordsFault s e.id (startOfDay env.tz env.now) with
      | error err => rfl
      | ok today =>
        dsimp only
        cases decideType today with
        | none => rfl
        | some type => rfl

theorem verifyRead_resolved (tz now : Int) (f : Nat) (e : Employee) (emps : List Employee)
    (recs : List AttendanceRecord) (n : Nat)
    (hlink : emps.filter (fun x => x.fingerprint_id = some f) = [e]) :
    verifyRead (verifyOk tz now f) ⟨emps, recs, n⟩ =
      match decideType ((orderByCreatedAt (recordsSince ⟨emps, recs, n⟩ e.id
          (startOfDay tz now))).map (fun r => r.type)) with
      | none => .finished (punchAlreadyCompleted e)
      | some type => .insert e type := by
  simp only [verifyRead, verifyOk, employeeByFingerprint, hlink, single, todayRecordsQuery]

/-- C21 (the claim fails). Two runs of the verify flow for the sample employee,
both starting from a day with no records.  One after the other they store an
`in` and then an `out`: the second run is not rejected.  Overlapping, both
reading the store before either insert arrives, they store two `in` records
and both report success. -/
theorem overlapping_verifies_store_two_ins :
    (serialRuns (verifyOk 0 1000 7) (verifyOk 0 2000 7) sampleStore).1.attendance_records.map
      (fun r => (r.employee_id, r.type)) = [(1, "in"), (1, "out")] ∧
    (serialRuns (verifyOk 0 1000 7) (verifyOk 0 2000 7) sampleStore).2.2.success = true ∧
    (overlappedRuns (verifyOk 0 1000 7) (verifyOk 0 2000 7) sampleStore).1.attendance_records.map
      (fun r => (r.employee_id, r.type)) = [(1, "in"), (1, "in")] ∧
    (overlappedRuns (verifyOk 0 1000 7) (verifyOk 0 2000 7) sampleStore).2.1.success = true ∧
    (overlappedRuns (verifyOk 0 1000 7) (verifyOk 0 2000 7) sampleStore).2.2.success = true := by
  refine ⟨by decide, by decide, by decide, by decide, by decide⟩

/-- C21 (amended). Two verification-driven appends for the same employee on the
same day, the employee alone referencing the fingerprint, the store answering,
and the employee having no record dated today or later (none from today's
local midnight on).  When the second run starts after the first has finished,
exactly one `in` record is stored, followed by one `out` record, both runs
succeeding.  When the runs overlap, both reading today's records before
either insert arrives, both store an `in` record and both succeed: the flow
has no atomic read-then-write. -/
theorem two_verifies_serial_or_overlapped (tz now1 now2 : Int) (f : Nat) (e : Employee)
    (s : Store) (hlink : s.employees.filter (fun x => x.fingerprint_id = some f) = [e])
    (hnone : recordsSince s e.id (startOfDay tz now1) = [])
    (hd2 : localDay tz now2 = localDay tz now1) :
    serialRuns (verifyOk tz now1 f) (verifyOk tz now2 f) s =
      (⟨s.employees, s.attendance_records ++ [clockRecord s.nextId e.id now1 "in",
          clockRecord (s.nextId + 1) e.id now2 "out"], s.nextId + 1 + 1⟩,
        punchSuccess e "in" now1, punchSuccess e "out" now2) ∧
    overlappedRuns (verifyOk tz now1 f) (verifyOk tz now2 f) s =
      (⟨s.employees, s.attendance_records ++ [clockRecord s.nextId e.id now1 "in",
          clockRecord (s.nextId + 1) e.id now2 "in"], s.nextId + 1 + 1⟩,
        punchSuccess e "in" now1, punchSuccess e "in" now2) := by
  obtain ⟨emps, recs, n⟩ := s
  have e2 := startOfDay_eq_of_localDay_eq hd2
  have hs1 := startOfDay_le tz now1
  constructor
  · have h1 : checkAttendance (verifyOk tz now1 f) ⟨emps, recs, n⟩ =
        (⟨emps, recs ++ [clockRecord n e.id now1 "in"], n + 1⟩, punchSuccess e "in" now1) := by
      rw [checkAttendance_resolved tz now1 f e emps recs n hlink, hnone]
      simp [orderByCreatedAt, decideType]
    have h2 : checkAttendance (verifyOk tz now2 f)
        ⟨emps, recs ++ [clockRecord n e.id now1 "in"], n + 1⟩ =
        (⟨emps, (recs ++ [clockRecord n e.id now1 "in"]) ++ [clockRecord (n + 1) e.id now2 "out"],
          n + 1 + 1⟩, punchSuccess e "out" now2) := by
      rw [checkAttendance_resolved tz now2 f e emps _ _ hlink,
        recordsSince_append emps recs _ _ n, e2, hnone]
      simp [orderByCreatedAt, decideType, clockRecord, hs1]
    simp only [serialRuns, h1, h2, List.append_assoc, List.singleton_append]
  · have p1 : verifyRead (verifyOk tz now1 f) ⟨emps, recs, n⟩ = .insert e "in" := by
      rw [verifyRead_resolved tz now1 f e emps recs n hlink, hnone]
      simp [orderByCreatedAt, decideType]
    have p2 : verifyRead (verifyOk tz now2 f) ⟨emps, recs, n⟩ = .insert e "in" := by
      rw [verifyRead_resolved tz now2 f e emps recs n hlink, e2, hnone]
      simp [orderByCreatedAt, decideType]
    simp only [overlappedRuns, p1, p2]
    simp [verifyWrite, verifyOk, insertAttendance, clockRecord]

theorem two_verifies_serial_or_overlapped_witness :
    serialRuns (verifyOk 0 118800000 7) (verifyOk 0 118805000 7) secondDayStore =
      (⟨secondDayStore.employees, secondDayStore.attendance_records ++
          [clockRecord secondDayStore.nextId sampleEmployee.id 118800000 "in",
           clockRecord (secondDayStore.nextId + 1) sampleEmployee.id 118805000 "out"],
          secondDayStore.nextId + 1 + 1⟩,
        punchSuccess sampleEmployee "in" 118800000,
        punchSuccess sampleEmployee "out" 118805000) ∧
    overlappedRuns (verifyOk 0 118800000 7) (verifyOk 0 118805000 7) secondDayStore =
      (⟨secondDayStore.employees, secondDayStore.attendance_records ++
          [clockRecord secondDayStore.nextId sampleEmployee.id 118800000 "in",
           clockRecord (secondDayStore.nextId + 1) sampleEmployee.id 118805000 "in"],
          secondDayStore.nextId + 1 + 1⟩,
        punchSuccess sampleEmployee "in" 118800000,
        punchSuccess sampleEmployee "in" 118805000) :=
  two_verifies_serial_or_overlapped 0 118800000 118805000 7 sampleEmployee secondDayStore
    (by decide) (by decide) (by decide)

theorem decideType_table (todayRecords : List String) :
    decideType todayRecords =
      if todayRecords = [] then some "in"
      else if todayRecords = ["in"] then some "out" else none := by
  unfold decideType
  match todayRecords with
  | [] => rfl
  | [x] =>
    by_cases hx : x = "in"
    · subst hx; rfl
    · simp [hx]
  | _ :: _ :: _ => simp

/-- C26 (the code at the failing input). Two ledgers of the sample employee,
who alone references fingerprint 7.  In `tomorrowOutStore` the list of the
employee's records of today is empty, yet the flow writes nothing and reports
the day as already completed.  In `todayInTomorrowInStore` the list of today's
records is exactly one `in`, yet the flow, run at 10:00 today, writes nothing
and reports the day as already completed.  In both the list the flow reads
holds the record dated tomorrow as well: its query has a lower bound only. -/
theorem decision_table_reads_later_records :
    tomorrowOutStore.employees.filter (fun x => x.fingerprint_id = some 7) = [sampleEmployee] ∧
    dayTypes 0 tomorrowOutStore 1 0 = [] ∧
    (checkAttendance (verifyOk 0 1000 7) tomorrowOutStore).1.attendance_records
      = tomorrowOutStore.attendance_records ∧
    (checkAttendance (verifyOk 0 1000 7) tomorrowOutStore).2.message = "今天已完成上下班打卡" ∧
    dayTypes 0 todayInTomorrowInStore 1 0 = ["in"] ∧
    localDay 0 36000000 = 0 ∧
    (checkAttendance (verifyOk 0 36000000 7) todayInTomorrowInStore).1.attendance_records
      = todayInTomorrowInStore.attendance_records ∧
    (checkAttendance (verifyOk 0 36000000 7) todayInTomorrowInStore).2.success = false ∧
    (checkAttendance (verifyOk 0 36000000 7) todayInTomorrowInStore).2.message
      = "今天已完成上下班打卡" ∧
    (orderByCreatedAt (recordsSince todayInTomorrowInStore 1 (startOfDay 0 36000000))).map
      (fun r => (localDay 0 r.created_at, r.type)) = [(0, "in"), (1, "in")] := by
  refine ⟨by decide, by decide, by decide, by decide, by decide, by decide, by decide, by decide,
    by decide, by decide⟩

/-- The decision table of the verify flow over the list the flow reads, the
types of the employee's records from today's local midnight on (with no upper
bound), ordered by timestamp, the fingerprint resolving to the employee and the
store answering.  The flow writes a record if and only if that list is empty
(the record then has type `in`) or is exactly one `in` (the record then has
type `out`); for every other list (an in/out pair, a single `out`, two `in`
records, three or more records) it writes nothing and returns the
`already completed today` result carrying the employee. -/
theorem verify_decision_table (tz now : Int) (f : Nat) (e : Employee) (s : Store)
    (hlink : s.employees.filter (fun x => x.fingerprint_id = some f) = [e]) :
    ((orderByCreatedAt (recordsSince s e.id (startOfDay tz now))).map (fun r => r.type) = [] →
      checkAttendance (verifyOk tz now f) s =
        (⟨s.employees, s.attendance_records ++ [clockRecord s.nextId e.id now "in"],
          s.nextId + 1⟩, punchSuccess e "in" now)) ∧
    ((orderByCreatedAt (recordsSince s e.id (startOfDay tz now))).map (fun r => r.type) = ["in"] →
      checkAttendance (verifyOk tz now f) s =
        (⟨s.employees, s.attendance_records ++ [clockRecord s.nextId e.id now "out"],
          s.nextId + 1⟩, punchSuccess e "out" now)) ∧
    ((orderByCreatedAt (recordsSince s e.id (startOfDay tz now))).map (fun r => r.type) ≠ [] →
      (orderByCreatedAt (recordsSince s e.id (startOfDay tz now))).map (fun r => r.type) ≠ ["in"] →
      checkAttendance (verifyOk tz now f) s = (s, punchAlreadyCompleted e)) ∧
    ((checkAttendance (verifyOk tz now f) s).1.attendance_records ≠ s.attendance_records ↔
      ((orderByCreatedAt (recordsSince s e.id (startOfDay tz now))).map (fun r => r.type) = [] ∨
       (orderByCreatedAt (recordsSince s e.id (startOfDay tz now))).map (fun r => r.type)
          = ["in"])) ∧
    decideType ["in", "out"] = none ∧ decideType ["out"] = none ∧
    decideType ["in", "in"] = none ∧ decideType ["in", "out", "in"] = none := by
  obtain ⟨emps, recs, n⟩ := s
  have hrun := checkAttendance_resolved tz now f e emps recs n hlink
  rw [decideType_table] at hrun
  refine ⟨?_, ?_, ?_, ?_, by decide, by decide, by decide, by decide⟩
  · intro h
    rw [hrun, h]; rfl
  · intro h
    rw [hrun, h]; rfl
  · intro h1 h2
    rw [hrun, if_neg h1, if_neg h2]
  · rw [hrun]
    by_cases h1 : (orderByCreatedAt (recordsSince ⟨emps, recs, n⟩ e.id
        (startOfDay tz now))).map (fun r => r.type) = []
    · simp [h1]
    · by_cases h2 : (orderByCreatedAt (recordsSince ⟨emps, recs, n⟩ e.id
          (startOfDay tz now))).map (fun r => r.type) = ["in"]
      · simp [h2]
      · simp [h1, h2]

theorem verify_decision_table_witness :
    ((orderByCreatedAt (recordsSince sampleStore sampleEmployee.id
        (startOfDay 0 1000))).map (fun r => r.type) = [] →
      checkAttendance (verifyOk 0 1000 7) sampleStore =
        (⟨sampleStore.employees, sampleStore.attendance_records ++
            [clockRecord sampleStore.nextId sampleEmployee.id 1000 "in"],
          sampleStore.nextId + 1⟩, punchSuccess sampleEmployee "in" 1000)) ∧
    ((orderByCreatedAt (recordsSince sampleStore sampleEmployee.id
        (startOfDay 0 1000))).map (fun r => r.type) = ["in"] →
      checkAttendance (verifyOk 0 1000 7) sampleStore =
        (⟨sampleStore.employees, sampleStore.attendance_records ++
            [clockRecord sampleStore.nextId sampleEmployee.id 1000 "out"],
          sampleStore.nextId + 1⟩, punchSuccess sampleEmployee "out" 1000)) ∧
    ((orderByCreatedAt (recordsSince sampleStore sampleEmployee.id
        (startOfDay 0 1000))).map (fun r => r.type) ≠ [] →
      (orderByCreatedAt (recordsSince sampleStore sampleEmployee.id
        (startOfDay 0 1000))).map (fun r => r.type) ≠ ["in"] →
      checkAttendance (verifyOk 0 1000 7) sampleStore
        = (sampleStore, punchAlreadyCompleted sampleEmployee)) ∧
    ((checkAttendance (verifyOk 0 1000 7) sampleStore).1.attendance_records
        ≠ sampleStore.attendance_records ↔
      ((orderByCreatedAt (recordsSince sampleStore sampleEmployee.id
          (startOfDay 0 1000))).map (fun r => r.type) = [] ∨
       (orderByCreatedAt (recordsSince sampleStore sampleEmployee.id
          (startOfDay 0 1000))).map (fun r => r.type) = ["in"])) ∧
    decideType ["in", "out"] = none ∧ decideType ["out"] = none ∧
    decideType ["in", "in"] = none ∧ decideType ["in", "out", "in"] = none :=
  verify_decision_table 0 1000 7 sampleEmployee sampleStore (by decide)

/-! ### Failed links, fingerprint deletion, and input checks -/

/-- C22 (the claim fails). In the reachable state `staleWorld` the first
employee still references enrollment id 1, which the device has freed, and the
second employee has no fingerprint.  A link for the second employee enrolls
under id 1 on the device and is then rejected by the store: the flow reports
the failure and the store is unchanged, the device keeps enrollment 1, but the
merge of `fetchFingerprints` shows enrollment 1 with the first employee, not
as an orphan. -/
theorem failed_link_shows_stale_employee :
    AppReachable false staleWorld ∧
    staleWorld.store.employees.map (fun e => (e.id, e.fingerprint_id))
      = [(1, some 1), (2, none)] ∧
    staleWorld.enrolled = [] ∧
    (handleRegisterFingerprint (linkRejected 1) staleWorld.store 2).message
      = some "註冊失敗: duplicate key value" ∧
    (linkWorld (linkRejected 1) staleWorld 2).enrolled = [1] ∧
    (linkWorld (linkRejected 1) staleWorld 2).store.employees.map
      (fun e => (e.id, e.fingerprint_id)) = [(1, some 1), (2, none)] ∧
    (fetchFingerprints (.ok (linkWorld (linkRejected 1) staleWorld 2).enrolled) none
      (linkWorld (linkRejected 1) staleWorld 2).store).map
      (fun combined => combined.map (fun entry => (entry.id, entry.employee.map (fun e => e.id))))
      = some [(1, some 1)] := by
  have h1 : AppReachable false world1 :=
    AppReachable.register world0 (registerOne 1700000123456) sampleForm (AppReachable.init 1)
      (fun _ _ hmem => by cases hmem)
  have h2 : AppReachable false world2 :=
    AppReachable.deleteFingerprint world1 (.ok ()) 1 h1 (fun hg => by cases hg)
  have h3 : AppReachable false staleWorld :=
    AppReachable.create world2 1700000555555 none secondForm h2
  exact ⟨h3, by decide, by decide, by decide, by decide, by decide, by decide⟩

/-- C22 (amended). In `handleRegisterFingerprint`, when the device enroll
succeeds with the enrollment id `d` and the store link then fails, the flow
reports a failure, the store is unchanged, and the device keeps the new
enrollment (the only device request of the flow is the enroll, no delete
follows).  The merge of `fetchFingerprints` over the device list has an entry
for `d`, and that entry is without an employee, an orphan, exactly when no
employee references `d` already; this is so whenever every enrollment id
referenced in the store was on the device before the enroll and `d` was
not. -/
theorem failed_link_keeps_enrollment (env : LinkEnv) (w : World) (employeeId d : Nat)
    (err : StoreError) (hdev : env.device = .ok d) (hfault : env.updateFault = some err) :
    (handleRegisterFingerprint env w.store employeeId).message =
      some ("註冊失敗: " ++ err.message) ∧
    (linkWorld env w employeeId).store = w.store ∧
    (linkWorld env w employeeId).enrolled = d :: w.enrolled ∧
    (∃ combined : List FingerprintEntry,
      fetchFingerprints (.ok (linkWorld env w employeeId).enrolled) none
        (linkWorld env w employeeId).store = some combined ∧
      (∃ entry ∈ combined, entry.id = d) ∧
      (∀ entry ∈ combined, entry.id = d →
        (entry.employee = none ↔ ∀ e ∈ w.store.employees, e.fingerprint_id ≠ some d)) ∧
      ((∀ e ∈ w.store.employees, e.fingerprint_id ≠ some d) →
        ({ id := d, employee := none } : FingerprintEntry) ∈ combined)) ∧
    ((∀ e ∈ w.store.employees, ∀ f, e.fingerprint_id = some f → f ∈ w.enrolled) →
      d ∉ w.enrolled → ∀ e ∈ w.store.employees, e.fingerprint_id ≠ some d) := by
  have hstore : (linkWorld env w employeeId).store = w.store := by
    simp [linkWorld, handleRegisterFingerprint, hdev, updateFingerprint, hfault]
  have henr : (linkWorld env w employeeId).enrolled = d :: w.enrolled := by
    simp [linkWorld, hdev, deviceAfterEnroll]
  have hfind : ((w.store.employees.filter
      (fun e => (d :: w.enrolled).any (fun i => e.fingerprint_id = some i))).find?
      (fun emp => emp.fingerprint_id = some d) = none ↔
      ∀ e ∈ w.store.employees, e.fingerprint_id ≠ some d) := by
    rw [List.find?_eq_none]
    constructor
    · intro h e he hf
      have := h e (List.mem_filter.mpr ⟨he, by
        simp only [List.any_eq_true, decide_eq_true_eq]
        exact ⟨d, List.mem_cons_self _ _, hf⟩⟩)
      simp [hf] at this
    · intro h e he
      simp only [decide_eq_true_eq]
      exact h e (List.mem_of_mem_filter he)
  refine ⟨?_, hstore, henr, ?_, ?_⟩
  · simp [handleRegisterFingerprint, hdev, updateFingerprint, hfault]
  · rw [hstore, henr]
    refine ⟨_, rfl, ?_, ?_, ?_⟩
    · exact ⟨_, List.mem_map.mpr ⟨d, List.mem_cons_self _ _, rfl⟩, rfl⟩
    · intro entry hentry hid
      rw [List.mem_map] at hentry
      obtain ⟨i, _, rfl⟩ := hentry
      simp only at hid
      subst hid
      exact hfind
    · intro hnew
      rw [List.mem_map]
      exact ⟨d, List.mem_cons_self _ _, by rw [hfind.mpr hnew]⟩
  · intro href hfresh e he hf
    exact hfresh (href e he d hf)

theorem failed_link_keeps_enrollment_witness :
    (handleRegisterFingerprint (linkRejected 9) sampleWorld.store 2).message =
      some ("註冊失敗: " ++ (⟨"23505", "duplicate key value"⟩ : StoreError).message) ∧
    (linkWorld (linkRejected 9) sampleWorld 2).store = sampleWorld.store ∧
    (linkWorld (linkRejected 9) sampleWorld 2).enrolled = 9 :: sampleWorld.enrolled ∧
    (∃ combined : List FingerprintEntry,
      fetchFingerprints (.ok (linkWorld (linkRejected 9) sampleWorld 2).enrolled) none
        (linkWorld (linkRejected 9) sampleWorld 2).store = some combined ∧
      (∃ entry ∈ combined, entry.id = 9) ∧
      (∀ entry ∈ combined, entry.id = 9 →
        (entry.employee = none ↔
          ∀ e ∈ sampleWorld.store.employees, e.fingerprint_id ≠ some 9)) ∧
      ((∀ e ∈ sampleWorld.store.employees, e.fingerprint_id ≠ some 9) →
        ({ id := 9, employee := none } : FingerprintEntry) ∈ combined)) ∧
    ((∀ e ∈ sampleWorld.store.employees, ∀ f, e.fingerprint_id = some f →
        f ∈ sampleWorld.enrolled) →
      9 ∉ sampleWorld.enrolled → ∀ e ∈ sampleWorld.store.employees, e.fingerprint_id ≠ some 9) :=
  failed_link_keeps_enrollment (linkRejected 9) sampleWorld 2 9 ⟨"23505", "duplicate key value"⟩
    rfl rfl

/-- C23 (the claim fails). After the first employee is registered under
enrollment id 1, `deleteFingerprint` for id 1 succeeds (the device answers ok
and the success message is set), the id is gone from the device, and the
employee still references it. -/
theorem delete_fingerprint_keeps_reference :
    world1.store.employees.map (fun e => (e.id, e.fingerprint_id)) = [(1, some 1)] ∧
    world1.enrolled = [1] ∧
    (deleteFingerprint (.ok ()) world1.store 1).2 = some "指紋刪除成功" ∧
    (deleteFingerprintWorld (.ok ()) world1 1).enrolled = [] ∧
    (deleteFingerprintWorld (.ok ()) world1 1).store.employees.map
      (fun e => (e.id, e.fingerprint_id)) = [(1, some 1)] ∧
    ¬ (∀ e ∈ (deleteFingerprintWorld (.ok ()) world1 1).store.employees,
        e.fingerprint_id ≠ some 1) := by
  refine ⟨by decide, by decide, by decide, by decide, by decide, by decide⟩

/-- C23 (amended). `deleteFingerprint` issues the device delete only and makes no
store call: whatever the device answers, the store is unchanged, so after it
succeeds every employee that referenced the enrollment id still references it
(the enrollment being gone from the device), and no employee references the
id afterwards exactly when none did before. -/
theorem delete_fingerprint_leaves_store (response : DeviceResponse Unit) (w : World) (id : Nat) :
    (deleteFingerprintWorld response w id).store = w.store ∧
    (deleteFingerprintWorld (.ok ()) w id).store = w.store ∧
    id ∉ (deleteFingerprintWorld (.ok ()) w id).enrolled ∧
    (∀ e ∈ w.store.employees, e.fingerprint_id = some id →
      e ∈ (deleteFingerprintWorld (.ok ()) w id).store.employees) ∧
    ((∀ e ∈ (deleteFingerprintWorld (.ok ()) w id).store.employees, e.fingerprint_id ≠ some id) ↔
      ∀ e ∈ w.store.employees, e.fingerprint_id ≠ some id) := by
  have h : ∀ r : DeviceResponse Unit, (deleteFingerprintWorld r w id).store = w.store := by
    intro r
    cases r <;> rfl
  refine ⟨h response, h _, ?_, ?_, ?_⟩
  · simp [deleteFingerprintWorld, deviceAfterDelete]
  · intro e he _
    rw [h]; exact he
  · rw [h]

/-- C24. Every employee-creation entry point rejects an empty name before any
device call or store write: with an empty name no device enroll is issued and
no employee is created.  `registerFingerprint` rejects the empty name itself,
before its device request and its insert; on the employee list page the
`required` constraint of the name input keeps the submit event, and with it
`handleCreateEmployee`, which calls no device, from running. -/
theorem empty_name_creates_nothing (env : RegisterEnv) (now : Nat) (fault : Option StoreError)
    (form : EmployeeForm) (s : Store) (hname : form.name = "") :
    (registerFingerprint env form s).store = s ∧
    (registerFingerprint env form s).deviceCalled = false ∧
    (registerFingerprint env form s).message = some "請填寫姓名" ∧
    submitNewEmployee now fault form s = (s, none) := by
  refine ⟨?_, ?_, ?_, ?_⟩
  · simp [registerFingerprint, hname]
  · simp [registerFingerprint, hname]
  · simp [registerFingerprint, hname]
  · simp [submitNewEmployee, newEmployeeFormValid, hname]

theorem empty_name_creates_nothing_witness :
    (registerFingerprint (registerOne 1700000123456) namelessForm sampleStore).store
      = sampleStore ∧
    (registerFingerprint (registerOne 1700000123456) namelessForm sampleStore).deviceCalled
      = false ∧
    (registerFingerprint (registerOne 1700000123456) namelessForm sampleStore).message
      = some "請填寫姓名" ∧
    submitNewEmployee 1700000123456 none namelessForm sampleStore = (sampleStore, none) :=
  empty_name_creates_nothing (registerOne 1700000123456) 1700000123456 none namelessForm
    sampleStore rfl

/-- C25 (the code at the failing input). On the fingerprint page the salary text
`-5` fails the `min="0"` constraint of its input, but `registerFingerprint` is
bound to a plain button, which runs no constraint validation, and passes
`parseFloat` of the text on: the employee is stored with salary -5.  The form
of the employee list page, submitted with the same text, is stopped by the
constraint. -/
theorem register_stores_negative_salary :
    salaryInputValid negativeSalaryForm.salary = false ∧
    (registerFingerprint (registerOne 1700000123456) negativeSalaryForm twoEmployeeStore).message
      = some "員工信息和指紋註冊成功！" ∧
    (registerFingerprint (registerOne 1700000123456) negativeSalaryForm
        twoEmployeeStore).store.employees.map (fun e => (e.id, e.name, e.salary))
      = [(1, "Lin", some 100), (2, "Wu", some 120), (3, "Chen", some (-5))] ∧
    submitNewEmployee 1700000123456 none negativeSalaryForm twoEmployeeStore
      = (twoEmployeeStore, none) := by
  refine ⟨?_, by decide, ?_, ?_⟩
  · simp [salaryInputValid, negativeSalaryForm]
  · simp [registerFingerprint, negativeSalaryForm, registerOne, insertEmployee, twoEmployeeStore,
      sampleEmployee, unlinkedEmployee, salaryOfRegister]
  · simp [submitNewEmployee, newEmployeeFormValid, salaryInputValid, negativeSalaryForm]

theorem handleDelete_fetch_failed (env : DeleteEnv) (s : Store) (id : Nat) (err : StoreError)
    (hconfirmed : env.confirmed = true) (hfetch : env.fetchFault = some err) :
    handleDelete env s id =
      { store := s, message := some (msgDeleteFailed err.message), deviceDelete := none } := by
  simp [handleDelete, hconfirmed, fingerprintOfEmployee, hfetch]

theorem handleDelete_delete_failed (env : DeleteEnv) (s : Store) (id : Nat) (e : Employee)
    (err : StoreError) (hconfirmed : env.confirmed = true) (hfetch : env.fetchFault = none)
    (hrow : s.employees.filter (fun x => x.id = id) = [e]) (hdelete : env.deleteFault = some err) :
    handleDelete env s id =
      { store := s, message := some (msgDeleteFailed err.message), deviceDelete := none } := by
  simp [handleDelete, hconfirmed, fingerprintOfEmployee, hfetch, hrow, single, Except.map,
    deleteEmployee, hdelete]

theorem handleDelete_device_ok (env : DeleteEnv) (s : Store) (id : Nat) (e : Employee)
    (f : Nat) (hconfirmed : env.confirmed = true)
    (hfetch : env.fetchFault = none) (hdelete : env.deleteFault = none)
    (hrow : s.employees.filter (fun x => x.id = id) = [e])
    (hf : e.fingerprint_id = some f) (hf0 : f ≠ 0) (hdev : env.device = .ok ()) :
    handleDelete env s id =
      { store := { s with
          employees := s.employees.filter (fun x => x.id ≠ id),
          attendance_records := s.attendance_records.filter (fun r => r.employee_id ≠ id) },
        message := some msgDeleted, deviceDelete := some f } := by
  simp [handleDelete, hconfirmed, fingerprintOfEmployee, hfetch, hrow, single, Except.map,
    deleteEmployee, hdelete, hf, truthyId, hf0, hdev]

theorem handleDelete_no_fingerprint (env : DeleteEnv) (s : Store) (id : Nat) (e : Employee)
    (hconfirmed : env.confirmed = true)
    (hfetch : env.fetchFault = none) (hdelete : env.deleteFault = none)
    (hrow : s.employees.filter (fun x => x.id = id) = [e])
    (hf : e.fingerprint_id = none) :
    handleDelete env s id =
      { store := { s with
          employees := s.employees.filter (fun x => x.id ≠ id),
          attendance_records := s.attendance_records.filter (fun r => r.employee_id ≠ id) },
        message := some msgDeleted, deviceDelete := none } := by
  simp [handleDelete, hconfirmed, fingerprintOfEmployee, hfetch, hrow, single, Except.map,
    deleteEmployee, hdelete, hf, truthyId]

/-- C27 (the claim fails). For an employee whose enrollment id is 0 the employee
list page renders the register-fingerprint button and no delete button: the
row counts as not registered.  When `handleDelete` runs on the row all the
same, store and device answering, the employee is removed, the test
`if (employee.fingerprint_id)` takes 0 for no fingerprint, no device delete is
issued, enrollment 0 stays on the device, and the flow reports full success.
For the sample employee, whose id is 7, the device delete is issued with 7. -/
theorem delete_skips_device_for_id_zero :
    zeroIdStore.employees.map (fun e => (e.id, e.fingerprint_id)) = [(1, some 0)] ∧
    zeroIdStore.employees.map offersDelete = [false] ∧
    zeroIdStore.employees.map offersRegisterFingerprint = [true] ∧
    (handleDelete (deleteEnvWith (.ok ())) zeroIdStore 1).store.employees = [] ∧
    (handleDelete (deleteEnvWith (.ok ())) zeroIdStore 1).deviceDelete = none ∧
    (handleDelete (deleteEnvWith (.ok ())) zeroIdStore 1).message = some msgDeleted ∧
    (deleteWorld (deleteEnvWith (.ok ())) ⟨zeroIdStore, [0]⟩ 1).enrolled = [0] ∧
    sampleStore.employees.map offersDelete = [true] ∧
    (handleDelete (deleteEnvWith (.ok ())) sampleStore 1).deviceDelete = some 7 ∧
    (deleteWorld (deleteEnvWith (.ok ())) ⟨sampleStore, [7]⟩ 1).enrolled = [] := by
  refine ⟨by decide, by decide, by decide, by decide, by decide, by decide, by decide, by decide,
    by decide, by decide⟩

/-- C27 (amended). Ordering of a confirmed run of `handleDelete`.  If reading
the employee fails, the store is unchanged and no device call is made.  If the
store deletion fails, the store is unchanged and no device call is made.  For
an employee with a non-zero enrollment id whose store deletion succeeds, the
device delete is called with that id, on the store from which the employee is
gone.  For an employee with no enrollment id, or with the id 0, which the code
takes for not registered, no device call is made and the outcome is full
success.  The device delete is called only so: whenever it is called, the id
is the non-zero id read from the employee and the store deletion has
succeeded. -/
theorem delete_flow_ordering (env : DeleteEnv) (s : Store) (id : Nat)
    (hconfirmed : env.confirmed = true) :
    (∀ err, fingerprintOfEmployee env.fetchFault s id = .error err →
      (handleDelete env s id).store = s ∧ (handleDelete env s id).deviceDelete = none ∧
      (handleDelete env s id).message = some (msgDeleteFailed err.message)) ∧
    (∀ fp err, fingerprintOfEmployee env.fetchFault s id = .ok fp → env.deleteFault = some err →
      (handleDelete env s id).store = s ∧ (handleDelete env s id).deviceDelete = none ∧
      (handleDelete env s id).message = some (msgDeleteFailed err.message)) ∧
    (∀ f, fingerprintOfEmployee env.fetchFault s id = .ok (some f) → f ≠ 0 →
      env.deleteFault = none →
      (handleDelete env s id).deviceDelete = some f ∧
      deleteEmployee none s id = .ok (handleDelete env s id).store) ∧
    (∀ fp, fingerprintOfEmployee env.fetchFault s id = .ok fp → (fp = none ∨ fp = some 0) →
      env.deleteFault = none →
      (handleDelete env s id).deviceDelete = none ∧
      (handleDelete env s id).message = some msgDeleted ∧
      deleteEmployee none s id = .ok (handleDelete env s id).store) ∧
    (∀ f, (handleDelete env s id).deviceDelete = some f →
      f ≠ 0 ∧ fingerprintOfEmployee env.fetchFault s id = .ok (some f) ∧
      env.deleteFault = none ∧ deleteEmployee none s id = .ok (handleDelete env s id).store) := by
  refine ⟨?_, ?_, ?_, ?_, ?_⟩
  · intro err h
    simp [handleDelete, hconfirmed, h]
  · intro fp err h hd
    simp [handleDelete, hconfirmed, h, deleteEmployee, hd]
  · intro f h hf hd
    cases hdev : env.device <;>
      simp [handleDelete, hconfirmed, h, deleteEmployee, hd, truthyId, hf, hdev]
  · intro fp h hfp hd
    rcases hfp with rfl | rfl <;>
      simp [handleDelete, hconfirmed, h, deleteEmployee, hd, truthyId]
  · intro f hcall
    cases h : fingerprintOfEmployee env.fetchFault s id with
    | error err => simp [handleDelete, hconfirmed, h] at hcall
    | ok fp =>
      cases hd : env.deleteFault with
      | some err => simp [handleDelete, hconfirmed, h, deleteEmployee, hd] at hcall
      | none =>
        cases fp with
        | none => simp [handleDelete, hconfirmed, h, deleteEmployee, hd, truthyId] at hcall
        | some g =>
          by_cases hg : g = 0
          · subst hg
            simp [handleDelete, hconfirmed, h, deleteEmployee, hd, truthyId] at hcall
          · cases hdev : env.device <;>
              simp [handleDelete, hconfirmed, h, deleteEmployee, hd, truthyId, hg, hdev]
                at hcall <;>
              subst hcall <;>
              simp [handleDelete, hconfirmed, h, deleteEmployee, hd, truthyId, hg, hdev]

theorem delete_flow_ordering_witness :
    (deleteEnvWith (.ok ())).confirmed = true ∧
    fingerprintOfEmployee (deleteEnvWith (.ok ())).fetchFault sampleStore 1 = .ok (some 7) ∧
    (handleDelete (deleteEnvWith (.ok ())) sampleStore 1).deviceDelete = some 7 ∧
    deleteEmployee none sampleStore 1
      = .ok (handleDelete (deleteEnvWith (.ok ())) sampleStore 1).store ∧
    (handleDelete (deleteEnvWith (.ok ())) sampleStore 1).store.employees = [] :=
  ⟨rfl, rfl,
    ((delete_flow_ordering (deleteEnvWith (.ok ())) sampleStore 1 rfl).2.2.1 7 rfl (by decide)
      rfl).1,
    ((delete_flow_ordering (deleteEnvWith (.ok ())) sampleStore 1 rfl).2.2.1 7 rfl (by decide)
      rfl).2,
    by decide⟩

/-! ### Page guards, the two payroll computations, and isolation -/

/-- C28 (the claim fails). With `isAuthenticated` false the fingerprint
management page still runs its operations: registering a new employee from
the empty state creates the employee and enrolls a fingerprint, and deleting
a fingerprint removes it from the device. -/
theorem fingerprint_page_runs_unauthenticated :
    (homePage false (.register (registerOne 1700000123456) sampleForm) world0).store.employees.map
      (fun e => (e.id, e.name, e.fingerprint_id)) = [(1, "Chen", some 1)] ∧
    (homePage false (.register (registerOne 1700000123456) sampleForm) world0).enrolled = [1] ∧
    world0.store.employees = [] ∧ world0.enrolled = [] ∧
    (homePage false (.deleteFingerprint (.ok ()) 1) world1).enrolled = [] ∧
    world1.enrolled = [1] := by
  refine ⟨by decide, by decide, by decide, by decide, by decide, by decide⟩

/-- C28 (amended). On the employee list page every operation that mutates the
store or the device (employee create, profile edit, employee delete,
fingerprint register) is reachable only when `isAuthenticated` is true: with
`isAuthenticated` false the page renders nothing and no operation changes
store or device.  The fingerprint management page does not consult
`isAuthenticated`: its operations (register a new employee with fingerprint,
delete a fingerprint) run the same whatever its value. -/
theorem list_page_guarded_home_unguarded (listAction : ListPageAction)
    (homeAction : HomeAction) (isAuthenticated : Bool) (w : World) :
    employeesPage false listAction w = w ∧
    homePage isAuthenticated homeAction w = homePage true homeAction w ∧
    employeesPage true (.create 1700000123456 none sampleForm) sampleWorld ≠ sampleWorld := by
  refine ⟨rfl, rfl, ?_⟩
  intro h
  have := congrArg (fun x : World => x.store.employees.length) h
  revert this
  decide

theorem statsOfDaily_eq_detail (days : DailyRecords) (employee : Employee) :
    (statsOfDaily days employee).fullDays = fullDaysDetail days ∧
    (statsOfDaily days employee).halfDays = halfDaysDetail days ∧
    (statsOfDaily days employee).totalSalary = monthlyPayDetail days employee := by
  have h := countDays_eq_detail days
  simp only [statsOfDaily, monthlyPayDetail, h, and_self]

theorem detail_list_perm (tz year month : Int) (s : Store) (id : Nat) :
    (orderByCreatedAtDesc (s.attendance_records.filter
      (fun r => r.employee_id = id ∧ (getMonthDates tz year month).1 ≤ r.created_at ∧
        r.created_at ≤ (getMonthDates tz year month).2))).Perm
    ((monthAttendance s (getMonthDates tz year month)).filter
      (fun record => record.employee_id = id)) := by
  have hfilter : (monthAttendance s (getMonthDates tz year month)).filter
      (fun record => record.employee_id = id)
      = s.attendance_records.filter
        (fun r => r.employee_id = id ∧ (getMonthDates tz year month).1 ≤ r.created_at ∧
          r.created_at ≤ (getMonthDates tz year month).2) := by
    rw [monthAttendance, List.filter_filter]
    apply List.filter_congr
    intro r _
    simp only [Bool.decide_and, Bool.and_assoc]
  rw [hfilter]
  exact List.perm_insertionSort _ _

/-- C29. The two payroll computations agree: for every mapping from calendar
date to records and every day rate, the full-day count, the half-day count and
the monthly pay computed inline on the employee detail page (the amount before
`toFixed(2)`) equal the `fullDays`, `halfDays` and total pay the list page's
computation yields for the same grouped records; and for every store and
month, the figures of the detail page of an employee equal the figures
`fetchEmployees` computes for that employee. -/
theorem payroll_pages_agree (tz year month : Int) (s : Store) (days : DailyRecords)
    (employee : Employee) (attendanceData : List AttendanceRecord) :
    fullDaysDetail days = (statsOfDaily days employee).fullDays ∧
    halfDaysDetail days = (statsOfDaily days employee).halfDays ∧
    monthlyPayDetail days employee = (statsOfDaily days employee).totalSalary ∧
    toFixed2 (monthlyPayDetail days employee)
      = toFixed2 (statsOfDaily days employee).totalSalary ∧
    employeeStats tz attendanceData employee
      = statsOfDaily (groupByDay tz (attendanceData.filter
          (fun record => record.employee_id = employee.id))) employee ∧
    fullDaysDetail (detailRecords tz year month s employee.id)
      = (employeeStats tz (monthAttendance s (getMonthDates tz year month)) employee).fullDays ∧
    halfDaysDetail (detailRecords tz year month s employee.id)
      = (employeeStats tz (monthAttendance s (getMonthDates tz year month)) employee).halfDays ∧
    monthlyPayDetail (detailRecords tz year month s employee.id) employee
      = (employeeStats tz (monthAttendance s
          (getMonthDates tz year month)) employee).totalSalary := by
  have h := statsOfDaily_eq_detail days employee
  have hperm := specDays_perm tz (detail_list_perm tz year month s employee.id)
  have hcount : countDays (objectValues (detailRecords tz year month s employee.id))
      = countDays (objectValues (groupByDay tz
          ((monthAttendance s (getMonthDates tz year month)).filter
            (fun record => record.employee_id = employee.id)))) := by
    simp only [detailRecords, countDays_groupByDay, hperm.1, hperm.2]
  have hd := countDays_eq_detail (detailRecords tz year month s employee.id)
  rw [hcount] at hd
  have hfd := congrArg DayCount.fullDays hd
  have hhd := congrArg DayCount.halfDays hd
  simp only at hfd hhd
  refine ⟨h.1.symm, h.2.1.symm, h.2.2.symm, by rw [h.2.2], rfl, ?_, ?_, ?_⟩
  · simp only [employeeStats]; exact hfd.symm
  · simp only [employeeStats]; exact hhd.symm
  · simp only [employeeStats, monthlyPayDetail, hfd, hhd]

/-- C30. Per-employee isolation in the monthly report: for every employee and
every two lists of the month's attendance records that contain the same
records of that employee (in whatever order, and differing arbitrarily in the
records of other employees), `fetchEmployees` computes the same `fullDays`,
`halfDays`, `daysWorked` and total pay for the employee. -/
theorem report_isolated_per_employee (tz : Int) (employee : Employee)
    (records others : List AttendanceRecord)
    (h : (records.filter (fun r => r.employee_id = employee.id)).Perm
      (others.filter (fun r => r.employee_id = employee.id))) :
    (employeeStats tz records employee).fullDays = (employeeStats tz others employee).fullDays ∧
    (employeeStats tz records employee).halfDays = (employeeStats tz others employee).halfDays ∧
    (employeeStats tz records employee).daysWorked
      = (employeeStats tz others employee).daysWorked ∧
    (employeeStats tz records employee).totalSalary
      = (employeeStats tz others employee).totalSalary := by
  have hs := specDays_perm tz h
  have he : employeeStats tz records employee = employeeStats tz others employee := by
    simp only [employeeStats, countDays_groupByDay, hs.1, hs.2]
  rw [he]
  exact ⟨rfl, rfl, rfl, rfl⟩

theorem report_isolated_per_employee_witness :
    (employeeStats 0 fullAndHalfDay sampleEmployee).fullDays
      = (employeeStats 0 mixedRecords sampleEmployee).fullDays ∧
    (employeeStats 0 fullAndHalfDay sampleEmployee).halfDays
      = (employeeStats 0 mixedRecords sampleEmployee).halfDays ∧
    (employeeStats 0 fullAndHalfDay sampleEmployee).daysWorked
      = (employeeStats 0 mixedRecords sampleEmployee).daysWorked ∧
    (employeeStats 0 fullAndHalfDay sampleEmployee).totalSalary
      = (employeeStats 0 mixedRecords sampleEmployee).totalSalary :=
  report_isolated_per_employee 0 sampleEmployee fullAndHalfDay mixedRecords (by decide)

end FingerprintAttendance
